import Mathlib

/-! Perception and occupancy-belief model of `GameAI/Perception`

A shallow embedding of `GATargetComponent.cpp` and `GAPerceptionComponent.cpp`.

Scalars (`float` in the sources) are elements of an arbitrary linearly ordered
field `F`, so every statement is one of exact arithmetic; at `F = ℚ` all
definitions evaluate.  The constants `0.1f`, `0.05f` are `1/10`, `1/20`.

Where a statement depends on rounding, the loops are repeated with every arithmetic
result passed through a rounding function, instantiated with the binary32 rounding
`roundF32` on `ℚ` (every binary32 value is a rational).

Everything the two sources only use (engine math, the line trace, the grid
actor, the grid map container, the structures declared in the headers) is either
a parameter or a definition modelled from the specification and marked as such.
-/

namespace GameAI

/-! ## Data model -/

/-- The engine's `FVector`, three scalar components. -/
structure FVector (F : Type) where
  X : F
  Y : F
  Z : F

/-- The cell reference `FCellRef(X, Y)` with `int32` coordinates. -/
structure FCellRef where
  X : Int
  Y : Int
deriving DecidableEq, Repr

/-- Modelled from the spec: `FCellRef::Invalid` is declared in the grid headers, which
are not among the sources; it is the reference no loop over a grid ever produces. -/
def FCellRef.Invalid : FCellRef := ⟨-1, -1⟩

/-- Modelled from the spec: `FCellRef::IsValid()` (grid headers), false exactly on the
reference with unset coordinates. -/
def FCellRef.IsValid (c : FCellRef) : Bool := decide (c.X ≠ -1) && decide (c.Y ≠ -1)

/-- Modelled from the spec: `FGAGridMap` (grid headers) is "a dense 2D array over the
grid's cell space": `XCount` by `YCount` cells, each holding one scalar.  The array
is represented by the value it holds at each cell reference; only references
inside the bounds are ever read or written. -/
structure FGAGridMap (F : Type) where
  XCount : Nat
  YCount : Nat
  Data : FCellRef → F

/-- Modelled from the spec: the bounds test of `FGAGridMap`, `0 ≤ X < XCount` and
`0 ≤ Y < YCount`. -/
def FGAGridMap.IsValidCell {F : Type} (m : FGAGridMap F) (c : FCellRef) : Bool :=
  decide (0 ≤ c.X) && decide (c.X < (m.XCount : Int)) &&
    decide (0 ≤ c.Y) && decide (c.Y < (m.YCount : Int))

/-- Modelled from the spec: `FGAGridMap::GetValue(CellRef, ValueOut)`.  Inside the bounds
the stored value is written to `ValueOut`; outside, `ValueOut` keeps the value `d`
it was initialised with. -/
def FGAGridMap.GetValue {F : Type} (m : FGAGridMap F) (c : FCellRef) (d : F) : F :=
  if m.IsValidCell c then m.Data c else d

/-- Modelled from the spec: `FGAGridMap::SetValue(CellRef, Value)`.  Inside the bounds the
cell is overwritten; outside, nothing happens. -/
def FGAGridMap.SetValue {F : Type} (m : FGAGridMap F) (c : FCellRef) (v : F) : FGAGridMap F :=
  if m.IsValidCell c then
    { m with Data := fun d => if d = c then v else m.Data d }
  else m

/-- The grid actor as the sources consume it (`AGAGridActor`, an external
collaborator): its dimensions, the world/cell conversions, the traversability
flag `EnumHasAllFlags(GetCellData(c), ECellData::CellDataTraversable)`, and
`GetNeighbors(c, true, ·)`, the traversable neighbours of a cell. -/
structure AGAGridActor (F : Type) where
  XCount : Nat
  YCount : Nat
  GetCellRef : FVector F → FCellRef
  GetCellPosition : FCellRef → FVector F
  IsTraversable : FCellRef → Bool
  GetNeighbors : FCellRef → List FCellRef

/-- Modelled from the spec: `AGAGridActor::IsCellRefInBounds`, the bounds test against the
grid's dimensions. -/
def AGAGridActor.IsCellRefInBounds {F : Type} (G : AGAGridActor F) (c : FCellRef) : Bool :=
  decide (0 ≤ c.X) && decide (c.X < (G.XCount : Int)) &&
    decide (0 ≤ c.Y) && decide (c.Y < (G.YCount : Int))

/-- Modelled from the spec: the constructor `FGAGridMap(Grid, InitialValue)`, a map "sized
to the world's grid" holding `v` everywhere. -/
def FGAGridMap.ofGrid {F : Type} (G : AGAGridActor F) (v : F) : FGAGridMap F :=
  { XCount := G.XCount, YCount := G.YCount, Data := fun _ => v }

/-- The cells visited by `for Y < YCount { for X < XCount { FCellRef(X, Y) } }`. -/
def cellsYX (XCount YCount : Nat) : List FCellRef :=
  (List.range YCount).flatMap fun (y : Nat) =>
    (List.range XCount).map fun (x : Nat) => FCellRef.mk (x : Int) (y : Int)

/-- The cells visited by `for x < XCount { for y < YCount { FCellRef(x, y) } }`. -/
def cellsXY (XCount YCount : Nat) : List FCellRef :=
  (List.range XCount).flatMap fun (x : Nat) =>
    (List.range YCount).map fun (y : Nat) => FCellRef.mk (x : Int) (y : Int)

/-- The three-valued status of a target (`ETargetState`). -/
inductive ETargetState where
  | GATS_Unknown
  | GATS_Immediate
  | GATS_Hidden
deriving DecidableEq, Repr

/-- The last-known kinematic state of a target (`FTargetCache`). -/
structure FTargetCache (F : Type) where
  State : ETargetState
  Position : FVector F
  Velocity : FVector F

/-- Modelled from the spec: `FTargetCache::Set(Position, Velocity)` (perception headers)
"refreshes last-known position/velocity" and leaves the status alone. -/
def FTargetCache.Set {F : Type} (s : FTargetCache F) (p v : FVector F) : FTargetCache F :=
  { s with Position := p, Velocity := v }

/-- The per-(observer, target) record `FTargetData`. -/
structure FTargetData (F : Type) where
  bClearLos : Bool
  Awareness : F

/-- The state of a `UGATargetComponent` the sources read and write: the cached
grid actor (`GetGridActor()`, null when no grid is bound), the last-known state
and the occupancy map. -/
structure UGATargetComponent (F : Type) where
  TargetGuid : Nat
  GridActor : Option (AGAGridActor F)
  LastKnownState : FTargetCache F
  OccupancyMap : FGAGridMap F

/-- Modelled from the spec: `UGATargetComponent::IsKnown()` (perception headers): the
status is Immediate or Hidden. -/
def UGATargetComponent.IsKnown {F : Type} (t : UGATargetComponent F) : Bool :=
  decide (t.LastKnownState.State = ETargetState.GATS_Immediate) ||
    decide (t.LastKnownState.State = ETargetState.GATS_Hidden)

/-! ## `UGATargetComponent::OccupancyMapSetPosition` -/

/-- The map part of `OccupancyMapSetPosition`: zero every cell of the map, then put
`1` on the cell of `Position` when the grid reports it in bounds. -/
def OccupancyMapSetPosition_map {F : Type} [LinearOrderedField F] (Grid : AGAGridActor F)
    (OccupancyMap : FGAGridMap F) (Position : FVector F) : FGAGridMap F :=
  let cleared := (cellsYX OccupancyMap.XCount OccupancyMap.YCount).foldl
    (fun m CellRef => m.SetValue CellRef 0) OccupancyMap
  let PositionCell := Grid.GetCellRef Position
  if Grid.IsCellRefInBounds PositionCell then cleared.SetValue PositionCell 1
  else cleared

/-- The method `UGATargetComponent::OccupancyMapSetPosition`: without a grid, return; otherwise
collapse the map onto the cell of `Position`. -/
def OccupancyMapSetPosition {F : Type} [LinearOrderedField F]
    (t : UGATargetComponent F) (Position : FVector F) : UGATargetComponent F :=
  match t.GridActor with
  | none => t
  | some Grid =>
    { t with OccupancyMap := OccupancyMapSetPosition_map Grid t.OccupancyMap Position }

/-! ## Observers: `UGAPerceptionComponent` -/

/-- The result of a line trace: whether it hit, and the actor hit (if any). -/
structure FHitResult where
  bHit : Bool
  Actor : Option Nat

/-- The engine services the perception code calls: `FVector::Distance`,
`FVector::GetSafeNormal`, `FMath::Acos`, `FMath::RadiansToDegrees` and
`UWorld::LineTraceSingleByChannel` on the visibility channel with one ignored
actor.  They are parameters of the model. -/
structure Engine (F : Type) where
  Distance : FVector F → FVector F → F
  GetSafeNormal : FVector F → FVector F
  Acos : F → F
  RadiansToDegrees : F → F
  LineTraceSingleByChannel : FVector F → FVector F → Nat → FHitResult

/-- Component-wise difference of two vectors. -/
def FVector.sub {F : Type} [LinearOrderedField F] (a b : FVector F) : FVector F :=
  ⟨a.X - b.X, a.Y - b.Y, a.Z - b.Z⟩

/-- The dot product `FVector::DotProduct`. -/
def FVector.DotProduct {F : Type} [LinearOrderedField F] (a b : FVector F) : F :=
  a.X * b.X + a.Y * b.Y + a.Z * b.Z

/-- The engine's `FMath::Clamp(X, Min, Max)`. -/
def Clamp {F : Type} [LinearOrderedField F] (x lo hi : F) : F :=
  if x < lo then lo else if x < hi then x else hi

/-- An actor as the sources read it: identity, location, velocity, forward vector. -/
structure AActor (F : Type) where
  Id : Nat
  Location : FVector F
  Velocity : FVector F
  Forward : FVector F

/-- The vision parameters of an observer. -/
structure FVisionParameters (F : Type) where
  VisionAngle : F
  VisionDistance : F

/-- The state of a `UGAPerceptionComponent`: the pawn `GetOwnerPawn()` returns (null
when there is none), the vision parameters and the map from target guid to
`FTargetData`. -/
structure UGAPerceptionComponent (F : Type) where
  OwnerPawn : Option (AActor F)
  VisionParameters : FVisionParameters F
  TargetMap : Nat → Option (FTargetData F)

/-- Modelled from the spec: the default-constructed `FTargetData` (perception headers), an
entry "created lazily on first evaluation": no line of sight, awareness `0`. -/
def FTargetData.new {F : Type} [LinearOrderedField F] : FTargetData F :=
  { bClearLos := false, Awareness := 0 }

/-- The method `UGAPerceptionComponent::GetTargetData`. -/
def UGAPerceptionComponent.GetTargetData {F : Type} (self : UGAPerceptionComponent F)
    (TargetGuid : Nat) : Option (FTargetData F) :=
  self.TargetMap TargetGuid

/-- The method `UGAPerceptionComponent::TestVisibility`: no pawn, out of range, outside the
vision cone, or a hit on the trace give `false`; otherwise `true`. -/
def TestVisibility {F : Type} [LinearOrderedField F] (E : Engine F)
    (self : UGAPerceptionComponent F) (TestLocation : FVector F) : Bool :=
  match self.OwnerPawn with
  | none => false
  | some OwnerPawn =>
    let OwnerLocation := OwnerPawn.Location
    let DirectionToTest := E.GetSafeNormal (TestLocation.sub OwnerLocation)
    let DistanceToTest := E.Distance OwnerLocation TestLocation
    if DistanceToTest > self.VisionParameters.VisionDistance then false
    else
      let OwnerForward := OwnerPawn.Forward
      let DotProduct := FVector.DotProduct OwnerForward DirectionToTest
      let AngleToTest := E.RadiansToDegrees (E.Acos (Clamp DotProduct (-1) 1))
      if AngleToTest > self.VisionParameters.VisionAngle / 2 then false
      else
        let HitResult := E.LineTraceSingleByChannel OwnerLocation TestLocation OwnerPawn.Id
        if !HitResult.bHit then true else false

/-- The value `bClearLos` receives in `UpdateTargetData` (the vision cone test and
the line trace towards the target actor). -/
def UpdateTargetData_ClearLos {F : Type} [LinearOrderedField F] (E : Engine F)
    (VisionParameters : FVisionParameters F) (OwnerPawn TargetActor : AActor F) : Bool :=
  let OwnerLocation := OwnerPawn.Location
  let TargetLocation := TargetActor.Location
  let DirectionToTarget := E.GetSafeNormal (TargetLocation.sub OwnerLocation)
  let DistanceToTarget := E.Distance OwnerLocation TargetLocation
  let inVisionCone :=
    if DistanceToTarget ≤ VisionParameters.VisionDistance then
      let OwnerForward := OwnerPawn.Forward
      let DotProduct := FVector.DotProduct OwnerForward DirectionToTarget
      let AngleToTarget := E.RadiansToDegrees (E.Acos (Clamp DotProduct (-1) 1))
      decide (AngleToTarget ≤ VisionParameters.VisionAngle / 2)
    else false
  if inVisionCone then
    let HitResult := E.LineTraceSingleByChannel OwnerLocation TargetLocation OwnerPawn.Id
    !HitResult.bHit || decide (HitResult.Actor = some TargetActor.Id)
  else false

/-- The awareness arithmetic of `UpdateTargetData`: gain `0.1` with clear line of
sight, lose `0.05` without, then clamp to `[0, 1]`. -/
def UpdateTargetData_Awareness {F : Type} [LinearOrderedField F] (bClearLos : Bool)
    (Awareness : F) : F :=
  let awarenessGainRate : F := 1 / 10
  let awarenessDecayRate : F := 1 / 20
  let Awareness1 := if bClearLos then Awareness + awarenessGainRate
    else Awareness - awarenessDecayRate
  Clamp Awareness1 0 1

/-- The method `UGAPerceptionComponent::UpdateTargetData` for the target with guid `TargetGuid`
whose owner is `TargetActor` (null when it has none). -/
def UpdateTargetData {F : Type} [LinearOrderedField F] (E : Engine F)
    (self : UGAPerceptionComponent F) (TargetGuid : Nat) (TargetActor : Option (AActor F)) :
    UGAPerceptionComponent F :=
  match self.OwnerPawn with
  | none => self
  | some OwnerPawn =>
    let TargetData : FTargetData F :=
      match self.TargetMap TargetGuid with
      | some d => d
      | none => FTargetData.new
    match TargetActor with
    | none =>
      { self with TargetMap := fun g => if g = TargetGuid then some TargetData else self.TargetMap g }
    | some TargetActor =>
      let bClearLos := UpdateTargetData_ClearLos E self.VisionParameters OwnerPawn TargetActor
      let Awareness := UpdateTargetData_Awareness bClearLos TargetData.Awareness
      { self with TargetMap := fun g =>
          if g = TargetGuid then some { bClearLos := bClearLos, Awareness := Awareness }
          else self.TargetMap g }

/-- What one simulation step supplies to an observer's `UpdateTargetData` for one
target: the world, the pawn `GetOwnerPawn()` returns and the target's owner. -/
structure UpdateInput (F : Type) where
  World : Engine F
  OwnerPawn : Option (AActor F)
  TargetActor : Option (AActor F)

/-- The line-of-sight outcome of a step: `bClearLos` as `UpdateTargetData` computes it,
when both the pawn and the target actor exist. -/
def UpdateInput.clearLos {F : Type} [LinearOrderedField F] (i : UpdateInput F)
    (VisionParameters : FVisionParameters F) : Option Bool :=
  match i.OwnerPawn, i.TargetActor with
  | some OwnerPawn, some TargetActor =>
    some (UpdateTargetData_ClearLos i.World VisionParameters OwnerPawn TargetActor)
  | _, _ => none

/-- The observer after `UpdateTargetData` ran once per step of `steps`, oldest first,
for the target with guid `TargetGuid`. -/
def UpdateTargetData_run {F : Type} [LinearOrderedField F] (TargetGuid : Nat)
    (steps : List (UpdateInput F)) (self : UGAPerceptionComponent F) :
    UGAPerceptionComponent F :=
  steps.foldl (fun pc i =>
    UpdateTargetData i.World { pc with OwnerPawn := i.OwnerPawn } TargetGuid i.TargetActor) self

/-! ## `UGATargetComponent::OccupancyMapUpdate` -/

/-- Lines 171-207 of `GATargetComponent.cpp`: the transient visibility map.  For every
observer the cells `(x, y)` with `x < XCount` and `y < XCount` are scanned; a cell
not yet visible, traversable, and passing the observer's `TestVisibility` at its
world position is set to `1`. -/
def OccupancyMapUpdate_VisibilityMap {F : Type} [LinearOrderedField F] (E : Engine F)
    (Grid : AGAGridActor F) (PerceptionSystem : Option (List (UGAPerceptionComponent F))) :
    FGAGridMap F :=
  let VisibilityMap : FGAGridMap F := FGAGridMap.ofGrid Grid 0
  match PerceptionSystem with
  | none => VisibilityMap
  | some PerceptionComponents =>
    PerceptionComponents.foldl (fun vis PerceptionComponent =>
      (cellsXY vis.XCount vis.XCount).foldl (fun vis CellRef =>
        if vis.GetValue CellRef 0 > 0 then vis
        else if !Grid.IsTraversable CellRef then vis
        else if TestVisibility E PerceptionComponent (Grid.GetCellPosition CellRef) then
          vis.SetValue CellRef 1
        else vis) vis) VisibilityMap

/-- One iteration of the loop of lines 209-230: a visible cell is zeroed, the mass of
a non-visible cell is added to `totalProbability`. -/
def OccupancyMapUpdate_pruneCell {F : Type} [LinearOrderedField F] (VisibilityMap : FGAGridMap F)
    (acc : FGAGridMap F × F) (CellRef : FCellRef) : FGAGridMap F × F :=
  let CellVisibility := VisibilityMap.GetValue CellRef 0
  let CellProbability := acc.1.GetValue CellRef 0
  if CellVisibility > 0 then (acc.1.SetValue CellRef 0, acc.2)
  else (acc.1, acc.2 + CellProbability)

/-- One iteration of the loop of lines 235-250: a non-visible cell is divided by
`totalProbability`. -/
def OccupancyMapUpdate_normalizeCell {F : Type} [LinearOrderedField F]
    (VisibilityMap : FGAGridMap F) (totalProbability : F)
    (m : FGAGridMap F) (CellRef : FCellRef) : FGAGridMap F :=
  let CellVisibility := VisibilityMap.GetValue CellRef 0
  if CellVisibility ≤ 0 then
    m.SetValue CellRef (m.GetValue CellRef 0 / totalProbability)
  else m

/-- The running total of lines 208-230 together with the map after that loop. -/
def OccupancyMapUpdate_pruneLoop {F : Type} [LinearOrderedField F]
    (VisibilityMap OccupancyMap : FGAGridMap F) : FGAGridMap F × F :=
  (cellsXY OccupancyMap.XCount OccupancyMap.YCount).foldl
    (OccupancyMapUpdate_pruneCell VisibilityMap) (OccupancyMap, 0)

/-- Lines 208-251 of `GATargetComponent.cpp`: prune the visible cells, then
renormalise the others when the total is positive. -/
def OccupancyMapUpdate_Prune {F : Type} [LinearOrderedField F]
    (VisibilityMap OccupancyMap : FGAGridMap F) : FGAGridMap F :=
  let r := OccupancyMapUpdate_pruneLoop VisibilityMap OccupancyMap
  let totalProbability := r.2
  if totalProbability > 0 then
    (cellsXY r.1.XCount r.1.YCount).foldl
      (OccupancyMapUpdate_normalizeCell VisibilityMap totalProbability) r.1
  else r.1

/-- The scan of lines 254-270: the running maximum and the cell holding it. -/
def OccupancyMapUpdate_maxProb {F : Type} [LinearOrderedField F] (OccupancyMap : FGAGridMap F) :
    F × FCellRef :=
  (cellsXY OccupancyMap.XCount OccupancyMap.YCount).foldl
    (fun acc CellRef =>
      let CellProbability := OccupancyMap.GetValue CellRef 0
      if CellProbability > acc.1 then (CellProbability, CellRef) else acc)
    (0, FCellRef.Invalid)

/-- Lines 253-276 of `GATargetComponent.cpp`: move the last-known position to the
centre of the cell of maximal mass, when there is one. -/
def OccupancyMapUpdate_BestGuess {F : Type} [LinearOrderedField F] (Grid : AGAGridActor F)
    (OccupancyMap : FGAGridMap F) (LastKnownState : FTargetCache F) : FTargetCache F :=
  let maxProbCell := (OccupancyMapUpdate_maxProb OccupancyMap).2
  if maxProbCell.IsValid then
    { LastKnownState with Position := Grid.GetCellPosition maxProbCell }
  else LastKnownState

/-- The method `UGATargetComponent::OccupancyMapUpdate`. -/
def OccupancyMapUpdate {F : Type} [LinearOrderedField F] (E : Engine F)
    (PerceptionSystem : Option (List (UGAPerceptionComponent F)))
    (t : UGATargetComponent F) : UGATargetComponent F :=
  match t.GridActor with
  | none => t
  | some Grid =>
    let VisibilityMap := OccupancyMapUpdate_VisibilityMap E Grid PerceptionSystem
    let OccupancyMap := OccupancyMapUpdate_Prune VisibilityMap t.OccupancyMap
    { t with
      OccupancyMap := OccupancyMap
      LastKnownState := OccupancyMapUpdate_BestGuess Grid OccupancyMap t.LastKnownState }

/-! ## `UGATargetComponent::OccupancyMapDiffuse` -/

/-- The body of the double loop of `OccupancyMapDiffuse` at one cell: `OriginalMap`
is the snapshot, `OccupancyMap` the live map. -/
def OccupancyMapDiffuse_cell {F : Type} [LinearOrderedField F] (Grid : AGAGridActor F)
    (OriginalMap OccupancyMap : FGAGridMap F) (CellRef : FCellRef) : FGAGridMap F :=
  if !Grid.IsTraversable CellRef then OccupancyMap
  else
    let CurrentValue := OriginalMap.GetValue CellRef 0
    if CurrentValue ≤ 0 then OccupancyMap
    else
      let ProbabilitySpread : F := 1 / 10
      let AmountToDiffuse := CurrentValue * ProbabilitySpread
      let NewCellValue := CurrentValue - AmountToDiffuse
      let OccupancyMap1 := OccupancyMap.SetValue CellRef NewCellValue
      let Neighbors := Grid.GetNeighbors CellRef
      if Neighbors.length > 0 then
        let AmountPerNeighbor := AmountToDiffuse / (Neighbors.length : F)
        Neighbors.foldl (fun m Neighbor =>
          m.SetValue Neighbor (m.GetValue Neighbor 0 + AmountPerNeighbor)) OccupancyMap1
      else
        OccupancyMap1.SetValue CellRef CurrentValue

/-- The double loop of `OccupancyMapDiffuse` run over the cells in the order `order`,
reading the snapshot `OriginalMap` and writing the live map. -/
def OccupancyMapDiffuse_over {F : Type} [LinearOrderedField F] (Grid : AGAGridActor F)
    (OriginalMap : FGAGridMap F) (order : List FCellRef) (OccupancyMap : FGAGridMap F) :
    FGAGridMap F :=
  order.foldl (OccupancyMapDiffuse_cell Grid OriginalMap) OccupancyMap

/-- The map part of `OccupancyMapDiffuse`: snapshot the map, then visit the cells
row by row (`Y` outer, `X` inner). -/
def OccupancyMapDiffuse_map {F : Type} [LinearOrderedField F] (Grid : AGAGridActor F)
    (OccupancyMap : FGAGridMap F) : FGAGridMap F :=
  let OriginalMap := OccupancyMap
  OccupancyMapDiffuse_over Grid OriginalMap
    (cellsYX OccupancyMap.XCount OccupancyMap.YCount) OccupancyMap

/-- The method `UGATargetComponent::OccupancyMapDiffuse`. -/
def OccupancyMapDiffuse {F : Type} [LinearOrderedField F] (t : UGATargetComponent F) :
    UGATargetComponent F :=
  match t.GridActor with
  | none => t
  | some Grid => { t with OccupancyMap := OccupancyMapDiffuse_map Grid t.OccupancyMap }

/-! ## `UGATargetComponent::TickComponent` -/

/-- The flag `isImmediate` of `TickComponent`: some registered observer holds an entry
for this target with awareness at least `1`. -/
def TickComponent_isImmediate {F : Type} [LinearOrderedField F]
    (PerceptionSystem : Option (List (UGAPerceptionComponent F))) (TargetGuid : Nat) : Bool :=
  match PerceptionSystem with
  | none => false
  | some PerceptionComponents =>
    PerceptionComponents.any fun PerceptionComponent =>
      match PerceptionComponent.GetTargetData TargetGuid with
      | some TargetData => decide (TargetData.Awareness ≥ 1)
      | none => false

/-- The method `UGATargetComponent::TickComponent` (the debug display apart).  `Owner` is the
actor `GetOwner()` returns. -/
def TickComponent {F : Type} [LinearOrderedField F] (E : Engine F)
    (PerceptionSystem : Option (List (UGAPerceptionComponent F))) (Owner : AActor F)
    (t : UGATargetComponent F) : UGATargetComponent F :=
  let isImmediate := TickComponent_isImmediate PerceptionSystem t.TargetGuid
  let t1 : UGATargetComponent F :=
    if isImmediate then
      let s1 : FTargetCache F := { t.LastKnownState with State := ETargetState.GATS_Immediate }
      let s2 := s1.Set Owner.Location Owner.Velocity
      OccupancyMapSetPosition { t with LastKnownState := s2 } s2.Position
    else if t.IsKnown then
      { t with LastKnownState := { t.LastKnownState with State := ETargetState.GATS_Hidden } }
    else t
  let t2 : UGATargetComponent F :=
    if t1.LastKnownState.State = ETargetState.GATS_Hidden then
      OccupancyMapUpdate E PerceptionSystem t1
    else t1
  if t2.IsKnown then OccupancyMapDiffuse t2 else t2

/-- What one simulation step supplies to a target's `TickComponent`. -/
structure TickInput (F : Type) where
  World : Engine F
  PerceptionSystem : Option (List (UGAPerceptionComponent F))
  Owner : AActor F

/-- The target after the steps `steps`, oldest first. -/
def TickComponent_run {F : Type} [LinearOrderedField F] (steps : List (TickInput F))
    (t : UGATargetComponent F) : UGATargetComponent F :=
  steps.foldl (fun t i => TickComponent i.World i.PerceptionSystem i.Owner t) t

/-! ## Measures used in the statements -/

/-- The sum of the masses of all cells of a map. -/
def totalMass {F : Type} [LinearOrderedField F] (m : FGAGridMap F) : F :=
  ((cellsXY m.XCount m.YCount).map fun c => m.GetValue c 0).sum

/-- The sum of the masses of the cells of `m` that `VisibilityMap` does not mark
visible (a cell is visible when its visibility value is `> 0`). -/
def nonVisibleMass {F : Type} [LinearOrderedField F] (VisibilityMap m : FGAGridMap F) : F :=
  (((cellsXY m.XCount m.YCount).filter fun c => decide (VisibilityMap.GetValue c 0 ≤ 0)).map
    fun c => m.GetValue c 0).sum

/-! ## Concrete instances used to exercise the statements -/

/-- A fully traversable `XCount` by `YCount` grid of unit cells over `ℚ` with
4-neighbour (non-diagonal) connectivity. -/
def exampleGrid (XCount YCount : Nat) : AGAGridActor ℚ where
  XCount := XCount
  YCount := YCount
  GetCellRef := fun v => ⟨⌊v.X⌋, ⌊v.Y⌋⟩
  GetCellPosition := fun c => ⟨(c.X : ℚ) + 1 / 2, (c.Y : ℚ) + 1 / 2, 0⟩
  IsTraversable := fun _ => true
  GetNeighbors := fun c =>
    ([⟨c.X - 1, c.Y⟩, ⟨c.X + 1, c.Y⟩, ⟨c.X, c.Y - 1⟩, ⟨c.X, c.Y + 1⟩] : List FCellRef).filter
      fun n => decide (0 ≤ n.X) && decide (n.X < (XCount : Int)) &&
        decide (0 ≤ n.Y) && decide (n.Y < (YCount : Int))

/-- A target bound to `exampleGrid XCount YCount` whose map holds `Data`. -/
def exampleTarget (XCount YCount : Nat) (State : ETargetState) (Data : FCellRef → ℚ) :
    UGATargetComponent ℚ where
  TargetGuid := 7
  GridActor := some (exampleGrid XCount YCount)
  LastKnownState := { State := State, Position := ⟨0, 0, 0⟩, Velocity := ⟨0, 0, 0⟩ }
  OccupancyMap := { XCount := XCount, YCount := YCount, Data := Data }

/-- A 2 by 2 visibility map marking the cells of column `x = 0` visible. -/
def exampleVisibility : FGAGridMap ℚ :=
  { XCount := 2, YCount := 2, Data := fun c => if c.X = 0 then 1 else 0 }

/-- A 2 by 2 belief map holding `1/4` in every cell. -/
def exampleUniform : FGAGridMap ℚ :=
  { XCount := 2, YCount := 2, Data := fun _ => 1 / 4 }

/-- An engine without geometry: every distance and angle is `0`, traces never hit. -/
def stubEngine : Engine ℚ where
  Distance := fun _ _ => 0
  GetSafeNormal := fun v => v
  Acos := fun _ => 0
  RadiansToDegrees := fun r => r
  LineTraceSingleByChannel := fun _ _ _ => ⟨false, none⟩

/-- An observer without a pawn whose awareness of target `7` is `a`. -/
def exampleObserver (a : ℚ) : UGAPerceptionComponent ℚ where
  OwnerPawn := none
  VisionParameters := ⟨90, 1000⟩
  TargetMap := fun g => if g = 7 then some ⟨false, a⟩ else none

/-- A step in which the only observer has awareness `a` of target `7`, whose owner
stands in cell `(1, 1)`. -/
def exampleTick (a : ℚ) : TickInput ℚ where
  World := stubEngine
  PerceptionSystem := some [exampleObserver a]
  Owner := ⟨1, ⟨3 / 2, 3 / 2, 0⟩, ⟨0, 0, 0⟩, ⟨1, 0, 0⟩⟩

/-- An observer with a pawn at the origin facing `+X`, vision angle `90`, vision
distance `1000`, holding awareness `a` of target `7`. -/
def exampleWatcher (a : ℚ) : UGAPerceptionComponent ℚ where
  OwnerPawn := some ⟨2, ⟨0, 0, 0⟩, ⟨0, 0, 0⟩, ⟨1, 0, 0⟩⟩
  VisionParameters := ⟨90, 1000⟩
  TargetMap := fun g => if g = 7 then some ⟨false, a⟩ else none

/-- A step of `UpdateTargetData` in the geometry-free world: pawn at the origin, target
actor at `(500, 0, 0)`. -/
def exampleUpdate : UpdateInput ℚ where
  World := stubEngine
  OwnerPawn := some ⟨2, ⟨0, 0, 0⟩, ⟨0, 0, 0⟩, ⟨1, 0, 0⟩⟩
  TargetActor := some ⟨1, ⟨500, 0, 0⟩, ⟨0, 0, 0⟩, ⟨1, 0, 0⟩⟩

/-- The belief of the 3 by 3 scenario: mass `1` at the centre `(1, 1)`, `0` elsewhere. -/
def exampleCentre : FCellRef → ℚ := fun c => if c = ⟨1, 1⟩ then 1 else 0

/-- Two adjacent cells holding `1/2` each, on a 2 by 1 grid. -/
def examplePair : UGATargetComponent ℚ :=
  exampleTarget 2 1 ETargetState.GATS_Hidden (fun _ => 1 / 2)

/-- The Euclidean reading of the engine services over a field equipped with a square
root `sqrt`, an arccosine `acos` and the constant `pi`: `Distance` is the root of
the squared distance, `GetSafeNormal` returns the vector itself when its squared
size is `1`, zero when it is below the tolerance `1e-8`, and the vector scaled by
the inverse root otherwise, `RadiansToDegrees` multiplies by `180 / pi`.  The
line trace is `trace`. -/
def euclideanEngine {F : Type} [LinearOrderedField F] (sqrt acos : F → F) (pi : F)
    (trace : FVector F → FVector F → Nat → FHitResult) : Engine F where
  Distance := fun a b =>
    sqrt ((b.X - a.X) * (b.X - a.X) + (b.Y - a.Y) * (b.Y - a.Y) + (b.Z - a.Z) * (b.Z - a.Z))
  GetSafeNormal := fun v =>
    let SquareSum := v.X * v.X + v.Y * v.Y + v.Z * v.Z
    if SquareSum = 1 then v
    else if SquareSum < 1 / 100000000 then ⟨0, 0, 0⟩
    else
      let Scale := 1 / sqrt SquareSum
      ⟨v.X * Scale, v.Y * Scale, v.Z * Scale⟩
  Acos := acos
  RadiansToDegrees := fun r => r * (180 / pi)
  LineTraceSingleByChannel := trace

/-- An observer whose pawn stands at the origin facing `+X`, with vision angle `90` and
vision distance `1000` (the defaults set in the constructor). -/
def originObserver {F : Type} [LinearOrderedField F] : UGAPerceptionComponent F where
  OwnerPawn := some ⟨2, ⟨0, 0, 0⟩, ⟨0, 0, 0⟩, ⟨1, 0, 0⟩⟩
  VisionParameters := ⟨90, 1000⟩
  TargetMap := fun _ => none

/-- The condition "some observer has awareness `≥ 1` for the target", in the words of
the specification: a registered observer holds an entry for the target whose
awareness is at least `1`. -/
def SpottedBySomeObserver {F : Type} [LinearOrderedField F]
    (PerceptionSystem : Option (List (UGAPerceptionComponent F))) (TargetGuid : Nat) : Prop :=
  ∃ PerceptionComponents, PerceptionSystem = some PerceptionComponents ∧
    ∃ PerceptionComponent ∈ PerceptionComponents, ∃ TargetData,
      PerceptionComponent.GetTargetData TargetGuid = some TargetData ∧ 1 ≤ TargetData.Awareness

/-- A belief on the 2 by 1 grid: `1/4` in cell `(0, 0)` and `3/4` in cell `(1, 0)`. -/
def exampleSkewed : UGATargetComponent ℚ :=
  exampleTarget 2 1 ETargetState.GATS_Hidden (fun c => if c = ⟨1, 0⟩ then 3 / 4 else 1 / 4)

/-- The three operations on the belief map of a target. -/
inductive BeliefOp (F : Type) where
  | SetPosition (Position : FVector F)
  | Update (World : Engine F) (PerceptionSystem : Option (List (UGAPerceptionComponent F)))
  | Diffuse

/-- Apply one belief operation to a target. -/
def BeliefOp.apply {F : Type} [LinearOrderedField F] :
    BeliefOp F → UGATargetComponent F → UGATargetComponent F
  | BeliefOp.SetPosition Position, t => OccupancyMapSetPosition t Position
  | BeliefOp.Update World PerceptionSystem, t => OccupancyMapUpdate World PerceptionSystem t
  | BeliefOp.Diffuse, t => OccupancyMapDiffuse t

/-- The target after the operations `ops`, oldest first. -/
def BeliefOp.run {F : Type} [LinearOrderedField F] (ops : List (BeliefOp F))
    (t : UGATargetComponent F) : UGATargetComponent F :=
  ops.foldl (fun t op => op.apply t) t

/-- A target registered on the 1 by 1 grid, whose single cell has no neighbour, holding
mass `a` there. -/
def exampleLonely (a : ℚ) : UGATargetComponent ℚ :=
  exampleTarget 1 1 ETargetState.GATS_Hidden (fun _ => a)

/-- The invariant "all values `≥ 0`" of the belief map: every cell of the map holds a
non-negative mass. -/
def FGAGridMap.NonNegative {F : Type} [LinearOrderedField F] (m : FGAGridMap F) : Prop :=
  ∀ c, m.IsValidCell c = true → 0 ≤ m.Data c

/-! ## The same loops with rounded arithmetic

The sources compute in `float`.  The definitions below repeat the arithmetic loops of
`OccupancyMapDiffuse` and `OccupancyMapUpdate` with every arithmetic result passed
through a rounding function `rnd`; with `rnd` the identity they are the exact
definitions above, with `rnd := roundF32` they are the binary32 computation. -/

/-- The body of the double loop of `OccupancyMapDiffuse` at one cell, each arithmetic
result rounded by `rnd`. -/
def OccupancyMapDiffuse_cell_rounded {F : Type} [LinearOrderedField F] (rnd : F → F)
    (Grid : AGAGridActor F) (OriginalMap OccupancyMap : FGAGridMap F) (CellRef : FCellRef) :
    FGAGridMap F :=
  if !Grid.IsTraversable CellRef then OccupancyMap
  else
    let CurrentValue := OriginalMap.GetValue CellRef 0
    if CurrentValue ≤ 0 then OccupancyMap
    else
      let ProbabilitySpread : F := rnd (1 / 10)
      let AmountToDiffuse := rnd (CurrentValue * ProbabilitySpread)
      let NewCellValue := rnd (CurrentValue - AmountToDiffuse)
      let OccupancyMap1 := OccupancyMap.SetValue CellRef NewCellValue
      let Neighbors := Grid.GetNeighbors CellRef
      if Neighbors.length > 0 then
        let AmountPerNeighbor := rnd (AmountToDiffuse / (Neighbors.length : F))
        Neighbors.foldl (fun m Neighbor =>
          m.SetValue Neighbor (rnd (m.GetValue Neighbor 0 + AmountPerNeighbor))) OccupancyMap1
      else
        OccupancyMap1.SetValue CellRef CurrentValue

/-- The method `UGATargetComponent::OccupancyMapDiffuse` with rounded arithmetic. -/
def OccupancyMapDiffuse_rounded {F : Type} [LinearOrderedField F] (rnd : F → F)
    (t : UGATargetComponent F) : UGATargetComponent F :=
  match t.GridActor with
  | none => t
  | some Grid =>
    let OriginalMap := t.OccupancyMap
    let OccupancyMap := (cellsYX t.OccupancyMap.XCount t.OccupancyMap.YCount).foldl
      (OccupancyMapDiffuse_cell_rounded rnd Grid OriginalMap) t.OccupancyMap
    { t with OccupancyMap := OccupancyMap }

/-- Lines 208-251 of `GATargetComponent.cpp` with rounded arithmetic: the running total
is rounded after each addition, each quotient is rounded. -/
def OccupancyMapUpdate_Prune_rounded {F : Type} [LinearOrderedField F] (rnd : F → F)
    (VisibilityMap OccupancyMap : FGAGridMap F) : FGAGridMap F :=
  let r := (cellsXY OccupancyMap.XCount OccupancyMap.YCount).foldl
    (fun (acc : FGAGridMap F × F) CellRef =>
      let CellVisibility := VisibilityMap.GetValue CellRef 0
      let CellProbability := acc.1.GetValue CellRef 0
      if CellVisibility > 0 then (acc.1.SetValue CellRef 0, acc.2)
      else (acc.1, rnd (acc.2 + CellProbability)))
    (OccupancyMap, 0)
  let totalProbability := r.2
  if totalProbability > 0 then
    (cellsXY r.1.XCount r.1.YCount).foldl
      (fun m CellRef =>
        let CellVisibility := VisibilityMap.GetValue CellRef 0
        if CellVisibility ≤ 0 then
          m.SetValue CellRef (rnd (m.GetValue CellRef 0 / totalProbability))
        else m) r.1
  else r.1

/-- The method `UGATargetComponent::OccupancyMapUpdate` with rounded arithmetic. -/
def OccupancyMapUpdate_rounded {F : Type} [LinearOrderedField F] (rnd : F → F) (E : Engine F)
    (PerceptionSystem : Option (List (UGAPerceptionComponent F)))
    (t : UGATargetComponent F) : UGATargetComponent F :=
  match t.GridActor with
  | none => t
  | some Grid =>
    let VisibilityMap := OccupancyMapUpdate_VisibilityMap E Grid PerceptionSystem
    let OccupancyMap := OccupancyMapUpdate_Prune_rounded rnd VisibilityMap t.OccupancyMap
    { t with
      OccupancyMap := OccupancyMap
      LastKnownState := OccupancyMapUpdate_BestGuess Grid OccupancyMap t.LastKnownState }

/-- Round a non-negative rational to the nearest integer, ties to even. -/
def roundHalfEven (x : ℚ) : Int :=
  let f := ⌊x⌋
  let r := x - (f : ℚ)
  if r < 1 / 2 then f
  else if 1 / 2 < r then f + 1
  else if f % 2 = 0 then f else f + 1

/-- The exponent of the last place of the binary32 values around `q ≠ 0`: 23 below the
binary exponent of `q`, and never below `-149` (the subnormal range). -/
def f32Exponent (q : ℚ) : Int := max (Int.log 2 |q| - 23) (-149)

/-- The binary32 value nearest to `q` (IEEE 754 round to nearest, ties to even: 24-bit
significand, subnormals included; overflow to infinity is not modelled). -/
def roundF32 (q : ℚ) : ℚ :=
  if q = 0 then 0
  else
    let m := roundHalfEven (|q| / (2 : ℚ) ^ f32Exponent q)
    if q < 0 then -((m : ℚ) * (2 : ℚ) ^ f32Exponent q) else (m : ℚ) * (2 : ℚ) ^ f32Exponent q

/-- The binary32 belief of the 2 by 1 grid holding `0.95f` in cell `(0, 0)` and `0` in
cell `(1, 0)`. -/
def exampleF32Diffuse : UGATargetComponent ℚ :=
  exampleTarget 2 1 ETargetState.GATS_Hidden
    (fun c => if c = ⟨0, 0⟩ then 15938355 / 16777216 else 0)

/-- The binary32 belief of the 3 by 1 grid holding `0.1f` in each cell. -/
def exampleF32Uniform : UGATargetComponent ℚ :=
  exampleTarget 3 1 ETargetState.GATS_Hidden (fun _ => 13421773 / 134217728)

/-- An engine without geometry in which a wall at `x = 1` stops every trace that ends
beyond it: every distance and angle is `0`, a trace hits exactly when its end point has
`X > 1`. -/
def walledEngine : Engine ℚ where
  Distance := fun _ _ => 0
  GetSafeNormal := fun v => v
  Acos := fun _ => 0
  RadiansToDegrees := fun r => r
  LineTraceSingleByChannel := fun _ End _ => ⟨decide (1 < End.X), none⟩

/-! ## Basic facts about grid maps -/

section GridLemmas

variable {F : Type}

theorem SetValue_XCount (m : FGAGridMap F) (c : FCellRef) (v : F) :
    (m.SetValue c v).XCount = m.XCount := by
  unfold FGAGridMap.SetValue; split <;> rfl

theorem SetValue_YCount (m : FGAGridMap F) (c : FCellRef) (v : F) :
    (m.SetValue c v).YCount = m.YCount := by
  unfold FGAGridMap.SetValue; split <;> rfl

theorem SetValue_IsValidCell (m : FGAGridMap F) (c d : FCellRef) (v : F) :
    (m.SetValue c v).IsValidCell d = m.IsValidCell d := by
  simp [FGAGridMap.IsValidCell, SetValue_XCount, SetValue_YCount]

theorem SetValue_Data (m : FGAGridMap F) (c d : FCellRef) (v : F) :
    (m.SetValue c v).Data d = if d = c ∧ m.IsValidCell c = true then v else m.Data d := by
  unfold FGAGridMap.SetValue
  by_cases hv : m.IsValidCell c = true
  · by_cases hd : d = c <;> simp [hv, hd]
  · simp [hv]

theorem FGAGridMap.ext_of {m n : FGAGridMap F} (hx : m.XCount = n.XCount)
    (hy : m.YCount = n.YCount) (hd : ∀ c, m.Data c = n.Data c) : m = n := by
  obtain ⟨mx, my, md⟩ := m
  obtain ⟨nx, ny, nd⟩ := n
  simp only at hx hy hd
  have hf : md = nd := funext hd
  subst hx; subst hy; subst hf
  rfl

theorem mem_cellsXY (X Y : Nat) (c : FCellRef) :
    c ∈ cellsXY X Y ↔ (0 ≤ c.X ∧ c.X < (X : Int)) ∧ (0 ≤ c.Y ∧ c.Y < (Y : Int)) := by
  obtain ⟨cx, cy⟩ := c
  simp only [cellsXY, List.mem_flatMap, List.mem_map, List.mem_range, FCellRef.mk.injEq]
  constructor
  · rintro ⟨x, hx, y, hy, h1, h2⟩
    omega
  · rintro ⟨⟨h1, h2⟩, h3, h4⟩
    exact ⟨cx.toNat, by omega, cy.toNat, by omega, by omega, by omega⟩

theorem mem_cellsYX (X Y : Nat) (c : FCellRef) :
    c ∈ cellsYX X Y ↔ (0 ≤ c.X ∧ c.X < (X : Int)) ∧ (0 ≤ c.Y ∧ c.Y < (Y : Int)) := by
  obtain ⟨cx, cy⟩ := c
  simp only [cellsYX, List.mem_flatMap, List.mem_map, List.mem_range, FCellRef.mk.injEq]
  constructor
  · rintro ⟨y, hy, x, hx, h1, h2⟩
    omega
  · rintro ⟨⟨h1, h2⟩, h3, h4⟩
    exact ⟨cy.toNat, by omega, cx.toNat, by omega, by omega, by omega⟩

theorem IsValidCell_iff (m : FGAGridMap F) (c : FCellRef) :
    m.IsValidCell c = true ↔
      (0 ≤ c.X ∧ c.X < (m.XCount : Int)) ∧ (0 ≤ c.Y ∧ c.Y < (m.YCount : Int)) := by
  simp [FGAGridMap.IsValidCell, and_assoc]

theorem mem_cellsXY_iff_valid (m : FGAGridMap F) (c : FCellRef) :
    c ∈ cellsXY m.XCount m.YCount ↔ m.IsValidCell c = true := by
  rw [mem_cellsXY, IsValidCell_iff]

theorem mem_cellsYX_iff_valid (m : FGAGridMap F) (c : FCellRef) :
    c ∈ cellsYX m.XCount m.YCount ↔ m.IsValidCell c = true := by
  rw [mem_cellsYX, IsValidCell_iff]

theorem nodup_cellsXY (X Y : Nat) : (cellsXY X Y).Nodup := by
  unfold cellsXY
  rw [List.nodup_flatMap]
  refine ⟨?_, ?_⟩
  · intro x _
    refine (List.nodup_range Y).map ?_
    intro a b h
    simpa using h
  · refine (List.nodup_range X).pairwise_of_forall_ne ?_
    intro a _ b _ hab
    simp only [Function.onFun, List.disjoint_left, List.mem_map, List.mem_range]
    rintro c ⟨y, _, rfl⟩ ⟨y2, _, h⟩
    simp at h
    omega

theorem nodup_cellsYX (X Y : Nat) : (cellsYX X Y).Nodup := by
  unfold cellsYX
  rw [List.nodup_flatMap]
  refine ⟨?_, ?_⟩
  · intro y _
    refine (List.nodup_range X).map ?_
    intro a b h
    simpa using h
  · refine (List.nodup_range Y).pairwise_of_forall_ne ?_
    intro a _ b _ hab
    simp only [Function.onFun, List.disjoint_left, List.mem_map, List.mem_range]
    rintro c ⟨x, _, rfl⟩ ⟨x2, _, h⟩
    simp at h
    omega

/-- A loop that rewrites each visited cell from its own current value acts cell by
cell: dimensions are kept and a visited in-bounds cell `d` ends with `f d` of its
old value. -/
theorem foldl_SetValue_pointwise [Zero F] (f : FCellRef → F → F) (l : List FCellRef)
    (hl : l.Nodup) (m : FGAGridMap F) :
    (l.foldl (fun m c => m.SetValue c (f c (m.GetValue c 0))) m).XCount = m.XCount ∧
    (l.foldl (fun m c => m.SetValue c (f c (m.GetValue c 0))) m).YCount = m.YCount ∧
    ∀ d, (l.foldl (fun m c => m.SetValue c (f c (m.GetValue c 0))) m).Data d =
      if d ∈ l ∧ m.IsValidCell d = true then f d (m.Data d) else m.Data d := by
  induction l generalizing m with
  | nil => simp
  | cons c l ih =>
    rw [List.nodup_cons] at hl
    obtain ⟨h1, h2, h3⟩ := ih hl.2 (m.SetValue c (f c (m.GetValue c 0)))
    simp only [List.foldl_cons]
    refine ⟨by rw [h1, SetValue_XCount], by rw [h2, SetValue_YCount], ?_⟩
    intro d
    rw [h3 d, SetValue_IsValidCell, SetValue_Data]
    by_cases hdc : d = c
    · subst hdc
      by_cases hv : m.IsValidCell d = true
      · simp [hl.1, hv, FGAGridMap.GetValue]
      · simp [hl.1, hv]
    · by_cases hdl : d ∈ l <;> by_cases hv : m.IsValidCell d = true <;> simp [hdc, hdl, hv]

end GridLemmas

section SetPositionLemmas

variable {F : Type} [LinearOrderedField F]

theorem SetPosition_map_XCount (Grid : AGAGridActor F) (m : FGAGridMap F) (p : FVector F) :
    (OccupancyMapSetPosition_map Grid m p).XCount = m.XCount := by
  have h := (foldl_SetValue_pointwise (fun _ _ => (0 : F)) _
    (nodup_cellsYX m.XCount m.YCount) m).1
  simp only [OccupancyMapSetPosition_map]
  split
  · rw [SetValue_XCount]; exact h
  · exact h

theorem SetPosition_map_YCount (Grid : AGAGridActor F) (m : FGAGridMap F) (p : FVector F) :
    (OccupancyMapSetPosition_map Grid m p).YCount = m.YCount := by
  have h := (foldl_SetValue_pointwise (fun _ _ => (0 : F)) _
    (nodup_cellsYX m.XCount m.YCount) m).2.1
  simp only [OccupancyMapSetPosition_map]
  split
  · rw [SetValue_YCount]; exact h
  · exact h

theorem SetPosition_map_IsValidCell (Grid : AGAGridActor F) (m : FGAGridMap F) (p : FVector F)
    (c : FCellRef) :
    (OccupancyMapSetPosition_map Grid m p).IsValidCell c = m.IsValidCell c := by
  simp [FGAGridMap.IsValidCell, SetPosition_map_XCount, SetPosition_map_YCount]

/-- The collapsed map, cell by cell. -/
theorem SetPosition_map_Data (Grid : AGAGridActor F) (m : FGAGridMap F) (p : FVector F)
    (d : FCellRef) :
    (OccupancyMapSetPosition_map Grid m p).Data d =
      if m.IsValidCell d = true then
        (if d = Grid.GetCellRef p ∧ Grid.IsCellRefInBounds (Grid.GetCellRef p) = true then 1 else 0)
      else m.Data d := by
  obtain ⟨h1, h2, h3⟩ := foldl_SetValue_pointwise (fun _ _ => (0 : F)) _
    (nodup_cellsYX m.XCount m.YCount) m
  have hv : ∀ c, ((cellsYX m.XCount m.YCount).foldl
      (fun m c => m.SetValue c ((fun _ _ => (0 : F)) c (m.GetValue c 0))) m).IsValidCell c
        = m.IsValidCell c := by
    intro c; simp [FGAGridMap.IsValidCell, h1, h2]
  simp only [OccupancyMapSetPosition_map]
  simp only at h3 hv
  have hmem := mem_cellsYX_iff_valid m d
  by_cases hb : Grid.IsCellRefInBounds (Grid.GetCellRef p) = true
  · simp only [hb, if_true, and_true]
    rw [SetValue_Data, h3 d, hv]
    by_cases hd : d = Grid.GetCellRef p
    · rw [← hd]
      by_cases hvd : m.IsValidCell d = true <;> simp [hvd]
    · by_cases hvd : m.IsValidCell d = true <;> simp [hvd, hd, hmem]
  · simp only [hb, and_false, if_false, Bool.false_eq_true]
    rw [h3 d]
    by_cases hvd : m.IsValidCell d = true <;> simp [hvd, hmem]

end SetPositionLemmas

section PruneLemmas

variable {F : Type} [LinearOrderedField F]

theorem SetValue_GetValue_self (m : FGAGridMap F) (c : FCellRef) :
    m.SetValue c (m.GetValue c 0) = m := by
  apply FGAGridMap.ext_of (SetValue_XCount _ _ _) (SetValue_YCount _ _ _)
  intro d
  rw [SetValue_Data]
  by_cases h : d = c ∧ m.IsValidCell c = true
  · obtain ⟨rfl, hv⟩ := h
    simp [FGAGridMap.GetValue, hv]
  · simp [h]

theorem GetValue_SetValue_ne (m : FGAGridMap F) (c d : FCellRef) (v : F) (h : d ≠ c) :
    (m.SetValue c v).GetValue d 0 = m.GetValue d 0 := by
  simp [FGAGridMap.GetValue, SetValue_IsValidCell, SetValue_Data, h]

/-- The map component of one pruning iteration, as a write to the visited cell. -/
theorem pruneCell_fst (vis : FGAGridMap F) (acc : FGAGridMap F × F) (c : FCellRef) :
    (OccupancyMapUpdate_pruneCell vis acc c).1 =
      acc.1.SetValue c (if vis.GetValue c 0 > 0 then 0 else acc.1.GetValue c 0) := by
  unfold OccupancyMapUpdate_pruneCell
  by_cases h : vis.GetValue c 0 > 0
  · simp [h]
  · simp [h, SetValue_GetValue_self]

theorem pruneCell_snd (vis : FGAGridMap F) (acc : FGAGridMap F × F) (c : FCellRef) :
    (OccupancyMapUpdate_pruneCell vis acc c).2 =
      acc.2 + (if vis.GetValue c 0 ≤ 0 then acc.1.GetValue c 0 else 0) := by
  unfold OccupancyMapUpdate_pruneCell
  by_cases h : vis.GetValue c 0 > 0
  · simp [h, not_le.mpr h]
  · simp [h, not_lt.mp h]

/-- The pruning loop over a duplicate-free list of cells: the map is rewritten cell by
cell and the total is the starting total plus the masses of the non-visible cells. -/
theorem pruneLoop_fold (vis : FGAGridMap F) (l : List FCellRef) (hl : l.Nodup)
    (m : FGAGridMap F) (a : F) :
    (l.foldl (OccupancyMapUpdate_pruneCell vis) (m, a)).1 =
        l.foldl (fun m c => m.SetValue c
          ((fun c v => if vis.GetValue c 0 > 0 then 0 else v) c (m.GetValue c 0))) m ∧
    (l.foldl (OccupancyMapUpdate_pruneCell vis) (m, a)).2 =
        a + ((l.filter fun c => decide (vis.GetValue c 0 ≤ 0)).map fun c => m.GetValue c 0).sum := by
  induction l generalizing m a with
  | nil => simp
  | cons c l ih =>
    rw [List.nodup_cons] at hl
    simp only [List.foldl_cons]
    have hstep : OccupancyMapUpdate_pruneCell vis (m, a) c =
        ((OccupancyMapUpdate_pruneCell vis (m, a) c).1,
          (OccupancyMapUpdate_pruneCell vis (m, a) c).2) := rfl
    rw [hstep, pruneCell_fst, pruneCell_snd]
    obtain ⟨h1, h2⟩ := ih hl.2
      (m.SetValue c (if vis.GetValue c 0 > 0 then 0 else m.GetValue c 0))
      (a + (if vis.GetValue c 0 ≤ 0 then m.GetValue c 0 else 0))
    refine ⟨h1, ?_⟩
    rw [h2]
    have hrest : ((l.filter fun c => decide (vis.GetValue c 0 ≤ 0)).map fun d =>
          (m.SetValue c (if vis.GetValue c 0 > 0 then 0 else m.GetValue c 0)).GetValue d 0) =
        ((l.filter fun c => decide (vis.GetValue c 0 ≤ 0)).map fun d => m.GetValue d 0) := by
      apply List.map_congr_left
      intro d hd
      have hdl : d ∈ l := (List.mem_filter.mp hd).1
      exact GetValue_SetValue_ne _ _ _ _ (fun h => hl.1 (h ▸ hdl))
    rw [hrest]
    by_cases hc : vis.GetValue c 0 ≤ 0
    · simp [List.filter_cons, hc, add_assoc]
    · simp [List.filter_cons, hc]

theorem pruneLoop_total (vis m : FGAGridMap F) :
    (OccupancyMapUpdate_pruneLoop vis m).2 = nonVisibleMass vis m := by
  unfold OccupancyMapUpdate_pruneLoop nonVisibleMass
  rw [(pruneLoop_fold vis _ (nodup_cellsXY _ _) m 0).2, zero_add]

theorem pruneLoop_XCount (vis m : FGAGridMap F) :
    (OccupancyMapUpdate_pruneLoop vis m).1.XCount = m.XCount := by
  unfold OccupancyMapUpdate_pruneLoop
  rw [(pruneLoop_fold vis _ (nodup_cellsXY _ _) m 0).1]
  exact (foldl_SetValue_pointwise _ _ (nodup_cellsXY _ _) m).1

theorem pruneLoop_YCount (vis m : FGAGridMap F) :
    (OccupancyMapUpdate_pruneLoop vis m).1.YCount = m.YCount := by
  unfold OccupancyMapUpdate_pruneLoop
  rw [(pruneLoop_fold vis _ (nodup_cellsXY _ _) m 0).1]
  exact (foldl_SetValue_pointwise _ _ (nodup_cellsXY _ _) m).2.1

theorem pruneLoop_IsValidCell (vis m : FGAGridMap F) (c : FCellRef) :
    (OccupancyMapUpdate_pruneLoop vis m).1.IsValidCell c = m.IsValidCell c := by
  simp [FGAGridMap.IsValidCell, pruneLoop_XCount, pruneLoop_YCount]

theorem pruneLoop_Data (vis m : FGAGridMap F) (d : FCellRef) :
    (OccupancyMapUpdate_pruneLoop vis m).1.Data d =
      if m.IsValidCell d = true ∧ vis.GetValue d 0 > 0 then 0 else m.Data d := by
  unfold OccupancyMapUpdate_pruneLoop
  rw [(pruneLoop_fold vis _ (nodup_cellsXY _ _) m 0).1,
    (foldl_SetValue_pointwise _ _ (nodup_cellsXY _ _) m).2.2 d]
  have hmem := mem_cellsXY_iff_valid m d
  by_cases hv : m.IsValidCell d = true <;> by_cases hs : vis.GetValue d 0 > 0 <;>
    simp [hv, hs, hmem]

theorem normalizeCell_eq (vis : FGAGridMap F) (T : F) (m : FGAGridMap F) (c : FCellRef) :
    OccupancyMapUpdate_normalizeCell vis T m c =
      m.SetValue c ((fun c v => if vis.GetValue c 0 ≤ 0 then v / T else v) c (m.GetValue c 0)) := by
  unfold OccupancyMapUpdate_normalizeCell
  by_cases h : vis.GetValue c 0 ≤ 0
  · simp [h]
  · simp [h, SetValue_GetValue_self]

/-- The renormalising loop over the cells of `m`, cell by cell. -/
theorem normalizeLoop_pointwise (vis : FGAGridMap F) (T : F) (m : FGAGridMap F) :
    ((cellsXY m.XCount m.YCount).foldl (OccupancyMapUpdate_normalizeCell vis T) m).XCount
        = m.XCount ∧
    ((cellsXY m.XCount m.YCount).foldl (OccupancyMapUpdate_normalizeCell vis T) m).YCount
        = m.YCount ∧
    ∀ d, ((cellsXY m.XCount m.YCount).foldl (OccupancyMapUpdate_normalizeCell vis T) m).Data d =
      if m.IsValidCell d = true ∧ vis.GetValue d 0 ≤ 0 then m.Data d / T else m.Data d := by
  have hf : OccupancyMapUpdate_normalizeCell vis T = fun m c =>
      m.SetValue c ((fun c v => if vis.GetValue c 0 ≤ 0 then v / T else v) c (m.GetValue c 0)) :=
    funext fun m => funext fun c => normalizeCell_eq vis T m c
  obtain ⟨h1, h2, h3⟩ := foldl_SetValue_pointwise
    (fun c v => if vis.GetValue c 0 ≤ 0 then v / T else v) _ (nodup_cellsXY m.XCount m.YCount) m
  rw [hf]
  refine ⟨h1, h2, ?_⟩
  intro d
  rw [h3 d]
  have hmem := mem_cellsXY_iff_valid m d
  by_cases hv : m.IsValidCell d = true <;> by_cases hs : vis.GetValue d 0 ≤ 0 <;>
    simp [hv, hs, hmem]

theorem Prune_XCount (vis m : FGAGridMap F) :
    (OccupancyMapUpdate_Prune vis m).XCount = m.XCount := by
  simp only [OccupancyMapUpdate_Prune]
  split
  · rw [(normalizeLoop_pointwise vis _ _).1, pruneLoop_XCount]
  · exact pruneLoop_XCount vis m

theorem Prune_YCount (vis m : FGAGridMap F) :
    (OccupancyMapUpdate_Prune vis m).YCount = m.YCount := by
  simp only [OccupancyMapUpdate_Prune]
  split
  · rw [(normalizeLoop_pointwise vis _ _).2.1, pruneLoop_YCount]
  · exact pruneLoop_YCount vis m

theorem Prune_IsValidCell (vis m : FGAGridMap F) (c : FCellRef) :
    (OccupancyMapUpdate_Prune vis m).IsValidCell c = m.IsValidCell c := by
  simp [FGAGridMap.IsValidCell, Prune_XCount, Prune_YCount]

/-- The pruned and renormalised map, cell by cell. -/
theorem Prune_Data (vis m : FGAGridMap F) (d : FCellRef) :
    (OccupancyMapUpdate_Prune vis m).Data d =
      if m.IsValidCell d = true then
        (if vis.GetValue d 0 > 0 then 0
         else if nonVisibleMass vis m > 0 then m.Data d / nonVisibleMass vis m else m.Data d)
      else m.Data d := by
  simp only [OccupancyMapUpdate_Prune]
  rw [pruneLoop_total]
  by_cases hT : nonVisibleMass vis m > 0
  · simp only [hT, if_true]
    rw [(normalizeLoop_pointwise vis _ _).2.2 d, pruneLoop_IsValidCell, pruneLoop_Data]
    by_cases hv : m.IsValidCell d = true <;> by_cases hs : vis.GetValue d 0 > 0 <;>
      simp [hv, hs, not_le.mpr, le_of_not_lt]
  · simp only [hT, if_false]
    rw [pruneLoop_Data]
    by_cases hv : m.IsValidCell d = true <;> by_cases hs : vis.GetValue d 0 > 0 <;> simp [hv, hs]

/-- Non-negative terms with a non-positive sum are all zero. -/
theorem List.all_zero_of_sum_nonpos {α : Type} (l : List α) (g : α → F)
    (hnn : ∀ x ∈ l, 0 ≤ g x) (hs : (l.map g).sum ≤ 0) : ∀ x ∈ l, g x = 0 := by
  induction l with
  | nil => simp
  | cons a l ih =>
    simp only [List.map_cons, List.sum_cons] at hs
    have ha : 0 ≤ g a := hnn a (List.mem_cons_self _ _)
    have hl : 0 ≤ (l.map g).sum :=
      List.sum_nonneg (by
        intro x hx
        obtain ⟨y, hy, rfl⟩ := List.mem_map.mp hx
        exact hnn y (List.mem_cons_of_mem _ hy))
    intro x hx
    rcases List.mem_cons.mp hx with rfl | hx
    · linarith
    · exact ih (fun y hy => hnn y (List.mem_cons_of_mem _ hy)) (by linarith) x hx

end PruneLemmas

/-! ## Collapse to a point -/

section Collapse

variable {F : Type} [LinearOrderedField F]

/-- C8 (collapse postcondition).  With a grid bound and the map sized to it, after
`OccupancyMapSetPosition(Position)`: if the cell of `Position` is in bounds, that
cell is a cell of the map holding `1` and every other cell of the map holds `0`;
if it is out of bounds, every cell of the map holds `0`. -/
theorem OccupancyMapSetPosition_collapse (t : UGATargetComponent F) (Grid : AGAGridActor F)
    (Position : FVector F) (hGrid : t.GridActor = some Grid)
    (hX : t.OccupancyMap.XCount = Grid.XCount) (hY : t.OccupancyMap.YCount = Grid.YCount) :
    (Grid.IsCellRefInBounds (Grid.GetCellRef Position) = true →
      (OccupancyMapSetPosition t Position).OccupancyMap.IsValidCell (Grid.GetCellRef Position)
          = true ∧
        (OccupancyMapSetPosition t Position).OccupancyMap.Data (Grid.GetCellRef Position) = 1 ∧
        ∀ c, (OccupancyMapSetPosition t Position).OccupancyMap.IsValidCell c = true →
          c ≠ Grid.GetCellRef Position →
          (OccupancyMapSetPosition t Position).OccupancyMap.Data c = 0) ∧
    (Grid.IsCellRefInBounds (Grid.GetCellRef Position) = false →
      ∀ c, (OccupancyMapSetPosition t Position).OccupancyMap.IsValidCell c = true →
        (OccupancyMapSetPosition t Position).OccupancyMap.Data c = 0) := by
  have hb : ∀ c, t.OccupancyMap.IsValidCell c = Grid.IsCellRefInBounds c := by
    intro c; simp [FGAGridMap.IsValidCell, AGAGridActor.IsCellRefInBounds, hX, hY]
  simp only [OccupancyMapSetPosition, hGrid, SetPosition_map_IsValidCell, SetPosition_map_Data]
  refine ⟨fun hin => ⟨by rw [hb]; exact hin, ?_, ?_⟩, fun hout c hc => ?_⟩
  · rw [hb]; simp [hin]
  · intro c hc hne; simp [hc, hne]
  · simp [hc, hout]

/-- The hypotheses of `OccupancyMapSetPosition_collapse` hold on a 3 by 3 grid whose map
starts with mass everywhere, for a position in cell `(1, 2)`. -/
theorem OccupancyMapSetPosition_collapse_witness :
    ((exampleTarget 3 3 ETargetState.GATS_Unknown (fun _ => 1 / 9)).GridActor
        = some (exampleGrid 3 3) ∧
      (exampleTarget 3 3 ETargetState.GATS_Unknown (fun _ => 1 / 9)).OccupancyMap.XCount
        = (exampleGrid 3 3).XCount ∧
      (exampleTarget 3 3 ETargetState.GATS_Unknown (fun _ => 1 / 9)).OccupancyMap.YCount
        = (exampleGrid 3 3).YCount) ∧
    (OccupancyMapSetPosition (exampleTarget 3 3 ETargetState.GATS_Unknown (fun _ => 1 / 9))
        ⟨3 / 2, 5 / 2, 0⟩).OccupancyMap.Data ⟨1, 2⟩ = 1 ∧
    (OccupancyMapSetPosition (exampleTarget 3 3 ETargetState.GATS_Unknown (fun _ => 1 / 9))
        ⟨3 / 2, 5 / 2, 0⟩).OccupancyMap.Data ⟨1, 1⟩ = 0 := by
  have h := OccupancyMapSetPosition_collapse
    (exampleTarget 3 3 ETargetState.GATS_Unknown (fun _ => 1 / 9)) (exampleGrid 3 3)
    ⟨3 / 2, 5 / 2, 0⟩ rfl rfl rfl
  have hcell : (exampleGrid 3 3).GetCellRef ⟨3 / 2, 5 / 2, 0⟩ = ⟨1, 2⟩ := by
    simp only [exampleGrid, FCellRef.mk.injEq]
    constructor
    · rw [Int.floor_eq_iff]; norm_num
    · rw [Int.floor_eq_iff]; norm_num
  rw [hcell] at h
  have h1 := h.1 (by decide)
  refine ⟨⟨rfl, rfl, rfl⟩, h1.2.1, h1.2.2 ⟨1, 1⟩ ?_ (by decide)⟩
  simp [OccupancyMapSetPosition, exampleTarget, FGAGridMap.IsValidCell,
    SetPosition_map_XCount, SetPosition_map_YCount]

/-- C9 (collapse idempotence).  `OccupancyMapSetPosition(p)` applied twice yields the
same target state, map included, as applied once. -/
theorem OccupancyMapSetPosition_idempotent (t : UGATargetComponent F) (p : FVector F) :
    OccupancyMapSetPosition (OccupancyMapSetPosition t p) p = OccupancyMapSetPosition t p := by
  cases hG : t.GridActor with
  | none => simp [OccupancyMapSetPosition, hG]
  | some Grid =>
    have h1 : OccupancyMapSetPosition t p
        = { t with OccupancyMap := OccupancyMapSetPosition_map Grid t.OccupancyMap p } := by
      simp [OccupancyMapSetPosition, hG]
    rw [h1]
    simp only [OccupancyMapSetPosition, hG]
    congr 1
    apply FGAGridMap.ext_of
    · simp [SetPosition_map_XCount]
    · simp [SetPosition_map_YCount]
    · intro c
      rw [SetPosition_map_Data, SetPosition_map_IsValidCell, SetPosition_map_Data]
      by_cases hv : t.OccupancyMap.IsValidCell c = true <;> simp [hv]

end Collapse

/-! ## Pruning by visibility -/

section Prune

variable {F : Type} [LinearOrderedField F]

/-- The map `OccupancyMapUpdate` leaves is the prune-and-renormalise pass applied to the
visibility map it builds from the registered observers. -/
theorem OccupancyMapUpdate_OccupancyMap (E : Engine F)
    (PS : Option (List (UGAPerceptionComponent F))) (t : UGATargetComponent F)
    (Grid : AGAGridActor F) (hGrid : t.GridActor = some Grid) :
    (OccupancyMapUpdate E PS t).OccupancyMap =
      OccupancyMapUpdate_Prune (OccupancyMapUpdate_VisibilityMap E Grid PS) t.OccupancyMap := by
  simp [OccupancyMapUpdate, hGrid]

/-- Normalisation by the prune-and-renormalise pass (lines 208-251), for a map with
non-negative masses and any visibility map: when the mass on the non-visible cells
was `> 0` beforehand, the mass on the non-visible cells afterwards is exactly `1`;
otherwise every cell of the map holds `0`. -/
theorem OccupancyMapUpdate_Prune_normalized (VisibilityMap m : FGAGridMap F)
    (hnn : ∀ c, m.IsValidCell c = true → 0 ≤ m.Data c) :
    (nonVisibleMass VisibilityMap m > 0 →
      nonVisibleMass VisibilityMap (OccupancyMapUpdate_Prune VisibilityMap m) = 1) ∧
    (¬ nonVisibleMass VisibilityMap m > 0 →
      ∀ c, (OccupancyMapUpdate_Prune VisibilityMap m).IsValidCell c = true →
        (OccupancyMapUpdate_Prune VisibilityMap m).Data c = 0) := by
  constructor
  · intro hT
    have hne : nonVisibleMass VisibilityMap m ≠ 0 := ne_of_gt hT
    have hterm : ∀ c ∈ (cellsXY m.XCount m.YCount).filter
        (fun c => decide (VisibilityMap.GetValue c 0 ≤ 0)),
        (OccupancyMapUpdate_Prune VisibilityMap m).GetValue c 0
          = m.GetValue c 0 * (nonVisibleMass VisibilityMap m)⁻¹ := by
      intro c hc
      obtain ⟨hmem, hvis⟩ := List.mem_filter.mp hc
      have hv : m.IsValidCell c = true := (mem_cellsXY_iff_valid m c).mp hmem
      have hvis2 : ¬ VisibilityMap.GetValue c 0 > 0 := not_lt.mpr (of_decide_eq_true hvis)
      have h1 : (OccupancyMapUpdate_Prune VisibilityMap m).GetValue c 0
          = (OccupancyMapUpdate_Prune VisibilityMap m).Data c := by
        simp [FGAGridMap.GetValue, Prune_IsValidCell, hv]
      have h2 : m.GetValue c 0 = m.Data c := by simp [FGAGridMap.GetValue, hv]
      rw [h1, h2, Prune_Data]
      simp only [hv, if_true, hvis2, if_false, hT]
      rw [div_eq_mul_inv]
    have hsum : nonVisibleMass VisibilityMap (OccupancyMapUpdate_Prune VisibilityMap m)
        = nonVisibleMass VisibilityMap m * (nonVisibleMass VisibilityMap m)⁻¹ := by
      conv_lhs => unfold nonVisibleMass
      rw [Prune_XCount, Prune_YCount, List.map_congr_left hterm, List.sum_map_mul_right]
      rfl
    rw [hsum, mul_inv_cancel₀ hne]
  · intro hT c hc
    rw [Prune_IsValidCell] at hc
    rw [Prune_Data]
    simp only [hc, if_true, hT, if_false]
    by_cases hvis : VisibilityMap.GetValue c 0 > 0
    · simp [hvis]
    · simp only [hvis, if_false]
      have hall := List.all_zero_of_sum_nonpos
        ((cellsXY m.XCount m.YCount).filter (fun c => decide (VisibilityMap.GetValue c 0 ≤ 0)))
        (fun c => m.GetValue c 0)
        (by
          intro x hx
          have hvx : m.IsValidCell x = true :=
            (mem_cellsXY_iff_valid m x).mp (List.mem_filter.mp hx).1
          simpa [FGAGridMap.GetValue, hvx] using hnn x hvx)
        (not_lt.mp hT)
      have hcmem : c ∈ (cellsXY m.XCount m.YCount).filter
          (fun c => decide (VisibilityMap.GetValue c 0 ≤ 0)) :=
        List.mem_filter.mpr ⟨(mem_cellsXY_iff_valid m c).mpr hc,
          decide_eq_true (not_lt.mp hvis)⟩
      simpa [FGAGridMap.GetValue, hc] using hall c hcmem

/-- The hypothesis of `OccupancyMapUpdate_Prune_normalized` holds for the uniform 2 by 2
map; with column `x = 0` visible, the remaining mass `1/2` is renormalised to `1`. -/
theorem OccupancyMapUpdate_Prune_normalized_witness :
    (∀ c, exampleUniform.IsValidCell c = true → 0 ≤ exampleUniform.Data c) ∧
    nonVisibleMass exampleVisibility exampleUniform = 1 / 2 ∧
    nonVisibleMass exampleVisibility
      (OccupancyMapUpdate_Prune exampleVisibility exampleUniform) = 1 := by
  have hnn : ∀ c, exampleUniform.IsValidCell c = true → 0 ≤ exampleUniform.Data c := by
    intro c _; simp [exampleUniform]
  have hT : nonVisibleMass exampleVisibility exampleUniform = 1 / 2 := by
    simp [nonVisibleMass, exampleVisibility, exampleUniform, cellsXY, List.range_succ,
      FGAGridMap.GetValue, FGAGridMap.IsValidCell, List.filter_cons]
    norm_num
  exact ⟨hnn, hT,
    (OccupancyMapUpdate_Prune_normalized exampleVisibility exampleUniform hnn).1
      (by rw [hT]; norm_num)⟩

end Prune

/-! ## The status of a target -/

section Status

variable {F : Type} [LinearOrderedField F]

theorem SetPosition_LastKnownState (t : UGATargetComponent F) (p : FVector F) :
    (OccupancyMapSetPosition t p).LastKnownState = t.LastKnownState := by
  unfold OccupancyMapSetPosition
  cases t.GridActor <;> simp

theorem SetPosition_TargetGuid (t : UGATargetComponent F) (p : FVector F) :
    (OccupancyMapSetPosition t p).TargetGuid = t.TargetGuid := by
  unfold OccupancyMapSetPosition
  cases t.GridActor <;> simp

theorem Diffuse_LastKnownState (t : UGATargetComponent F) :
    (OccupancyMapDiffuse t).LastKnownState = t.LastKnownState := by
  unfold OccupancyMapDiffuse
  cases t.GridActor <;> simp

theorem Diffuse_TargetGuid (t : UGATargetComponent F) :
    (OccupancyMapDiffuse t).TargetGuid = t.TargetGuid := by
  unfold OccupancyMapDiffuse
  cases t.GridActor <;> simp

theorem Update_State (E : Engine F)
    (PS : Option (List (UGAPerceptionComponent F))) (t : UGATargetComponent F) :
    (OccupancyMapUpdate E PS t).LastKnownState.State = t.LastKnownState.State := by
  unfold OccupancyMapUpdate
  cases t.GridActor with
  | none => simp
  | some Grid =>
    simp only [OccupancyMapUpdate_BestGuess]
    split <;> simp

theorem Update_TargetGuid (E : Engine F)
    (PS : Option (List (UGAPerceptionComponent F))) (t : UGATargetComponent F) :
    (OccupancyMapUpdate E PS t).TargetGuid = t.TargetGuid := by
  unfold OccupancyMapUpdate
  cases t.GridActor <;> simp

/-- The status after one `TickComponent`. -/
theorem TickComponent_State (E : Engine F) (PS : Option (List (UGAPerceptionComponent F)))
    (Owner : AActor F) (t : UGATargetComponent F) :
    (TickComponent E PS Owner t).LastKnownState.State =
      if TickComponent_isImmediate PS t.TargetGuid = true then ETargetState.GATS_Immediate
      else if t.IsKnown = true then ETargetState.GATS_Hidden
      else t.LastKnownState.State := by
  simp only [TickComponent]
  by_cases hI : TickComponent_isImmediate PS t.TargetGuid = true
  · simp [hI, SetPosition_LastKnownState, FTargetCache.Set, UGATargetComponent.IsKnown,
      Diffuse_LastKnownState]
  · simp only [hI, if_false, Bool.false_eq_true]
    by_cases hK : t.IsKnown = true
    · simp only [hK, if_true]
      simp [Update_State, UGATargetComponent.IsKnown, Diffuse_LastKnownState]
    · have hK2 : t.LastKnownState.State = ETargetState.GATS_Unknown := by
        cases hst : t.LastKnownState.State <;> simp_all [UGATargetComponent.IsKnown]
      simp only [hK, if_false, Bool.false_eq_true]
      simp [hK2, UGATargetComponent.IsKnown]

theorem TickComponent_TargetGuid (E : Engine F) (PS : Option (List (UGAPerceptionComponent F)))
    (Owner : AActor F) (t : UGATargetComponent F) :
    (TickComponent E PS Owner t).TargetGuid = t.TargetGuid := by
  simp only [TickComponent]
  split_ifs <;> simp [Diffuse_TargetGuid, Update_TargetGuid, SetPosition_TargetGuid]

theorem TickComponent_run_append (a b : List (TickInput F)) (t : UGATargetComponent F) :
    TickComponent_run (a ++ b) t = TickComponent_run b (TickComponent_run a t) := by
  simp [TickComponent_run, List.foldl_append]

theorem TickComponent_run_concat (a : List (TickInput F)) (i : TickInput F)
    (t : UGATargetComponent F) :
    TickComponent_run (a ++ [i]) t
      = TickComponent i.World i.PerceptionSystem i.Owner (TickComponent_run a t) := by
  simp [TickComponent_run, List.foldl_append]

theorem TickComponent_run_TargetGuid (steps : List (TickInput F)) (t : UGATargetComponent F) :
    (TickComponent_run steps t).TargetGuid = t.TargetGuid := by
  induction steps generalizing t with
  | nil => rfl
  | cons i l ih =>
    show (TickComponent_run l (TickComponent i.World i.PerceptionSystem i.Owner t)).TargetGuid = _
    rw [ih, TickComponent_TargetGuid]

/-- Without an observer at awareness `≥ 1` the flag `isImmediate` is `false`. -/
theorem isImmediate_false_of_lt (PS : Option (List (UGAPerceptionComponent F))) (g : Nat)
    (h : ∀ pcs, PS = some pcs → ∀ pc ∈ pcs, ∀ d, pc.GetTargetData g = some d → d.Awareness < 1) :
    TickComponent_isImmediate PS g = false := by
  cases PS with
  | none => rfl
  | some pcs =>
    simp only [TickComponent_isImmediate, List.any_eq_false]
    intro pc hpc
    cases hd : pc.GetTargetData g with
    | none => simp
    | some d => simpa using h pcs rfl pc hpc d hd

/-- A known target stays known. -/
theorem TickComponent_run_known (steps : List (TickInput F)) (t : UGATargetComponent F)
    (h : t.LastKnownState.State = ETargetState.GATS_Immediate ∨
      t.LastKnownState.State = ETargetState.GATS_Hidden) :
    (TickComponent_run steps t).LastKnownState.State = ETargetState.GATS_Immediate ∨
      (TickComponent_run steps t).LastKnownState.State = ETargetState.GATS_Hidden := by
  induction steps generalizing t with
  | nil => exact h
  | cons i l ih =>
    apply ih
    rw [TickComponent_State]
    have hK : t.IsKnown = true := by
      rcases h with h | h <;> simp [UGATargetComponent.IsKnown, h]
    by_cases hI : TickComponent_isImmediate i.PerceptionSystem t.TargetGuid = true <;>
      simp [hI, hK]

/-- An unknown target stays unknown while no observer reaches awareness `1`. -/
theorem TickComponent_run_unknown (steps : List (TickInput F)) (t : UGATargetComponent F)
    (hU : t.LastKnownState.State = ETargetState.GATS_Unknown)
    (h : ∀ i ∈ steps, ∀ pcs, i.PerceptionSystem = some pcs → ∀ pc ∈ pcs, ∀ d,
      pc.GetTargetData t.TargetGuid = some d → d.Awareness < 1) :
    (TickComponent_run steps t).LastKnownState.State = ETargetState.GATS_Unknown := by
  induction steps generalizing t with
  | nil => exact hU
  | cons i l ih =>
    have hI := isImmediate_false_of_lt i.PerceptionSystem t.TargetGuid
      (h i (List.mem_cons_self _ _))
    apply ih
    · rw [TickComponent_State]
      simp [hI, UGATargetComponent.IsKnown, hU]
    · intro j hj
      rw [TickComponent_TargetGuid]
      exact h j (List.mem_cons_of_mem _ hj)

/-- C3 (status).  Starting from status Unknown, along any sequence of `TickComponent`
steps: after every prefix in which no observer held awareness `≥ 1` for the target
the status is still Unknown; and if the status is Immediate after `k` steps, it is
Immediate or Hidden after every `j ≥ k` steps, whatever the awareness values. -/
theorem TickComponent_status (t : UGATargetComponent F)
    (hU : t.LastKnownState.State = ETargetState.GATS_Unknown) (steps : List (TickInput F)) :
    (∀ k, (∀ i ∈ steps.take k, ∀ pcs, i.PerceptionSystem = some pcs → ∀ pc ∈ pcs, ∀ d,
        pc.GetTargetData t.TargetGuid = some d → d.Awareness < 1) →
      (TickComponent_run (steps.take k) t).LastKnownState.State = ETargetState.GATS_Unknown) ∧
    (∀ k j, k ≤ j →
      (TickComponent_run (steps.take k) t).LastKnownState.State = ETargetState.GATS_Immediate →
      (TickComponent_run (steps.take j) t).LastKnownState.State = ETargetState.GATS_Immediate ∨
        (TickComponent_run (steps.take j) t).LastKnownState.State
          = ETargetState.GATS_Hidden) := by
  refine ⟨fun k h => TickComponent_run_unknown _ t hU h, fun k j hkj hk => ?_⟩
  have hsplit : steps.take j = steps.take k ++ (steps.take j).drop k := by
    have h1 : (steps.take j).take k = steps.take k := by
      rw [List.take_take, min_eq_left hkj]
    rw [← h1, List.take_append_drop]
  rw [hsplit, TickComponent_run_append]
  exact TickComponent_run_known _ _ (Or.inl hk)

/-- The run unseen, seen, unseen (awareness `0`, `1`, `0`) from status Unknown: Unknown
after the first step, Immediate after the second, hence Immediate or Hidden after
the third. -/
theorem TickComponent_status_witness :
    (exampleTarget 3 3 ETargetState.GATS_Unknown (fun _ => 0)).LastKnownState.State
      = ETargetState.GATS_Unknown ∧
    (TickComponent_run ([exampleTick 0, exampleTick 1, exampleTick 0].take 1)
      (exampleTarget 3 3 ETargetState.GATS_Unknown (fun _ => 0))).LastKnownState.State
      = ETargetState.GATS_Unknown ∧
    ((TickComponent_run ([exampleTick 0, exampleTick 1, exampleTick 0].take 3)
      (exampleTarget 3 3 ETargetState.GATS_Unknown (fun _ => 0))).LastKnownState.State
      = ETargetState.GATS_Immediate ∨
    (TickComponent_run ([exampleTick 0, exampleTick 1, exampleTick 0].take 3)
      (exampleTarget 3 3 ETargetState.GATS_Unknown (fun _ => 0))).LastKnownState.State
      = ETargetState.GATS_Hidden) := by
  have h := TickComponent_status (exampleTarget 3 3 ETargetState.GATS_Unknown (fun _ => 0)) rfl
    [exampleTick 0, exampleTick 1, exampleTick 0]
  refine ⟨rfl, h.1 1 ?_, h.2 2 3 (by decide) ?_⟩
  · intro i hi pcs hpcs pc hpc d hd
    simp only [List.take_succ_cons, List.take_zero, List.mem_singleton] at hi
    subst hi
    simp only [exampleTick, Option.some.injEq] at hpcs
    subst hpcs
    simp only [List.mem_singleton] at hpc
    subst hpc
    simp [UGAPerceptionComponent.GetTargetData, exampleObserver, exampleTarget] at hd
    rw [← hd]
    norm_num
  · show (TickComponent_run [exampleTick 0, exampleTick 1] _).LastKnownState.State = _
    rw [show [exampleTick 0, exampleTick 1] = [exampleTick 0] ++ [exampleTick 1] from rfl,
      TickComponent_run_concat, TickComponent_State, TickComponent_run_TargetGuid]
    simp [TickComponent_isImmediate, exampleTick, exampleObserver, exampleTarget,
      UGAPerceptionComponent.GetTargetData]

end Status

/-! ## Awareness -/

section Awareness

variable {F : Type} [LinearOrderedField F]

theorem Clamp_unit_bounds (x : F) : 0 ≤ Clamp x 0 1 ∧ Clamp x 0 1 ≤ 1 := by
  unfold Clamp
  split_ifs with h1 h2
  · exact ⟨le_refl _, zero_le_one⟩
  · exact ⟨not_lt.mp h1, le_of_lt h2⟩
  · exact ⟨zero_le_one, le_refl _⟩

theorem Awareness_bounds (b : Bool) (a : F) :
    0 ≤ UpdateTargetData_Awareness b a ∧ UpdateTargetData_Awareness b a ≤ 1 :=
  Clamp_unit_bounds _

theorem Awareness_gain (a : F) (h0 : 0 ≤ a) :
    UpdateTargetData_Awareness true a = min 1 (a + 1 / 10) := by
  simp only [UpdateTargetData_Awareness, Clamp, if_true]
  have h : ¬ a + 1 / 10 < 0 := by
    have : (0 : F) < 1 / 10 := by norm_num
    linarith
  rw [if_neg h]
  split_ifs with h2
  · rw [min_eq_right (le_of_lt h2)]
  · rw [min_eq_left (not_lt.mp h2)]

theorem Awareness_decay (a : F) (h1 : a ≤ 1) :
    UpdateTargetData_Awareness false a = max 0 (a - 1 / 20) := by
  simp only [UpdateTargetData_Awareness, Clamp, Bool.false_eq_true, if_false]
  have h : a - 1 / 20 < 1 := by
    have : (0 : F) < 1 / 20 := by norm_num
    linarith
  split_ifs with h2
  · rw [max_eq_left (le_of_lt h2)]
  · rw [max_eq_right (not_lt.mp h2)]

/-- One `UpdateTargetData` on an existing entry: the entry stays, and its awareness is
updated exactly when both the pawn and the target actor exist. -/
theorem UpdateTargetData_entry (E : Engine F) (self : UGAPerceptionComponent F) (g : Nat)
    (ta : Option (AActor F)) (d : FTargetData F) (hd : self.TargetMap g = some d) :
    (UpdateTargetData E self g ta).VisionParameters = self.VisionParameters ∧
    ∃ d2, (UpdateTargetData E self g ta).TargetMap g = some d2 ∧
      d2.Awareness =
        match self.OwnerPawn, ta with
        | some p, some a =>
          UpdateTargetData_Awareness (UpdateTargetData_ClearLos E self.VisionParameters p a)
            d.Awareness
        | _, _ => d.Awareness := by
  unfold UpdateTargetData
  cases hp : self.OwnerPawn with
  | none => exact ⟨rfl, d, hd, rfl⟩
  | some p =>
    cases ta with
    | none => simp [hd]
    | some a => simp [hd]

theorem UpdateTargetData_run_cons (g : Nat) (i : UpdateInput F) (l : List (UpdateInput F))
    (self : UGAPerceptionComponent F) :
    UpdateTargetData_run g (i :: l) self =
      UpdateTargetData_run g l
        (UpdateTargetData i.World { self with OwnerPawn := i.OwnerPawn } g i.TargetActor) := rfl

/-- The awareness interval `[0, 1]` is kept by any run of `UpdateTargetData`. -/
theorem UpdateTargetData_run_bounds (g : Nat) (steps : List (UpdateInput F))
    (self : UGAPerceptionComponent F) (d : FTargetData F) (hd : self.TargetMap g = some d)
    (h0 : 0 ≤ d.Awareness) (h1 : d.Awareness ≤ 1) :
    ∃ d2, (UpdateTargetData_run g steps self).TargetMap g = some d2 ∧
      0 ≤ d2.Awareness ∧ d2.Awareness ≤ 1 := by
  induction steps generalizing self d with
  | nil => exact ⟨d, hd, h0, h1⟩
  | cons i l ih =>
    rw [UpdateTargetData_run_cons]
    obtain ⟨_, d2, hd2, ha⟩ := UpdateTargetData_entry i.World
      { self with OwnerPawn := i.OwnerPawn } g i.TargetActor d hd
    apply ih _ d2 hd2
    · rw [ha]; split
      · exact (Awareness_bounds _ _).1
      · exact h0
    · rw [ha]; split
      · exact (Awareness_bounds _ _).2
      · exact h1

/-- C4 (awareness bounds).  From an entry whose awareness lies in `[0, 1]`, after every
prefix of every sequence of `UpdateTargetData` steps (whatever their line-of-sight
outcomes) the stored awareness lies in `[0, 1]`. -/
theorem UpdateTargetData_awareness_bounds (g : Nat) (self : UGAPerceptionComponent F)
    (d : FTargetData F) (hd : self.TargetMap g = some d)
    (h0 : 0 ≤ d.Awareness) (h1 : d.Awareness ≤ 1) (steps : List (UpdateInput F)) (k : Nat) :
    ∃ d2, (UpdateTargetData_run g (steps.take k) self).TargetMap g = some d2 ∧
      0 ≤ d2.Awareness ∧ d2.Awareness ≤ 1 :=
  UpdateTargetData_run_bounds g (steps.take k) self d hd h0 h1

/-- From awareness `1/2`, two clear-sighted steps keep the awareness inside `[0, 1]`. -/
theorem UpdateTargetData_awareness_bounds_witness :
    ((exampleWatcher (1 / 2)).TargetMap 7 = some ⟨false, 1 / 2⟩ ∧
      (0 : ℚ) ≤ 1 / 2 ∧ (1 / 2 : ℚ) ≤ 1) ∧
    ∃ d2, (UpdateTargetData_run 7 ([exampleUpdate, exampleUpdate].take 2)
        (exampleWatcher (1 / 2))).TargetMap 7 = some d2 ∧
      0 ≤ d2.Awareness ∧ d2.Awareness ≤ 1 :=
  ⟨⟨rfl, by norm_num, by norm_num⟩,
    UpdateTargetData_awareness_bounds 7 (exampleWatcher (1 / 2)) ⟨false, 1 / 2⟩ rfl
      (by norm_num) (by norm_num) [exampleUpdate, exampleUpdate] 2⟩

/-- The closed form from an arbitrary start `a` in `[0, 1]`. -/
theorem UpdateTargetData_run_closed (g : Nat) (clear : Bool) (steps : List (UpdateInput F))
    (self : UGAPerceptionComponent F) (d : FTargetData F) (hd : self.TargetMap g = some d)
    (h0 : 0 ≤ d.Awareness) (h1 : d.Awareness ≤ 1)
    (hsteps : ∀ i ∈ steps, i.clearLos self.VisionParameters = some clear) :
    ∃ d2, (UpdateTargetData_run g steps self).TargetMap g = some d2 ∧
      d2.Awareness =
        if clear = true then min 1 (d.Awareness + (steps.length : F) / 10)
        else max 0 (d.Awareness - (steps.length : F) / 20) := by
  induction steps generalizing self d with
  | nil =>
    refine ⟨d, hd, ?_⟩
    cases clear <;> simp [h0, h1]
  | cons i l ih =>
    rw [UpdateTargetData_run_cons]
    obtain ⟨hvp, d2, hd2, ha⟩ := UpdateTargetData_entry i.World
      { self with OwnerPawn := i.OwnerPawn } g i.TargetActor d hd
    have hi := hsteps i (List.mem_cons_self _ _)
    simp only [UpdateInput.clearLos] at hi
    have ha2 : d2.Awareness = UpdateTargetData_Awareness clear d.Awareness := by
      rw [ha]
      cases hp : i.OwnerPawn with
      | none => simp [hp] at hi
      | some p =>
        cases hta : i.TargetActor with
        | none => simp [hp, hta] at hi
        | some a =>
          simp only [hp, hta, Option.some.injEq] at hi
          simp only [hi]
    have hb := Awareness_bounds clear d.Awareness
    rw [← ha2] at hb
    obtain ⟨d3, hd3, ha3⟩ := ih _ d2 hd2 hb.1 hb.2 (by
      intro j hj
      rw [hvp]
      exact hsteps j (List.mem_cons_of_mem _ hj))
    refine ⟨d3, hd3, ?_⟩
    rw [ha3, ha2]
    have hn : (0 : F) ≤ (l.length : F) := Nat.cast_nonneg _
    cases clear with
    | true =>
      simp only [if_true, List.length_cons, Nat.cast_add, Nat.cast_one]
      rw [Awareness_gain _ h0]
      rcases le_total 1 (d.Awareness + 1 / 10) with h | h
      · rw [min_eq_left h, min_eq_left (by linarith), min_eq_left (by linarith)]
      · rw [min_eq_right h]
        congr 1
        ring
    | false =>
      simp only [Bool.false_eq_true, if_false, List.length_cons, Nat.cast_add, Nat.cast_one]
      rw [Awareness_decay _ h1]
      rcases le_total (d.Awareness - 1 / 20) 0 with h | h
      · rw [max_eq_left h, max_eq_left (by linarith), max_eq_left (by linarith)]
      · rw [max_eq_right h]
        congr 1
        ring

/-- C5 (awareness closed form, exact arithmetic).  `N` consecutive `UpdateTargetData`
steps with clear line of sight from awareness `0` give awareness `min(1, N/10)`;
`N` consecutive steps without clear line of sight from awareness `1` give
`max(0, 1 - N/20)`.  (`clear` selects which of the two runs is meant.) -/
theorem UpdateTargetData_awareness_closed_form (g : Nat) (clear : Bool)
    (steps : List (UpdateInput F)) (self : UGAPerceptionComponent F) (d : FTargetData F)
    (hd : self.TargetMap g = some d)
    (hstart : d.Awareness = if clear = true then 0 else 1)
    (hsteps : ∀ i ∈ steps, i.clearLos self.VisionParameters = some clear) :
    ∃ d2, (UpdateTargetData_run g steps self).TargetMap g = some d2 ∧
      d2.Awareness =
        if clear = true then min 1 ((steps.length : F) / 10)
        else max 0 (1 - (steps.length : F) / 20) := by
  have h01 : 0 ≤ d.Awareness ∧ d.Awareness ≤ 1 := by
    cases clear <;> simp [hstart]
  obtain ⟨d2, hd2, ha⟩ := UpdateTargetData_run_closed g clear steps self d hd h01.1 h01.2 hsteps
  refine ⟨d2, hd2, ?_⟩
  rw [ha, hstart]
  cases clear <;> simp

/-- Three clear-sighted steps from awareness `0` give awareness `3/10`. -/
theorem UpdateTargetData_awareness_closed_form_witness :
    ((exampleWatcher 0).TargetMap 7 = some ⟨false, 0⟩ ∧
      (∀ i ∈ [exampleUpdate, exampleUpdate, exampleUpdate],
        i.clearLos (exampleWatcher 0).VisionParameters = some true)) ∧
    ∃ d2, (UpdateTargetData_run 7 [exampleUpdate, exampleUpdate, exampleUpdate]
        (exampleWatcher 0)).TargetMap 7 = some d2 ∧ d2.Awareness = 3 / 10 := by
  have hsteps : ∀ i ∈ [exampleUpdate, exampleUpdate, exampleUpdate],
      i.clearLos (exampleWatcher 0).VisionParameters = some true := by
    intro i hi
    have hi2 : i = exampleUpdate := by simpa using hi
    subst hi2
    simp [UpdateInput.clearLos, exampleUpdate, UpdateTargetData_ClearLos, stubEngine,
      exampleWatcher]
    norm_num
  obtain ⟨d2, hd2, ha⟩ := UpdateTargetData_awareness_closed_form 7 true
    [exampleUpdate, exampleUpdate, exampleUpdate] (exampleWatcher 0) ⟨false, 0⟩ rfl rfl hsteps
  refine ⟨⟨rfl, hsteps⟩, d2, hd2, ?_⟩
  rw [ha]
  norm_num

end Awareness

/-! ## Diffusion -/

section Diffusion

variable {F : Type} [LinearOrderedField F]

/-- A loop in which only the cell `c` acts reduces to the body at `c`. -/
theorem foldl_single_active {α : Type} (f : α → FCellRef → α) (c : FCellRef)
    (l : List FCellRef) (hl : l.Nodup) (a : α)
    (hidle : ∀ d ∈ l, d ≠ c → ∀ x, f x d = x) :
    l.foldl f a = if c ∈ l then f a c else a := by
  induction l generalizing a with
  | nil => simp
  | cons e l ih =>
    rw [List.nodup_cons] at hl
    simp only [List.foldl_cons]
    rw [ih hl.2 _ (fun d hd hne x => hidle d (List.mem_cons_of_mem _ hd) hne x)]
    by_cases hec : e = c
    · subst hec
      simp [hl.1]
    · rw [hidle e (List.mem_cons_self _ _) hec a]
      have : (c ∈ e :: l) ↔ c ∈ l := by
        simp [List.mem_cons, Ne.symm hec]
      simp [this]

/-- The inner loop of `OccupancyMapDiffuse` over a duplicate-free neighbour list: every
in-bounds neighbour gains `per`, nothing else changes. -/
theorem neighbours_fold (ns : List FCellRef) (hnd : ns.Nodup) (per : F) (m : FGAGridMap F) :
    (ns.foldl (fun m n => m.SetValue n (m.GetValue n 0 + per)) m).XCount = m.XCount ∧
    (ns.foldl (fun m n => m.SetValue n (m.GetValue n 0 + per)) m).YCount = m.YCount ∧
    ∀ d, (ns.foldl (fun m n => m.SetValue n (m.GetValue n 0 + per)) m).Data d =
      if d ∈ ns ∧ m.IsValidCell d = true then m.Data d + per else m.Data d :=
  foldl_SetValue_pointwise (fun _ v => v + per) ns hnd m

/-- A cell that is not traversable, or holds no mass in the snapshot, is skipped. -/
theorem diffuse_cell_idle (Grid : AGAGridActor F) (orig live : FGAGridMap F) (d : FCellRef)
    (h : Grid.IsTraversable d = false ∨ orig.GetValue d 0 ≤ 0) :
    OccupancyMapDiffuse_cell Grid orig live d = live := by
  unfold OccupancyMapDiffuse_cell
  rcases h with h | h
  · simp [h]
  · simp [h]

/-- C7 (single point mass).  If the only mass `m > 0` of the map sits in a traversable
cell `c` whose traversable-neighbour list has `k ≥ 1` distinct entries, `c` not
among them, then after `OccupancyMapDiffuse` the cell `c` holds `0.9 m`, every
neighbour of `c` inside the map holds `0.1 m / k`, and every other cell holds `0`. -/
theorem OccupancyMapDiffuse_single_mass (t : UGATargetComponent F) (Grid : AGAGridActor F)
    (c : FCellRef) (m : F) (hGrid : t.GridActor = some Grid)
    (hc : t.OccupancyMap.IsValidCell c = true) (ht : Grid.IsTraversable c = true)
    (hm : 0 < m) (hcm : t.OccupancyMap.Data c = m)
    (hzero : ∀ d, t.OccupancyMap.IsValidCell d = true → d ≠ c → t.OccupancyMap.Data d = 0)
    (hk : 1 ≤ (Grid.GetNeighbors c).length) (hnd : (Grid.GetNeighbors c).Nodup)
    (hself : c ∉ Grid.GetNeighbors c) :
    ∀ d, t.OccupancyMap.IsValidCell d = true →
      (OccupancyMapDiffuse t).OccupancyMap.Data d =
        if d = c then 9 / 10 * m
        else if d ∈ Grid.GetNeighbors c then 1 / 10 * m / ((Grid.GetNeighbors c).length : F)
        else 0 := by
  intro d hd
  have hidle : ∀ e ∈ cellsYX t.OccupancyMap.XCount t.OccupancyMap.YCount, e ≠ c →
      ∀ x, OccupancyMapDiffuse_cell Grid t.OccupancyMap x e = x := by
    intro e he hne x
    apply diffuse_cell_idle
    right
    have hv : t.OccupancyMap.IsValidCell e = true := (mem_cellsYX_iff_valid _ e).mp he
    simp [FGAGridMap.GetValue, hv, hzero e hv hne]
  have hcmem : c ∈ cellsYX t.OccupancyMap.XCount t.OccupancyMap.YCount :=
    (mem_cellsYX_iff_valid _ c).mpr hc
  have hfold : OccupancyMapDiffuse_map Grid t.OccupancyMap
      = OccupancyMapDiffuse_cell Grid t.OccupancyMap t.OccupancyMap c := by
    simp only [OccupancyMapDiffuse_map, OccupancyMapDiffuse_over]
    rw [foldl_single_active _ c _ (nodup_cellsYX _ _) _ hidle, if_pos hcmem]
  have hcur : t.OccupancyMap.GetValue c 0 = m := by simp [FGAGridMap.GetValue, hc, hcm]
  have hlen : (Grid.GetNeighbors c).length > 0 := hk
  simp only [OccupancyMapDiffuse, hGrid, hfold, OccupancyMapDiffuse_cell, ht, hcur,
    Bool.not_true, Bool.false_eq_true, if_false, not_le.mpr hm, hlen, if_true]
  rw [(neighbours_fold _ hnd _ _).2.2 d, SetValue_IsValidCell, SetValue_Data]
  by_cases hdc : d = c
  · subst hdc
    simp only [hself, false_and, if_false, hc, and_self, if_true]
    ring
  · simp only [hdc, false_and, if_false, hd, and_true]
    by_cases hdn : d ∈ Grid.GetNeighbors c
    · simp only [hdn, if_true, hzero d hd hdc]
      ring
    · simp only [hdn, if_false, hzero d hd hdc]

/-- The 3 by 3 scenario: mass `1` at the centre with 4-neighbour connectivity gives
`0.9` at the centre, `0.025` at each orthogonal neighbour and `0` at the corners. -/
theorem OccupancyMapDiffuse_single_mass_witness :
    ((exampleTarget 3 3 ETargetState.GATS_Hidden exampleCentre).GridActor
        = some (exampleGrid 3 3) ∧
      (exampleGrid 3 3).GetNeighbors ⟨1, 1⟩ = [⟨0, 1⟩, ⟨2, 1⟩, ⟨1, 0⟩, ⟨1, 2⟩] ∧
      (∀ d, (exampleTarget 3 3 ETargetState.GATS_Hidden exampleCentre).OccupancyMap.IsValidCell d
          = true → d ≠ ⟨1, 1⟩ →
        (exampleTarget 3 3 ETargetState.GATS_Hidden exampleCentre).OccupancyMap.Data d = 0)) ∧
    (OccupancyMapDiffuse (exampleTarget 3 3 ETargetState.GATS_Hidden exampleCentre)).OccupancyMap.Data
        ⟨1, 1⟩ = 9 / 10 ∧
    (∀ d ∈ ([⟨0, 1⟩, ⟨2, 1⟩, ⟨1, 0⟩, ⟨1, 2⟩] : List FCellRef),
      (OccupancyMapDiffuse (exampleTarget 3 3 ETargetState.GATS_Hidden
        exampleCentre)).OccupancyMap.Data d = 1 / 40) ∧
    (∀ d ∈ ([⟨0, 0⟩, ⟨2, 0⟩, ⟨0, 2⟩, ⟨2, 2⟩] : List FCellRef),
      (OccupancyMapDiffuse (exampleTarget 3 3 ETargetState.GATS_Hidden
        exampleCentre)).OccupancyMap.Data d = 0) := by
  have hns : (exampleGrid 3 3).GetNeighbors ⟨1, 1⟩ = [⟨0, 1⟩, ⟨2, 1⟩, ⟨1, 0⟩, ⟨1, 2⟩] := by
    decide
  have hzero : ∀ d,
      (exampleTarget 3 3 ETargetState.GATS_Hidden exampleCentre).OccupancyMap.IsValidCell d
        = true → d ≠ ⟨1, 1⟩ →
      (exampleTarget 3 3 ETargetState.GATS_Hidden exampleCentre).OccupancyMap.Data d = 0 := by
    intro d _ hne
    simp [exampleTarget, exampleCentre, hne]
  have h := OccupancyMapDiffuse_single_mass
    (exampleTarget 3 3 ETargetState.GATS_Hidden exampleCentre) (exampleGrid 3 3) ⟨1, 1⟩ 1
    rfl (by decide) rfl one_pos (by simp [exampleTarget, exampleCentre]) hzero
    (by rw [hns]; decide) (by rw [hns]; decide) (by rw [hns]; decide)
  rw [hns] at h
  refine ⟨⟨rfl, hns, hzero⟩, ?_, ?_, ?_⟩
  · rw [h ⟨1, 1⟩ (by decide)]
    norm_num
  · intro d hd
    simp only [List.mem_cons, List.mem_singleton, List.not_mem_nil, or_false] at hd
    rcases hd with rfl | rfl | rfl | rfl <;>
      (rw [h _ (by decide)]; norm_num)
  · intro d hd
    simp only [List.mem_cons, List.mem_singleton, List.not_mem_nil, or_false] at hd
    rcases hd with rfl | rfl | rfl | rfl <;>
      (rw [h _ (by decide)]; norm_num)

theorem neighbours_fold_dims (ns : List FCellRef) (per : F) (m : FGAGridMap F) :
    (ns.foldl (fun m n => m.SetValue n (m.GetValue n 0 + per)) m).XCount = m.XCount ∧
    (ns.foldl (fun m n => m.SetValue n (m.GetValue n 0 + per)) m).YCount = m.YCount := by
  induction ns generalizing m with
  | nil => exact ⟨rfl, rfl⟩
  | cons n ns ih =>
    simp only [List.foldl_cons]
    obtain ⟨h1, h2⟩ := ih (m.SetValue n (m.GetValue n 0 + per))
    exact ⟨by rw [h1, SetValue_XCount], by rw [h2, SetValue_YCount]⟩

/-- The body of the diffusion loop keeps the dimensions of the live map. -/
theorem diffuse_cell_dims (Grid : AGAGridActor F) (orig live : FGAGridMap F) (c : FCellRef) :
    (OccupancyMapDiffuse_cell Grid orig live c).XCount = live.XCount ∧
    (OccupancyMapDiffuse_cell Grid orig live c).YCount = live.YCount := by
  simp only [OccupancyMapDiffuse_cell]
  split_ifs
  · exact ⟨rfl, rfl⟩
  · exact ⟨rfl, rfl⟩
  · obtain ⟨h1, h2⟩ := neighbours_fold_dims (Grid.GetNeighbors c)
      (orig.GetValue c 0 * (1 / 10) / ((Grid.GetNeighbors c).length : F))
      (live.SetValue c (orig.GetValue c 0 - orig.GetValue c 0 * (1 / 10)))
    exact ⟨by rw [h1, SetValue_XCount], by rw [h2, SetValue_YCount]⟩
  · exact ⟨by rw [SetValue_XCount, SetValue_XCount], by rw [SetValue_YCount, SetValue_YCount]⟩

/-- Diffusion over any visiting order keeps the dimensions of the live map. -/
theorem diffuse_over_dims (Grid : AGAGridActor F) (orig : FGAGridMap F) (l : List FCellRef)
    (live : FGAGridMap F) :
    (OccupancyMapDiffuse_over Grid orig l live).XCount = live.XCount ∧
    (OccupancyMapDiffuse_over Grid orig l live).YCount = live.YCount := by
  induction l generalizing live with
  | nil => exact ⟨rfl, rfl⟩
  | cons c l ih =>
    obtain ⟨h1, h2⟩ := ih (OccupancyMapDiffuse_cell Grid orig live c)
    obtain ⟨h3, h4⟩ := diffuse_cell_dims Grid orig live c
    exact ⟨h1.trans h3, h2.trans h4⟩

theorem cellsYX_two_one : cellsYX 2 1 = [⟨0, 0⟩, ⟨1, 0⟩] := by decide

theorem cellsXY_two_one : cellsXY 2 1 = [⟨0, 0⟩, ⟨1, 0⟩] := by decide

/-- The map `OccupancyMapDiffuse` leaves on the 2 by 1 grid with `1/2` in both cells. -/
theorem examplePair_diffused :
    (OccupancyMapDiffuse examplePair).OccupancyMap.Data ⟨0, 0⟩ = 1 / 2 ∧
    (OccupancyMapDiffuse examplePair).OccupancyMap.Data ⟨1, 0⟩ = 9 / 20 := by
  constructor <;>
  · simp [examplePair, exampleTarget, OccupancyMapDiffuse, OccupancyMapDiffuse_map,
      OccupancyMapDiffuse_over, OccupancyMapDiffuse_cell, exampleGrid, cellsYX_two_one,
      FGAGridMap.GetValue, FGAGridMap.SetValue, FGAGridMap.IsValidCell]
    try norm_num

/-- C1 (mass conservation) evaluated on the code: two adjacent traversable cells of a
2 by 1 grid hold `1/2` each, each being the other's only neighbour.  The total
mass is `1` before `OccupancyMapDiffuse` and `19/20` after it: the share cell
`(1, 0)` received from `(0, 0)` is overwritten when `(1, 0)` is visited. -/
theorem OccupancyMapDiffuse_adjacent_mass_lost :
    ((exampleGrid 2 1).GetNeighbors ⟨0, 0⟩ = [⟨1, 0⟩] ∧
      (exampleGrid 2 1).GetNeighbors ⟨1, 0⟩ = [⟨0, 0⟩]) ∧
    totalMass examplePair.OccupancyMap = 1 ∧
    totalMass (OccupancyMapDiffuse examplePair).OccupancyMap = 19 / 20 := by
  refine ⟨⟨by decide, by decide⟩, ?_, ?_⟩
  · simp [totalMass, examplePair, exampleTarget, cellsXY_two_one, FGAGridMap.GetValue,
      FGAGridMap.IsValidCell]
    norm_num
  · have hx : (OccupancyMapDiffuse examplePair).OccupancyMap.XCount = 2 :=
      (diffuse_over_dims (exampleGrid 2 1) examplePair.OccupancyMap _ examplePair.OccupancyMap).1
    have hy : (OccupancyMapDiffuse examplePair).OccupancyMap.YCount = 1 :=
      (diffuse_over_dims (exampleGrid 2 1) examplePair.OccupancyMap _ examplePair.OccupancyMap).2
    unfold totalMass
    rw [hx, hy, cellsXY_two_one]
    simp only [List.map_cons, List.map_nil, List.sum_cons, List.sum_nil, FGAGridMap.GetValue,
      FGAGridMap.IsValidCell, hx, hy, examplePair_diffused.1, examplePair_diffused.2]
    norm_num

/-- C6 (visitation order) evaluated on the code: on the same 2 by 1 grid the source
order (row-major) leaves `1/2` in `(0, 0)` and `9/20` in `(1, 0)`, the reverse order
leaves `9/20` in `(0, 0)` and `1/2` in `(1, 0)`; kept mass plus received share
would be `1/2` in both cells. -/
theorem OccupancyMapDiffuse_order_dependent :
    ((OccupancyMapDiffuse examplePair).OccupancyMap.Data ⟨0, 0⟩ = 1 / 2 ∧
      (OccupancyMapDiffuse examplePair).OccupancyMap.Data ⟨1, 0⟩ = 9 / 20) ∧
    ((OccupancyMapDiffuse_over (exampleGrid 2 1) examplePair.OccupancyMap
        (cellsYX 2 1).reverse examplePair.OccupancyMap).Data ⟨0, 0⟩ = 9 / 20 ∧
      (OccupancyMapDiffuse_over (exampleGrid 2 1) examplePair.OccupancyMap
        (cellsYX 2 1).reverse examplePair.OccupancyMap).Data ⟨1, 0⟩ = 1 / 2) := by
  refine ⟨examplePair_diffused, ?_, ?_⟩ <;>
  · simp [examplePair, exampleTarget, OccupancyMapDiffuse_over, OccupancyMapDiffuse_cell,
      exampleGrid, cellsYX_two_one, FGAGridMap.GetValue, FGAGridMap.SetValue,
      FGAGridMap.IsValidCell]
    try norm_num

end Diffusion

/-! ## The visibility test -/

section Visibility

variable {F : Type} [LinearOrderedField F]

/-- C10 (decision rule of `TestVisibility`).  For an observer with an owner pawn,
`TestVisibility` returns `true` exactly when the distance to the point is at most
`VisionDistance`, the angle between the forward vector and the direction to the
point is at most `VisionAngle / 2`, and the line trace reports no hit. -/
theorem TestVisibility_rule (E : Engine F) (self : UGAPerceptionComponent F)
    (OwnerPawn : AActor F) (TestLocation : FVector F)
    (hPawn : self.OwnerPawn = some OwnerPawn) :
    TestVisibility E self TestLocation = true ↔
      (E.Distance OwnerPawn.Location TestLocation ≤ self.VisionParameters.VisionDistance ∧
        E.RadiansToDegrees (E.Acos (Clamp
            (FVector.DotProduct OwnerPawn.Forward
              (E.GetSafeNormal (TestLocation.sub OwnerPawn.Location))) (-1) 1))
          ≤ self.VisionParameters.VisionAngle / 2 ∧
        (E.LineTraceSingleByChannel OwnerPawn.Location TestLocation OwnerPawn.Id).bHit
          = false) := by
  simp only [TestVisibility, hPawn]
  by_cases hD : E.Distance OwnerPawn.Location TestLocation > self.VisionParameters.VisionDistance
  · simp [hD, not_le.mpr hD]
  · by_cases hA : E.RadiansToDegrees (E.Acos (Clamp
        (FVector.DotProduct OwnerPawn.Forward
          (E.GetSafeNormal (TestLocation.sub OwnerPawn.Location))) (-1) 1))
        > self.VisionParameters.VisionAngle / 2
    · simp [hD, hA, not_le.mpr hA]
    · simp [hD, hA, not_lt.mp hD, not_lt.mp hA]

/-- The scenario of the specification in real arithmetic: observer at the origin
facing `+X`, vision angle `90`, vision distance `1000`, no obstruction.  The point
`(500, 0, 0)` is visible; the point `(0, 600, 0)`, at `90` degrees, is not. -/
theorem TestVisibility_rule_witness :
    (originObserver : UGAPerceptionComponent ℝ).OwnerPawn
      = some ⟨2, ⟨0, 0, 0⟩, ⟨0, 0, 0⟩, ⟨1, 0, 0⟩⟩ ∧
    TestVisibility
      (euclideanEngine Real.sqrt Real.arccos Real.pi (fun _ _ _ => ⟨false, none⟩))
      originObserver ⟨500, 0, 0⟩ = true ∧
    TestVisibility
      (euclideanEngine Real.sqrt Real.arccos Real.pi (fun _ _ _ => ⟨false, none⟩))
      originObserver ⟨0, 600, 0⟩ = false := by
  have hs500 : Real.sqrt 250000 = 500 := by
    rw [show (250000 : ℝ) = 500 ^ 2 by norm_num, Real.sqrt_sq (by norm_num)]
  have hs600 : Real.sqrt 360000 = 600 := by
    rw [show (360000 : ℝ) = 600 ^ 2 by norm_num, Real.sqrt_sq (by norm_num)]
  refine ⟨rfl, ?_, ?_⟩
  · rw [TestVisibility_rule _ originObserver ⟨2, ⟨0, 0, 0⟩, ⟨0, 0, 0⟩, ⟨1, 0, 0⟩⟩ _ rfl]
    refine ⟨?_, ?_, rfl⟩
    · simp only [euclideanEngine, originObserver]
      norm_num [hs500]
    · simp only [euclideanEngine, originObserver, FVector.sub, FVector.DotProduct, Clamp]
      norm_num [hs500, Real.arccos_one]
  · rw [← Bool.not_eq_true,
      TestVisibility_rule _ originObserver ⟨2, ⟨0, 0, 0⟩, ⟨0, 0, 0⟩, ⟨1, 0, 0⟩⟩ _ rfl]
    rintro ⟨_, hA, _⟩
    simp only [euclideanEngine, originObserver, FVector.sub, FVector.DotProduct, Clamp] at hA
    norm_num [hs600, Real.arccos_zero] at hA
    have hpi : Real.pi / 2 * (180 / Real.pi) = 90 := by
      field_simp
      ring
    rw [hpi] at hA
    norm_num at hA

end Visibility

/-! ## Pruning, cell by cell -/

section PruneCells

variable {F : Type} [LinearOrderedField F]

/-- The prune-and-renormalise pass (lines 208-251) cell by cell, for any visibility map
and any cell `c` of the map: a cell marked visible holds `0`; with `T` the mass on the
non-visible cells beforehand, a non-visible cell holds `old / T` when `T > 0` and its
old value otherwise. -/
theorem OccupancyMapUpdate_Prune_cells (VisibilityMap m : FGAGridMap F) (c : FCellRef)
    (hc : m.IsValidCell c = true) :
    (VisibilityMap.GetValue c 0 > 0 →
      (OccupancyMapUpdate_Prune VisibilityMap m).Data c = 0) ∧
    (¬ VisibilityMap.GetValue c 0 > 0 → nonVisibleMass VisibilityMap m > 0 →
      (OccupancyMapUpdate_Prune VisibilityMap m).Data c
        = m.Data c / nonVisibleMass VisibilityMap m) ∧
    (¬ VisibilityMap.GetValue c 0 > 0 → ¬ nonVisibleMass VisibilityMap m > 0 →
      (OccupancyMapUpdate_Prune VisibilityMap m).Data c = m.Data c) := by
  refine ⟨fun hv => ?_, fun hv hT => ?_, fun hv hT => ?_⟩
  · rw [Prune_Data]; simp only [hc, hv, if_true]
  · rw [Prune_Data]; simp only [hc, hv, hT, if_true, if_false]
  · rw [Prune_Data]; simp only [hc, hv, hT, if_true, if_false]

theorem exampleUniform_nonVisibleMass : nonVisibleMass exampleVisibility exampleUniform = 1 / 2 := by
  simp [nonVisibleMass, exampleVisibility, exampleUniform, cellsXY, List.range_succ,
    FGAGridMap.GetValue, FGAGridMap.IsValidCell, List.filter_cons]
  norm_num

/-- On the uniform 2 by 2 map with column `x = 0` visible: the visible cell `(0, 1)` ends
with `0`, the non-visible cell `(1, 0)` with `(1/4) / (1/2) = 1/2`. -/
theorem OccupancyMapUpdate_Prune_cells_witness :
    (exampleUniform.IsValidCell ⟨0, 1⟩ = true ∧ exampleUniform.IsValidCell ⟨1, 0⟩ = true) ∧
    (OccupancyMapUpdate_Prune exampleVisibility exampleUniform).Data ⟨0, 1⟩ = 0 ∧
    (OccupancyMapUpdate_Prune exampleVisibility exampleUniform).Data ⟨1, 0⟩ = 1 / 2 := by
  refine ⟨⟨by decide, by decide⟩, ?_, ?_⟩
  · exact (OccupancyMapUpdate_Prune_cells exampleVisibility exampleUniform ⟨0, 1⟩
      (by decide)).1 (by simp [exampleVisibility, FGAGridMap.GetValue, FGAGridMap.IsValidCell])
  · rw [(OccupancyMapUpdate_Prune_cells exampleVisibility exampleUniform ⟨1, 0⟩
      (by decide)).2.1 (by simp [exampleVisibility, FGAGridMap.GetValue, FGAGridMap.IsValidCell])
      (by rw [exampleUniform_nonVisibleMass]; norm_num), exampleUniform_nonVisibleMass]
    simp [exampleUniform]
    norm_num

end PruneCells

/-! ## One step of `TickComponent` -/

section TickStep

variable {F : Type} [LinearOrderedField F]

/-- The flag `isImmediate` says that some observer has awareness `≥ 1` for the target. -/
theorem isImmediate_iff (PS : Option (List (UGAPerceptionComponent F))) (g : Nat) :
    TickComponent_isImmediate PS g = true ↔ SpottedBySomeObserver PS g := by
  cases PS with
  | none => simp [TickComponent_isImmediate, SpottedBySomeObserver]
  | some pcs =>
    simp only [TickComponent_isImmediate, SpottedBySomeObserver, List.any_eq_true,
      Option.some.injEq, exists_eq_left']
    constructor
    · rintro ⟨pc, hpc, h⟩
      cases hd : pc.GetTargetData g with
      | none => simp [hd] at h
      | some d =>
        simp only [hd, decide_eq_true_eq] at h
        exact ⟨pc, hpc, d, hd, h⟩
    · rintro ⟨pc, hpc, d, hd, h⟩
      exact ⟨pc, hpc, by simp [hd, h]⟩

/-- The step of `TickComponent` for a target some observer is fully aware of. -/
theorem TickComponent_immediate (E : Engine F) (PS : Option (List (UGAPerceptionComponent F)))
    (Owner : AActor F) (t : UGATargetComponent F)
    (hI : TickComponent_isImmediate PS t.TargetGuid = true) :
    TickComponent E PS Owner t =
      OccupancyMapDiffuse (OccupancyMapSetPosition
        { t with LastKnownState :=
          { State := ETargetState.GATS_Immediate, Position := Owner.Location,
            Velocity := Owner.Velocity } } Owner.Location) := by
  simp only [TickComponent, hI, if_true, FTargetCache.Set]
  simp [SetPosition_LastKnownState, UGATargetComponent.IsKnown]

/-- The step of `TickComponent` for a known target no observer is fully aware of. -/
theorem TickComponent_hidden (E : Engine F) (PS : Option (List (UGAPerceptionComponent F)))
    (Owner : AActor F) (t : UGATargetComponent F)
    (hI : TickComponent_isImmediate PS t.TargetGuid = false) (hK : t.IsKnown = true) :
    TickComponent E PS Owner t =
      OccupancyMapDiffuse (OccupancyMapUpdate E PS
        { t with LastKnownState :=
          { t.LastKnownState with State := ETargetState.GATS_Hidden } }) := by
  simp only [TickComponent, hI, hK, if_true, if_false, Bool.false_eq_true]
  simp [Update_State, UGATargetComponent.IsKnown]

/-- The step of `TickComponent` for an unknown target no observer is fully aware of. -/
theorem TickComponent_unknown (E : Engine F) (PS : Option (List (UGAPerceptionComponent F)))
    (Owner : AActor F) (t : UGATargetComponent F)
    (hI : TickComponent_isImmediate PS t.TargetGuid = false) (hK : t.IsKnown = false) :
    TickComponent E PS Owner t = t := by
  have hU : t.LastKnownState.State = ETargetState.GATS_Unknown := by
    cases hst : t.LastKnownState.State <;> simp_all [UGATargetComponent.IsKnown]
  simp only [TickComponent, hI, hK, if_false, Bool.false_eq_true]
  simp [hU, hK]

theorem IsKnown_iff {G : Type} (t : UGATargetComponent G) :
    t.IsKnown = true ↔ (t.LastKnownState.State = ETargetState.GATS_Immediate ∨
      t.LastKnownState.State = ETargetState.GATS_Hidden) := by
  simp [UGATargetComponent.IsKnown]

theorem SetPosition_OccupancyMap (t : UGATargetComponent F) (Grid : AGAGridActor F)
    (p : FVector F) (hGrid : t.GridActor = some Grid) :
    (OccupancyMapSetPosition t p).OccupancyMap
      = OccupancyMapSetPosition_map Grid t.OccupancyMap p := by
  simp [OccupancyMapSetPosition, hGrid]

theorem SetPosition_GridActor (t : UGATargetComponent F) (p : FVector F) :
    (OccupancyMapSetPosition t p).GridActor = t.GridActor := by
  cases h : t.GridActor <;> simp [OccupancyMapSetPosition, h]

theorem Update_GridActor (E : Engine F) (PS : Option (List (UGAPerceptionComponent F)))
    (t : UGATargetComponent F) : (OccupancyMapUpdate E PS t).GridActor = t.GridActor := by
  cases h : t.GridActor <;> simp [OccupancyMapUpdate, h]

theorem Diffuse_OccupancyMap (t : UGATargetComponent F) (Grid : AGAGridActor F)
    (hGrid : t.GridActor = some Grid) :
    (OccupancyMapDiffuse t).OccupancyMap = OccupancyMapDiffuse_map Grid t.OccupancyMap := by
  simp [OccupancyMapDiffuse, hGrid]

/-- C11 (per-step composition).  With a grid bound, one `TickComponent` step does this:
if some observer has awareness `≥ 1` for the target, the status ends Immediate, the
last-known position and velocity are the owner's, and the map is
`Diffuse(SetPosition(true position))`; otherwise, if the status was Immediate or
Hidden, it ends Hidden and the map is `Diffuse(Prune(previous map))`; otherwise
the status was Unknown and the whole target state is unchanged. -/
theorem TickComponent_composition (E : Engine F)
    (PS : Option (List (UGAPerceptionComponent F))) (Owner : AActor F)
    (t : UGATargetComponent F) (Grid : AGAGridActor F) (hGrid : t.GridActor = some Grid) :
    (SpottedBySomeObserver PS t.TargetGuid →
      (TickComponent E PS Owner t).LastKnownState.State = ETargetState.GATS_Immediate ∧
      (TickComponent E PS Owner t).LastKnownState.Position = Owner.Location ∧
      (TickComponent E PS Owner t).LastKnownState.Velocity = Owner.Velocity ∧
      (TickComponent E PS Owner t).OccupancyMap =
        OccupancyMapDiffuse_map Grid
          (OccupancyMapSetPosition_map Grid t.OccupancyMap Owner.Location)) ∧
    (¬ SpottedBySomeObserver PS t.TargetGuid →
      (t.LastKnownState.State = ETargetState.GATS_Immediate ∨
        t.LastKnownState.State = ETargetState.GATS_Hidden) →
      (TickComponent E PS Owner t).LastKnownState.State = ETargetState.GATS_Hidden ∧
      (TickComponent E PS Owner t).OccupancyMap =
        OccupancyMapDiffuse_map Grid
          (OccupancyMapUpdate_Prune (OccupancyMapUpdate_VisibilityMap E Grid PS)
            t.OccupancyMap)) ∧
    (¬ SpottedBySomeObserver PS t.TargetGuid →
      t.LastKnownState.State = ETargetState.GATS_Unknown →
      TickComponent E PS Owner t = t) := by
  refine ⟨fun hS => ?_, fun hS hK => ?_, fun hS hU => ?_⟩
  · have hI := (isImmediate_iff PS t.TargetGuid).mpr hS
    have hG2 : ({ t with LastKnownState :=
        { State := ETargetState.GATS_Immediate, Position := Owner.Location,
          Velocity := Owner.Velocity } } : UGATargetComponent F).GridActor = some Grid := hGrid
    rw [TickComponent_immediate E PS Owner t hI]
    rw [Diffuse_LastKnownState, SetPosition_LastKnownState,
      Diffuse_OccupancyMap _ Grid (by rw [SetPosition_GridActor]; exact hG2),
      SetPosition_OccupancyMap _ Grid _ hG2]
    exact ⟨rfl, rfl, rfl, rfl⟩
  · have hI : TickComponent_isImmediate PS t.TargetGuid = false := by
      rw [← Bool.not_eq_true, isImmediate_iff]; exact hS
    have hG2 : ({ t with LastKnownState :=
        { t.LastKnownState with State := ETargetState.GATS_Hidden } } :
        UGATargetComponent F).GridActor = some Grid := hGrid
    rw [TickComponent_hidden E PS Owner t hI ((IsKnown_iff t).mpr hK)]
    rw [Diffuse_LastKnownState, Update_State,
      Diffuse_OccupancyMap _ Grid (by rw [Update_GridActor]; exact hG2),
      OccupancyMapUpdate_OccupancyMap E PS _ Grid hG2]
    exact ⟨rfl, rfl⟩
  · have hI : TickComponent_isImmediate PS t.TargetGuid = false := by
      rw [← Bool.not_eq_true, isImmediate_iff]; exact hS
    have hK : t.IsKnown = false := by
      rw [← Bool.not_eq_true, IsKnown_iff]; simp [hU]
    exact TickComponent_unknown E PS Owner t hI hK

/-- The observer of `exampleTick 1` is fully aware of target `7`. -/
theorem exampleTick_spotted :
    SpottedBySomeObserver (exampleTick 1).PerceptionSystem 7 :=
  ⟨[exampleObserver 1], rfl, exampleObserver 1, List.mem_singleton.mpr rfl, ⟨false, 1⟩, rfl,
    le_refl _⟩

/-- A target on the 3 by 3 grid spotted while its owner stands in cell `(1, 1)`: the
status ends Immediate and the last-known position is the owner's. -/
theorem TickComponent_composition_witness :
    ((exampleTarget 3 3 ETargetState.GATS_Unknown (fun _ => 0)).GridActor
        = some (exampleGrid 3 3) ∧
      SpottedBySomeObserver (exampleTick 1).PerceptionSystem
        (exampleTarget 3 3 ETargetState.GATS_Unknown (fun _ => 0)).TargetGuid) ∧
    (TickComponent (exampleTick 1).World (exampleTick 1).PerceptionSystem (exampleTick 1).Owner
      (exampleTarget 3 3 ETargetState.GATS_Unknown (fun _ => 0))).LastKnownState.State
        = ETargetState.GATS_Immediate ∧
    (TickComponent (exampleTick 1).World (exampleTick 1).PerceptionSystem (exampleTick 1).Owner
      (exampleTarget 3 3 ETargetState.GATS_Unknown (fun _ => 0))).LastKnownState.Position
        = (exampleTick 1).Owner.Location :=
  ⟨⟨rfl, exampleTick_spotted⟩,
    ((TickComponent_composition (exampleTick 1).World (exampleTick 1).PerceptionSystem
      (exampleTick 1).Owner (exampleTarget 3 3 ETargetState.GATS_Unknown (fun _ => 0))
      (exampleGrid 3 3) rfl).1 exampleTick_spotted).1,
    ((TickComponent_composition (exampleTick 1).World (exampleTick 1).PerceptionSystem
      (exampleTick 1).Owner (exampleTarget 3 3 ETargetState.GATS_Unknown (fun _ => 0))
      (exampleGrid 3 3) rfl).1 exampleTick_spotted).2.1⟩

end TickStep

/-! ## The belief of a target that has just been spotted -/

section Spotted

variable {F : Type} [LinearOrderedField F]

/-- Diffusion of a map whose only mass `m > 0` sits in the traversable cell `c`. -/
theorem diffuse_map_single_mass (Grid : AGAGridActor F) (M : FGAGridMap F) (c : FCellRef)
    (m : F) (hc : M.IsValidCell c = true) (ht : Grid.IsTraversable c = true)
    (hm : 0 < m) (hcm : M.Data c = m)
    (hzero : ∀ d, M.IsValidCell d = true → d ≠ c → M.Data d = 0)
    (hk : 1 ≤ (Grid.GetNeighbors c).length) (hnd : (Grid.GetNeighbors c).Nodup)
    (hself : c ∉ Grid.GetNeighbors c) (d : FCellRef) (hd : M.IsValidCell d = true) :
    (OccupancyMapDiffuse_map Grid M).Data d =
      if d = c then 9 / 10 * m
      else if d ∈ Grid.GetNeighbors c then 1 / 10 * m / ((Grid.GetNeighbors c).length : F)
      else 0 := by
  have hidle : ∀ e ∈ cellsYX M.XCount M.YCount, e ≠ c →
      ∀ x, OccupancyMapDiffuse_cell Grid M x e = x := by
    intro e he hne x
    have hv : M.IsValidCell e = true := (mem_cellsYX_iff_valid _ e).mp he
    exact diffuse_cell_idle Grid M x e
      (Or.inr (by simp [FGAGridMap.GetValue, hv, hzero e hv hne]))
  have hfold : OccupancyMapDiffuse_map Grid M = OccupancyMapDiffuse_cell Grid M M c := by
    simp only [OccupancyMapDiffuse_map, OccupancyMapDiffuse_over]
    rw [foldl_single_active _ c _ (nodup_cellsYX _ _) _ hidle,
      if_pos ((mem_cellsYX_iff_valid _ c).mpr hc)]
  have hcur : M.GetValue c 0 = m := by simp [FGAGridMap.GetValue, hc, hcm]
  have hlen : (Grid.GetNeighbors c).length > 0 := hk
  simp only [hfold, OccupancyMapDiffuse_cell, ht, hcur, Bool.not_true, Bool.false_eq_true,
    if_false, not_le.mpr hm, hlen, if_true]
  rw [(neighbours_fold _ hnd _ _).2.2 d, SetValue_IsValidCell, SetValue_Data]
  by_cases hdc : d = c
  · subst hdc
    simp only [hself, false_and, if_false, hd, and_self, if_true]
    ring
  · simp only [hdc, false_and, if_false, hd, and_true]
    by_cases hdn : d ∈ Grid.GetNeighbors c
    · simp only [hdn, if_true, hzero d hd hdc]
      ring
    · simp only [hdn, if_false, hzero d hd hdc]

/-- Diffusion leaves a point mass alone when its cell is not traversable or has no
traversable neighbour. -/
theorem diffuse_map_point_isolated (Grid : AGAGridActor F) (M : FGAGridMap F) (c : FCellRef)
    (hzero : ∀ d, M.IsValidCell d = true → d ≠ c → M.Data d = 0)
    (hiso : Grid.IsTraversable c = false ∨ Grid.GetNeighbors c = []) :
    OccupancyMapDiffuse_map Grid M = M := by
  have hidle : ∀ e ∈ cellsYX M.XCount M.YCount, e ≠ c →
      ∀ x, OccupancyMapDiffuse_cell Grid M x e = x := by
    intro e he hne x
    have hv : M.IsValidCell e = true := (mem_cellsYX_iff_valid _ e).mp he
    exact diffuse_cell_idle Grid M x e
      (Or.inr (by simp [FGAGridMap.GetValue, hv, hzero e hv hne]))
  simp only [OccupancyMapDiffuse_map, OccupancyMapDiffuse_over]
  rw [foldl_single_active _ c _ (nodup_cellsYX _ _) _ hidle]
  split
  · by_cases ht : Grid.IsTraversable c = true
    · have hn : Grid.GetNeighbors c = [] := by
        rcases hiso with h | h
        · rw [h] at ht; exact absurd ht (by decide)
        · exact h
      simp only [OccupancyMapDiffuse_cell, ht, hn, Bool.not_true, Bool.false_eq_true, if_false,
        List.length_nil, gt_iff_lt, lt_self_iff_false]
      split
      · rfl
      · apply FGAGridMap.ext_of
        · rw [SetValue_XCount, SetValue_XCount]
        · rw [SetValue_YCount, SetValue_YCount]
        · intro d
          rw [SetValue_Data, SetValue_Data, SetValue_IsValidCell]
          by_cases hdc : d = c ∧ M.IsValidCell c = true
          · obtain ⟨rfl, hv⟩ := hdc
            simp [hv, FGAGridMap.GetValue]
          · simp [hdc]
    · exact diffuse_cell_idle Grid M M c (Or.inl (by simpa using ht))
  · rfl

/-- The map after a step in which the target is spotted. -/
theorem TickComponent_immediate_map (E : Engine F)
    (PS : Option (List (UGAPerceptionComponent F))) (Owner : AActor F)
    (t : UGATargetComponent F) (Grid : AGAGridActor F) (hGrid : t.GridActor = some Grid)
    (hS : SpottedBySomeObserver PS t.TargetGuid) :
    (TickComponent E PS Owner t).OccupancyMap =
      OccupancyMapDiffuse_map Grid
        (OccupancyMapSetPosition_map Grid t.OccupancyMap Owner.Location) := by
  have hG2 : ({ t with LastKnownState :=
      { State := ETargetState.GATS_Immediate, Position := Owner.Location,
        Velocity := Owner.Velocity } } : UGATargetComponent F).GridActor = some Grid := hGrid
  rw [TickComponent_immediate E PS Owner t ((isImmediate_iff PS t.TargetGuid).mpr hS),
    Diffuse_OccupancyMap _ Grid (by rw [SetPosition_GridActor]; exact hG2),
    SetPosition_OccupancyMap _ Grid _ hG2]

/-- The collapsed map is a point mass at the cell of the position. -/
theorem SetPosition_map_point (Grid : AGAGridActor F) (M : FGAGridMap F) (p : FVector F)
    (hX : M.XCount = Grid.XCount) (hY : M.YCount = Grid.YCount)
    (hin : Grid.IsCellRefInBounds (Grid.GetCellRef p) = true) :
    (OccupancyMapSetPosition_map Grid M p).IsValidCell (Grid.GetCellRef p) = true ∧
    (OccupancyMapSetPosition_map Grid M p).Data (Grid.GetCellRef p) = 1 ∧
    ∀ d, (OccupancyMapSetPosition_map Grid M p).IsValidCell d = true → d ≠ Grid.GetCellRef p →
      (OccupancyMapSetPosition_map Grid M p).Data d = 0 := by
  have hb : ∀ c, M.IsValidCell c = Grid.IsCellRefInBounds c := by
    intro c; simp [FGAGridMap.IsValidCell, AGAGridActor.IsCellRefInBounds, hX, hY]
  simp only [SetPosition_map_IsValidCell, SetPosition_map_Data]
  refine ⟨by rw [hb]; exact hin, ?_, ?_⟩
  · rw [hb]; simp [hin]
  · intro d hd hne; simp [hd, hne]

/-- C12 as amended (belief of a just-spotted target).  With a grid bound and the map
sized to it, after a `TickComponent` step in which some observer has awareness
`≥ 1` and the owner's position maps to an in-bounds cell `c`, the map is the point
mass at `c` after one diffusion step: if `c` is traversable with `k ≥ 1` distinct
traversable neighbours, `c` not among them, it holds `0.9` at `c`, `0.1 / k` at each
neighbour and `0` elsewhere; if `c` is not traversable or has no traversable
neighbour it holds `1` at `c` and `0` elsewhere. -/
theorem TickComponent_spotted_belief (E : Engine F)
    (PS : Option (List (UGAPerceptionComponent F))) (Owner : AActor F)
    (t : UGATargetComponent F) (Grid : AGAGridActor F) (hGrid : t.GridActor = some Grid)
    (hX : t.OccupancyMap.XCount = Grid.XCount) (hY : t.OccupancyMap.YCount = Grid.YCount)
    (hS : SpottedBySomeObserver PS t.TargetGuid)
    (hin : Grid.IsCellRefInBounds (Grid.GetCellRef Owner.Location) = true) :
    (Grid.IsTraversable (Grid.GetCellRef Owner.Location) = true →
      1 ≤ (Grid.GetNeighbors (Grid.GetCellRef Owner.Location)).length →
      (Grid.GetNeighbors (Grid.GetCellRef Owner.Location)).Nodup →
      Grid.GetCellRef Owner.Location ∉ Grid.GetNeighbors (Grid.GetCellRef Owner.Location) →
      ∀ d, t.OccupancyMap.IsValidCell d = true →
        (TickComponent E PS Owner t).OccupancyMap.Data d =
          if d = Grid.GetCellRef Owner.Location then 9 / 10
          else if d ∈ Grid.GetNeighbors (Grid.GetCellRef Owner.Location) then
            1 / 10 / ((Grid.GetNeighbors (Grid.GetCellRef Owner.Location)).length : F)
          else 0) ∧
    ((Grid.IsTraversable (Grid.GetCellRef Owner.Location) = false ∨
        Grid.GetNeighbors (Grid.GetCellRef Owner.Location) = []) →
      ∀ d, t.OccupancyMap.IsValidCell d = true →
        (TickComponent E PS Owner t).OccupancyMap.Data d =
          if d = Grid.GetCellRef Owner.Location then 1 else 0) := by
  obtain ⟨hpv, hp1, hp0⟩ := SetPosition_map_point Grid t.OccupancyMap Owner.Location hX hY hin
  rw [TickComponent_immediate_map E PS Owner t Grid hGrid hS]
  constructor
  · intro ht hk hnd hself d hd
    rw [diffuse_map_single_mass Grid _ (Grid.GetCellRef Owner.Location) 1 hpv ht one_pos hp1 hp0
      hk hnd hself d (by rw [SetPosition_map_IsValidCell]; exact hd)]
    simp only [mul_one]
  · intro hiso d hd
    rw [diffuse_map_point_isolated Grid _ (Grid.GetCellRef Owner.Location) hp0 hiso]
    by_cases hdc : d = Grid.GetCellRef Owner.Location
    · rw [hdc, if_pos rfl]; exact hp1
    · rw [if_neg hdc]
      exact hp0 d (by rw [SetPosition_map_IsValidCell]; exact hd) hdc

theorem exampleGrid_centre_cell :
    (exampleGrid 3 3).GetCellRef ⟨3 / 2, 3 / 2, 0⟩ = ⟨1, 1⟩ := by
  simp only [exampleGrid, FCellRef.mk.injEq]
  constructor <;> (rw [Int.floor_eq_iff]; norm_num)

theorem exampleGrid_centre_neighbours :
    (exampleGrid 3 3).GetNeighbors ⟨1, 1⟩ = [⟨0, 1⟩, ⟨2, 1⟩, ⟨1, 0⟩, ⟨1, 2⟩] := by
  decide

theorem exampleTick_cell :
    (exampleGrid 3 3).GetCellRef (exampleTick 1).Owner.Location = ⟨1, 1⟩ :=
  exampleGrid_centre_cell

/-- C12 as stated, refuted on the code: on the fully traversable 3 by 3 grid, a target
whose owner stands in the in-bounds cell `(1, 1)` is spotted (awareness `1`); at the
end of that `TickComponent` step the map is not the point mass at `(1, 1)`, since
that cell holds `9/10`. -/
theorem TickComponent_spotted_not_point_mass :
    SpottedBySomeObserver (exampleTick 1).PerceptionSystem
      (exampleTarget 3 3 ETargetState.GATS_Unknown (fun _ => 0)).TargetGuid ∧
    (exampleGrid 3 3).GetCellRef (exampleTick 1).Owner.Location = ⟨1, 1⟩ ∧
    (exampleGrid 3 3).IsCellRefInBounds ⟨1, 1⟩ = true ∧
    ¬ ((TickComponent (exampleTick 1).World (exampleTick 1).PerceptionSystem
          (exampleTick 1).Owner
          (exampleTarget 3 3 ETargetState.GATS_Unknown (fun _ => 0))).OccupancyMap.Data ⟨1, 1⟩
        = 1 ∧
      ∀ d, (exampleTarget 3 3 ETargetState.GATS_Unknown (fun _ => 0)).OccupancyMap.IsValidCell d
          = true → d ≠ ⟨1, 1⟩ →
        (TickComponent (exampleTick 1).World (exampleTick 1).PerceptionSystem
          (exampleTick 1).Owner
          (exampleTarget 3 3 ETargetState.GATS_Unknown (fun _ => 0))).OccupancyMap.Data d
        = 0) := by
  refine ⟨exampleTick_spotted, exampleTick_cell, by decide, ?_⟩
  rintro ⟨h1, -⟩
  have hmap := TickComponent_immediate_map (exampleTick 1).World
    (exampleTick 1).PerceptionSystem (exampleTick 1).Owner
    (exampleTarget 3 3 ETargetState.GATS_Unknown (fun _ => 0)) (exampleGrid 3 3) rfl
    exampleTick_spotted
  obtain ⟨hpv, hp1, hp0⟩ := SetPosition_map_point (exampleGrid 3 3)
    (exampleTarget 3 3 ETargetState.GATS_Unknown (fun _ => 0)).OccupancyMap
    (exampleTick 1).Owner.Location rfl rfl (by rw [exampleTick_cell]; decide)
  rw [exampleTick_cell] at hpv hp1 hp0
  have h9 := diffuse_map_single_mass (exampleGrid 3 3) _ ⟨1, 1⟩ 1 hpv rfl one_pos hp1 hp0
    (by rw [exampleGrid_centre_neighbours]; decide)
    (by rw [exampleGrid_centre_neighbours]; decide)
    (by rw [exampleGrid_centre_neighbours]; decide) ⟨1, 1⟩ hpv
  rw [hmap, h9] at h1
  norm_num at h1

/-- The same step through the amended statement: the spotted target on the 3 by 3 grid
ends with `9/10` in cell `(1, 1)` and `1/40` in the neighbour `(0, 1)`. -/
theorem TickComponent_spotted_belief_witness :
    ((exampleTarget 3 3 ETargetState.GATS_Unknown (fun _ => 0)).GridActor
        = some (exampleGrid 3 3) ∧
      SpottedBySomeObserver (exampleTick 1).PerceptionSystem
        (exampleTarget 3 3 ETargetState.GATS_Unknown (fun _ => 0)).TargetGuid ∧
      (exampleGrid 3 3).IsCellRefInBounds
        ((exampleGrid 3 3).GetCellRef (exampleTick 1).Owner.Location) = true) ∧
    (TickComponent (exampleTick 1).World (exampleTick 1).PerceptionSystem
      (exampleTick 1).Owner
      (exampleTarget 3 3 ETargetState.GATS_Unknown (fun _ => 0))).OccupancyMap.Data ⟨1, 1⟩
      = 9 / 10 ∧
    (TickComponent (exampleTick 1).World (exampleTick 1).PerceptionSystem
      (exampleTick 1).Owner
      (exampleTarget 3 3 ETargetState.GATS_Unknown (fun _ => 0))).OccupancyMap.Data ⟨0, 1⟩
      = 1 / 40 := by
  have hin : (exampleGrid 3 3).IsCellRefInBounds
      ((exampleGrid 3 3).GetCellRef (exampleTick 1).Owner.Location) = true := by
    rw [exampleTick_cell]; decide
  have h := (TickComponent_spotted_belief (exampleTick 1).World
    (exampleTick 1).PerceptionSystem (exampleTick 1).Owner
    (exampleTarget 3 3 ETargetState.GATS_Unknown (fun _ => 0)) (exampleGrid 3 3) rfl rfl rfl
    exampleTick_spotted hin).1
  rw [exampleTick_cell, exampleGrid_centre_neighbours] at h
  have h2 := h rfl (by decide) (by decide) (by decide)
  refine ⟨⟨rfl, exampleTick_spotted, hin⟩, ?_, ?_⟩
  · rw [h2 ⟨1, 1⟩ (by decide)]
    norm_num
  · rw [h2 ⟨0, 1⟩ (by decide)]
    norm_num

end Spotted

/-! ## The visibility map -/

section VisibilityMap

theorem cellsXY_one_one : cellsXY 1 1 = [⟨0, 0⟩] := by decide

/-- C13 (visibility map construction) evaluated on the code: on the fully traversable
grid with `XCount = 1`, `YCount = 2` and one observer whose `TestVisibility` succeeds
everywhere, the in-bounds traversable cell `(0, 1)` is left non-visible (value `0`)
while `(0, 0)` is marked visible: the inner loop runs over `y < XCount`. -/
theorem OccupancyMapUpdate_VisibilityMap_nonsquare :
    ((exampleGrid 1 2).IsCellRefInBounds ⟨0, 1⟩ = true ∧
      (exampleGrid 1 2).IsTraversable ⟨0, 1⟩ = true ∧
      TestVisibility stubEngine (exampleWatcher 0)
        ((exampleGrid 1 2).GetCellPosition ⟨0, 1⟩) = true) ∧
    (OccupancyMapUpdate_VisibilityMap stubEngine (exampleGrid 1 2)
      (some [exampleWatcher 0])).GetValue ⟨0, 1⟩ 0 = 0 ∧
    (OccupancyMapUpdate_VisibilityMap stubEngine (exampleGrid 1 2)
      (some [exampleWatcher 0])).GetValue ⟨0, 0⟩ 0 = 1 := by
  have htv : ∀ p, TestVisibility stubEngine (exampleWatcher 0) p = true := by
    intro p
    simp [TestVisibility, exampleWatcher, stubEngine]
    norm_num
  refine ⟨⟨by decide, rfl, htv _⟩, ?_, ?_⟩
  · simp [OccupancyMapUpdate_VisibilityMap, FGAGridMap.ofGrid, exampleGrid, cellsXY_one_one,
      htv, FGAGridMap.GetValue, FGAGridMap.SetValue, FGAGridMap.IsValidCell]
  · simp [OccupancyMapUpdate_VisibilityMap, FGAGridMap.ofGrid, exampleGrid, cellsXY_one_one,
      htv, FGAGridMap.GetValue, FGAGridMap.SetValue, FGAGridMap.IsValidCell]

end VisibilityMap

/-! ## The best guess -/

section BestGuess

variable {F : Type} [LinearOrderedField F]

/-- The scan for the maximum does not move when no cell exceeds the running maximum. -/
theorem maxProb_fold_none (M : FGAGridMap F) (l : List FCellRef) (acc : F × FCellRef)
    (h : ∀ d ∈ l, M.GetValue d 0 ≤ acc.1) :
    l.foldl (fun acc CellRef =>
      let CellProbability := M.GetValue CellRef 0
      if CellProbability > acc.1 then (CellProbability, CellRef) else acc) acc = acc := by
  induction l with
  | nil => rfl
  | cons e l ih =>
    simp only [List.foldl_cons]
    rw [if_neg (not_lt.mpr (h e (List.mem_cons_self _ _)))]
    exact ih (fun d hd => h d (List.mem_cons_of_mem _ hd))

/-- The scan for the maximum stops at the first cell holding the greatest value, when
that value exceeds the starting maximum. -/
theorem maxProb_fold_first (M : FGAGridMap F) (pre post : List FCellRef) (c : FCellRef)
    (acc : F × FCellRef) (hacc : acc.1 < M.GetValue c 0)
    (hpre : ∀ d ∈ pre, M.GetValue d 0 < M.GetValue c 0)
    (hpost : ∀ d ∈ post, M.GetValue d 0 ≤ M.GetValue c 0) :
    (pre ++ c :: post).foldl (fun acc CellRef =>
      let CellProbability := M.GetValue CellRef 0
      if CellProbability > acc.1 then (CellProbability, CellRef) else acc) acc
      = (M.GetValue c 0, c) := by
  induction pre generalizing acc with
  | nil =>
    simp only [List.nil_append, List.foldl_cons]
    rw [if_pos hacc]
    exact maxProb_fold_none M post _ hpost
  | cons e pre ih =>
    simp only [List.cons_append, List.foldl_cons]
    apply ih
    · split
      · exact hpre e (List.mem_cons_self _ _)
      · exact hacc
    · exact fun d hd => hpre d (List.mem_cons_of_mem _ hd)

theorem IsValid_of_mem_cellsXY (X Y : Nat) (c : FCellRef) (h : c ∈ cellsXY X Y) :
    c.IsValid = true := by
  have hc := (mem_cellsXY X Y c).mp h
  simp only [FCellRef.IsValid, Bool.and_eq_true, decide_eq_true_eq]
  constructor <;> omega

/-- The best guess when a cell is the first, in scan order, to hold the greatest mass and
that mass is positive. -/
theorem BestGuess_first_max (Grid : AGAGridActor F) (M : FGAGridMap F) (s : FTargetCache F)
    (pre post : List FCellRef) (c : FCellRef)
    (hsplit : cellsXY M.XCount M.YCount = pre ++ c :: post) (hpos : 0 < M.Data c)
    (hpre : ∀ d ∈ pre, M.Data d < M.Data c) (hpost : ∀ d ∈ post, M.Data d ≤ M.Data c) :
    OccupancyMapUpdate_BestGuess Grid M s = { s with Position := Grid.GetCellPosition c } := by
  have hval : ∀ d ∈ cellsXY M.XCount M.YCount, M.GetValue d 0 = M.Data d := by
    intro d hd
    simp [FGAGridMap.GetValue, (mem_cellsXY_iff_valid M d).mp hd]
  have hcm : c ∈ cellsXY M.XCount M.YCount := by rw [hsplit]; simp
  have hmax : OccupancyMapUpdate_maxProb M = (M.GetValue c 0, c) := by
    unfold OccupancyMapUpdate_maxProb
    rw [hsplit]
    apply maxProb_fold_first
    · rw [hval c hcm]; exact hpos
    · intro d hd
      rw [hval c hcm, hval d (by rw [hsplit]; simp [hd])]
      exact hpre d hd
    · intro d hd
      rw [hval c hcm, hval d (by rw [hsplit]; simp [hd])]
      exact hpost d hd
  simp only [OccupancyMapUpdate_BestGuess, hmax, IsValid_of_mem_cellsXY _ _ c hcm, if_true]

/-- The best guess is left alone when no cell holds positive mass. -/
theorem BestGuess_no_mass (Grid : AGAGridActor F) (M : FGAGridMap F) (s : FTargetCache F)
    (h : ∀ d, M.IsValidCell d = true → ¬ 0 < M.Data d) :
    OccupancyMapUpdate_BestGuess Grid M s = s := by
  have hmax : OccupancyMapUpdate_maxProb M = (0, FCellRef.Invalid) := by
    unfold OccupancyMapUpdate_maxProb
    apply maxProb_fold_none
    intro d hd
    have hv := (mem_cellsXY_iff_valid M d).mp hd
    simpa [FGAGridMap.GetValue, hv] using not_lt.mp (h d hv)
  simp [OccupancyMapUpdate_BestGuess, hmax, FCellRef.Invalid, FCellRef.IsValid]

theorem BestGuess_State (Grid : AGAGridActor F) (M : FGAGridMap F) (s : FTargetCache F) :
    (OccupancyMapUpdate_BestGuess Grid M s).State = s.State ∧
    (OccupancyMapUpdate_BestGuess Grid M s).Velocity = s.Velocity := by
  simp only [OccupancyMapUpdate_BestGuess]
  split <;> exact ⟨rfl, rfl⟩

theorem OccupancyMapUpdate_LastKnownState (E : Engine F)
    (PS : Option (List (UGAPerceptionComponent F))) (t : UGATargetComponent F)
    (Grid : AGAGridActor F) (hGrid : t.GridActor = some Grid) :
    (OccupancyMapUpdate E PS t).LastKnownState =
      OccupancyMapUpdate_BestGuess Grid (OccupancyMapUpdate E PS t).OccupancyMap
        t.LastKnownState := by
  simp [OccupancyMapUpdate, hGrid]

/-- C15 (best-guess position).  With a grid bound, `OccupancyMapUpdate` sets the
last-known position to the centre of the cell that is first, in the scan order `x`
outer and `y` inner, to hold the greatest post-prune mass, when that mass is `> 0`;
when no cell holds mass `> 0` the last-known position is unchanged.  Status and
velocity are never modified, with or without a grid. -/
theorem OccupancyMapUpdate_best_guess (E : Engine F)
    (PS : Option (List (UGAPerceptionComponent F))) (t : UGATargetComponent F) :
    (∀ Grid, t.GridActor = some Grid →
      (∀ pre post c,
        cellsXY (OccupancyMapUpdate E PS t).OccupancyMap.XCount
          (OccupancyMapUpdate E PS t).OccupancyMap.YCount = pre ++ c :: post →
        0 < (OccupancyMapUpdate E PS t).OccupancyMap.Data c →
        (∀ d ∈ pre, (OccupancyMapUpdate E PS t).OccupancyMap.Data d
          < (OccupancyMapUpdate E PS t).OccupancyMap.Data c) →
        (∀ d ∈ post, (OccupancyMapUpdate E PS t).OccupancyMap.Data d
          ≤ (OccupancyMapUpdate E PS t).OccupancyMap.Data c) →
        (OccupancyMapUpdate E PS t).LastKnownState.Position = Grid.GetCellPosition c) ∧
      ((∀ d, (OccupancyMapUpdate E PS t).OccupancyMap.IsValidCell d = true →
          ¬ 0 < (OccupancyMapUpdate E PS t).OccupancyMap.Data d) →
        (OccupancyMapUpdate E PS t).LastKnownState.Position = t.LastKnownState.Position)) ∧
    (OccupancyMapUpdate E PS t).LastKnownState.State = t.LastKnownState.State ∧
    (OccupancyMapUpdate E PS t).LastKnownState.Velocity = t.LastKnownState.Velocity := by
  refine ⟨fun Grid hGrid => ⟨?_, ?_⟩, Update_State E PS t, ?_⟩
  · intro pre post c hsplit hpos hpre hpost
    rw [OccupancyMapUpdate_LastKnownState E PS t Grid hGrid,
      BestGuess_first_max Grid _ _ pre post c hsplit hpos hpre hpost]
  · intro h
    rw [OccupancyMapUpdate_LastKnownState E PS t Grid hGrid, BestGuess_no_mass Grid _ _ h]
  · cases hG : t.GridActor with
    | none => simp [OccupancyMapUpdate, hG]
    | some Grid =>
      rw [OccupancyMapUpdate_LastKnownState E PS t Grid hG]
      exact (BestGuess_State Grid _ _).2

/-- The map `OccupancyMapUpdate` leaves on the skewed 2 by 1 belief when no observer is
registered: nothing is visible, the total is `1`, the masses stay `1/4` and `3/4`. -/
theorem exampleSkewed_updated :
    (OccupancyMapUpdate stubEngine none exampleSkewed).OccupancyMap.XCount = 2 ∧
    (OccupancyMapUpdate stubEngine none exampleSkewed).OccupancyMap.YCount = 1 ∧
    (OccupancyMapUpdate stubEngine none exampleSkewed).OccupancyMap.Data ⟨0, 0⟩ = 1 / 4 ∧
    (OccupancyMapUpdate stubEngine none exampleSkewed).OccupancyMap.Data ⟨1, 0⟩ = 3 / 4 := by
  have hT : nonVisibleMass (OccupancyMapUpdate_VisibilityMap stubEngine (exampleGrid 2 1) none)
      exampleSkewed.OccupancyMap = 1 := by
    simp [nonVisibleMass, OccupancyMapUpdate_VisibilityMap, FGAGridMap.ofGrid, exampleSkewed,
      exampleTarget, cellsXY_two_one, FGAGridMap.GetValue, FGAGridMap.IsValidCell,
      List.filter_cons]
    norm_num
  have hvis : ∀ c, ¬ (OccupancyMapUpdate_VisibilityMap stubEngine (exampleGrid 2 1)
      none).GetValue c 0 > 0 := by
    intro c
    simp [OccupancyMapUpdate_VisibilityMap, FGAGridMap.ofGrid, FGAGridMap.GetValue]
  rw [OccupancyMapUpdate_OccupancyMap stubEngine none exampleSkewed (exampleGrid 2 1) rfl]
  refine ⟨by rw [Prune_XCount]; rfl, by rw [Prune_YCount]; rfl, ?_, ?_⟩
  · rw [Prune_Data, hT]
    simp only [hvis, if_false]
    simp [exampleSkewed, exampleTarget, FGAGridMap.IsValidCell]
  · rw [Prune_Data, hT]
    simp only [hvis, if_false]
    simp [exampleSkewed, exampleTarget, FGAGridMap.IsValidCell]

/-- On the skewed 2 by 1 belief the greatest mass `3/4` is first met at cell `(1, 0)`, so
the last-known position becomes the centre of that cell. -/
theorem OccupancyMapUpdate_best_guess_witness :
    exampleSkewed.GridActor = some (exampleGrid 2 1) ∧
    (OccupancyMapUpdate stubEngine none exampleSkewed).LastKnownState.Position
      = (exampleGrid 2 1).GetCellPosition ⟨1, 0⟩ := by
  obtain ⟨hx, hy, h0, h1⟩ := exampleSkewed_updated
  refine ⟨rfl, ((OccupancyMapUpdate_best_guess stubEngine none exampleSkewed).1
    (exampleGrid 2 1) rfl).1 [⟨0, 0⟩] [] ⟨1, 0⟩ ?_ ?_ ?_ ?_⟩
  · rw [hx, hy, cellsXY_two_one]; rfl
  · rw [h1]; norm_num
  · intro d hd
    rw [List.mem_singleton] at hd
    rw [hd, h0, h1]; norm_num
  · intro d hd
    exact absurd hd (List.not_mem_nil d)

end BestGuess

/-! ## Diffusion, cell by cell -/

section DiffusionCells

variable {F : Type} [LinearOrderedField F]

/-- A property kept by every iteration of a loop holds after the loop. -/
theorem foldl_invariant {α β : Type} (P : α → Prop) (f : α → β → α) (l : List β) (a : α)
    (h0 : P a) (hstep : ∀ x d, d ∈ l → P x → P (f x d)) : P (l.foldl f a) := by
  induction l generalizing a with
  | nil => exact h0
  | cons e l ih =>
    exact ih _ (hstep a e (List.mem_cons_self _ _) h0)
      (fun x d hd hx => hstep x d (List.mem_cons_of_mem _ hd) hx)

/-- The inner loop of `OccupancyMapDiffuse` over any neighbour list: an in-bounds cell
gains `per` once for each of its occurrences in the list. -/
theorem neighbours_fold_data (ns : List FCellRef) (per : F) (m : FGAGridMap F) (e : FCellRef) :
    (ns.foldl (fun m n => m.SetValue n (m.GetValue n 0 + per)) m).Data e =
      if m.IsValidCell e = true then m.Data e + (ns.count e : F) * per else m.Data e := by
  induction ns generalizing m with
  | nil => simp
  | cons n ns ih =>
    simp only [List.foldl_cons]
    rw [ih, SetValue_IsValidCell, SetValue_Data, List.count_cons]
    by_cases hv : m.IsValidCell e = true
    · by_cases hen : e = n
      · subst hen
        simp only [hv, and_self, if_true, FGAGridMap.GetValue, beq_self_eq_true, Nat.cast_add,
          Nat.cast_one]
        ring
      · have hne : (n == e) = false := by simpa using Ne.symm hen
        simp only [hv, hen, false_and, if_false, if_true, hne, Bool.false_eq_true, Nat.cast_add,
          Nat.cast_zero, add_zero]
    · simp only [hv, Bool.false_eq_true, if_false]
      by_cases hen : e = n
      · subst hen; simp [hv]
      · simp [hen]

/-- The body of the diffusion loop at a traversable cell holding mass in the snapshot. -/
theorem diffuse_cell_active (Grid : AGAGridActor F) (orig live : FGAGridMap F) (c : FCellRef)
    (ht : Grid.IsTraversable c = true) (hpos : 0 < orig.GetValue c 0) :
    OccupancyMapDiffuse_cell Grid orig live c =
      if (Grid.GetNeighbors c).length > 0 then
        (Grid.GetNeighbors c).foldl (fun m n => m.SetValue n (m.GetValue n 0 +
            orig.GetValue c 0 * (1 / 10) / ((Grid.GetNeighbors c).length : F)))
          (live.SetValue c (orig.GetValue c 0 - orig.GetValue c 0 * (1 / 10)))
      else
        (live.SetValue c (orig.GetValue c 0 - orig.GetValue c 0 * (1 / 10))).SetValue c
          (orig.GetValue c 0) := by
  simp only [OccupancyMapDiffuse_cell, ht, Bool.not_true, Bool.false_eq_true, if_false,
    not_le.mpr hpos]

/-- The body of the diffusion loop either skips the cell or treats it as active. -/
theorem diffuse_cell_cases (Grid : AGAGridActor F) (orig live : FGAGridMap F) (c : FCellRef) :
    OccupancyMapDiffuse_cell Grid orig live c = live ∨
      (Grid.IsTraversable c = true ∧ 0 < orig.GetValue c 0) := by
  by_cases ht : Grid.IsTraversable c = true
  · by_cases hpos : 0 < orig.GetValue c 0
    · exact Or.inr ⟨ht, hpos⟩
    · exact Or.inl (diffuse_cell_idle Grid orig live c (Or.inr (not_lt.mp hpos)))
  · exact Or.inl (diffuse_cell_idle Grid orig live c (Or.inl (by simpa using ht)))

theorem diffuse_cell_IsValidCell (Grid : AGAGridActor F) (orig live : FGAGridMap F)
    (c e : FCellRef) :
    (OccupancyMapDiffuse_cell Grid orig live c).IsValidCell e = live.IsValidCell e := by
  obtain ⟨h1, h2⟩ := diffuse_cell_dims Grid orig live c
  simp [FGAGridMap.IsValidCell, h1, h2]

/-- The body of the diffusion loop at `c` does not touch a cell that is neither `c` nor
one of its neighbours. -/
theorem diffuse_cell_Data_far (Grid : AGAGridActor F) (orig live : FGAGridMap F)
    (c e : FCellRef) (hec : e ≠ c) (hen : e ∉ Grid.GetNeighbors c) :
    (OccupancyMapDiffuse_cell Grid orig live c).Data e = live.Data e := by
  rcases diffuse_cell_cases Grid orig live c with h | ⟨ht, hpos⟩
  · rw [h]
  · rw [diffuse_cell_active Grid orig live c ht hpos]
    split
    · rw [neighbours_fold_data, List.count_eq_zero_of_not_mem hen, SetValue_Data]
      simp [hec]
    · rw [SetValue_Data, SetValue_Data]
      simp [hec]

/-- The body of the diffusion loop at `c` never lowers another cell. -/
theorem diffuse_cell_Data_ge (Grid : AGAGridActor F) (orig live : FGAGridMap F)
    (c e : FCellRef) (hec : e ≠ c) :
    live.Data e ≤ (OccupancyMapDiffuse_cell Grid orig live c).Data e := by
  rcases diffuse_cell_cases Grid orig live c with h | ⟨ht, hpos⟩
  · rw [h]
  · rw [diffuse_cell_active Grid orig live c ht hpos]
    split
    · rename_i hlen
      rw [neighbours_fold_data, SetValue_IsValidCell, SetValue_Data]
      simp only [hec, false_and, if_false]
      split
      · have hper : 0 ≤ orig.GetValue c 0 * (1 / 10) / ((Grid.GetNeighbors c).length : F) :=
          div_nonneg (mul_nonneg (le_of_lt hpos) (by norm_num)) (Nat.cast_nonneg _)
        have hcnt : (0 : F) ≤ ((Grid.GetNeighbors c).count e : F) := Nat.cast_nonneg _
        nlinarith [mul_nonneg hcnt hper]
      · exact le_refl _
    · rw [SetValue_Data, SetValue_Data]
      simp [hec]

/-- The body of the diffusion loop at an active in-bounds cell `c` leaves at least `0.9`
of the snapshot mass in `c`, and exactly the snapshot mass when `c` has no neighbour. -/
theorem diffuse_cell_Data_self (Grid : AGAGridActor F) (orig live : FGAGridMap F)
    (c : FCellRef) (ht : Grid.IsTraversable c = true) (hpos : 0 < orig.GetValue c 0)
    (hv : live.IsValidCell c = true) :
    orig.GetValue c 0 - orig.GetValue c 0 * (1 / 10)
        ≤ (OccupancyMapDiffuse_cell Grid orig live c).Data c ∧
      (Grid.GetNeighbors c = [] →
        (OccupancyMapDiffuse_cell Grid orig live c).Data c = orig.GetValue c 0) := by
  rw [diffuse_cell_active Grid orig live c ht hpos]
  constructor
  · split
    · rw [neighbours_fold_data, SetValue_IsValidCell, SetValue_Data]
      simp only [hv, and_self, if_true]
      have hper : 0 ≤ orig.GetValue c 0 * (1 / 10) / ((Grid.GetNeighbors c).length : F) :=
        div_nonneg (mul_nonneg (le_of_lt hpos) (by norm_num)) (Nat.cast_nonneg _)
      have hcnt : (0 : F) ≤ ((Grid.GetNeighbors c).count c : F) := Nat.cast_nonneg _
      nlinarith [mul_nonneg hcnt hper]
    · rw [SetValue_Data, SetValue_IsValidCell]
      simp only [hv, and_self, if_true]
      have : 0 ≤ orig.GetValue c 0 * (1 / 10) := mul_nonneg (le_of_lt hpos) (by norm_num)
      linarith
  · intro hn
    simp only [hn, List.length_nil, gt_iff_lt, lt_self_iff_false, if_false]
    rw [SetValue_Data, SetValue_IsValidCell]
    simp [hv]

end DiffusionCells

/-! ## Isolated cells and non-negativity -/

section Invariants

variable {F : Type} [LinearOrderedField F]

/-- C16 (isolated cells).  With a grid bound, a cell that has no traversable neighbour
and is in no cell's neighbour list holds the same mass after `OccupancyMapDiffuse`
as before; in particular a traversable one. -/
theorem OccupancyMapDiffuse_isolated (t : UGATargetComponent F) (Grid : AGAGridActor F)
    (c : FCellRef) (hGrid : t.GridActor = some Grid) (hnone : Grid.GetNeighbors c = [])
    (hnobody : ∀ d, t.OccupancyMap.IsValidCell d = true → c ∉ Grid.GetNeighbors d) :
    (OccupancyMapDiffuse t).OccupancyMap.Data c = t.OccupancyMap.Data c := by
  rw [Diffuse_OccupancyMap t Grid hGrid]
  have hinv := foldl_invariant
    (fun live : FGAGridMap F => live.Data c = t.OccupancyMap.Data c ∧
      ∀ e, live.IsValidCell e = t.OccupancyMap.IsValidCell e)
    (OccupancyMapDiffuse_cell Grid t.OccupancyMap)
    (cellsYX t.OccupancyMap.XCount t.OccupancyMap.YCount) t.OccupancyMap
    ⟨rfl, fun _ => rfl⟩
    (by
      intro live d hd ⟨hdata, hvalid⟩
      refine ⟨?_, fun e => by rw [diffuse_cell_IsValidCell, hvalid]⟩
      by_cases hdc : d = c
      · subst hdc
        rcases diffuse_cell_cases Grid t.OccupancyMap live d with h | ⟨ht, hpos⟩
        · rw [h]; exact hdata
        · have hv : t.OccupancyMap.IsValidCell d = true := (mem_cellsYX_iff_valid _ d).mp hd
          rw [(diffuse_cell_Data_self Grid t.OccupancyMap live d ht hpos
            (by rw [hvalid]; exact hv)).2 hnone]
          simp [FGAGridMap.GetValue, hv]
      · rw [diffuse_cell_Data_far Grid t.OccupancyMap live d c (Ne.symm hdc)
          (hnobody d ((mem_cellsYX_iff_valid _ d).mp hd))]
        exact hdata)
  exact hinv.1

/-- The single cell of the 1 by 1 grid is traversable, has no neighbour, and keeps its
mass `1/3` through `OccupancyMapDiffuse`. -/
theorem OccupancyMapDiffuse_isolated_witness :
    ((exampleLonely (1 / 3)).GridActor = some (exampleGrid 1 1) ∧
      (exampleGrid 1 1).IsTraversable ⟨0, 0⟩ = true ∧
      (exampleGrid 1 1).GetNeighbors ⟨0, 0⟩ = []) ∧
    (OccupancyMapDiffuse (exampleLonely (1 / 3))).OccupancyMap.Data ⟨0, 0⟩ = 1 / 3 := by
  have hn : (exampleGrid 1 1).GetNeighbors ⟨0, 0⟩ = [] := by decide
  refine ⟨⟨rfl, rfl, hn⟩, ?_⟩
  rw [OccupancyMapDiffuse_isolated (exampleLonely (1 / 3)) (exampleGrid 1 1) ⟨0, 0⟩ rfl hn]
  · rfl
  · intro d hd
    have hd0 : d = ⟨0, 0⟩ := by
      obtain ⟨dx, dy⟩ := d
      have h := (IsValidCell_iff (exampleLonely (1 / 3)).OccupancyMap ⟨dx, dy⟩).mp hd
      simp only [exampleLonely, exampleTarget, Nat.cast_one] at h
      simp only [FCellRef.mk.injEq]
      omega
    rw [hd0, hn]
    exact List.not_mem_nil _

theorem SetPosition_map_nonneg (Grid : AGAGridActor F) (M : FGAGridMap F) (p : FVector F) :
    (OccupancyMapSetPosition_map Grid M p).NonNegative := by
  intro c hc
  rw [SetPosition_map_IsValidCell] at hc
  rw [SetPosition_map_Data]
  simp only [hc, if_true]
  split
  · exact zero_le_one
  · exact le_refl _

theorem Prune_nonneg (vis M : FGAGridMap F) (hnn : M.NonNegative) :
    (OccupancyMapUpdate_Prune vis M).NonNegative := by
  intro c hc
  rw [Prune_IsValidCell] at hc
  rw [Prune_Data]
  simp only [hc, if_true]
  split
  · exact le_refl _
  · split
    · rename_i hT
      exact div_nonneg (hnn c hc) (le_of_lt hT)
    · exact hnn c hc

theorem diffuse_cell_nonneg (Grid : AGAGridActor F) (orig live : FGAGridMap F) (c : FCellRef)
    (hnn : live.NonNegative) : (OccupancyMapDiffuse_cell Grid orig live c).NonNegative := by
  intro e he
  rw [diffuse_cell_IsValidCell] at he
  by_cases hec : e = c
  · subst hec
    rcases diffuse_cell_cases Grid orig live e with h | ⟨ht, hpos⟩
    · rw [h]; exact hnn e he
    · have h1 := (diffuse_cell_Data_self Grid orig live e ht hpos he).1
      have h2 : 0 ≤ orig.GetValue e 0 - orig.GetValue e 0 * (1 / 10) := by
        have : orig.GetValue e 0 - orig.GetValue e 0 * (1 / 10)
            = orig.GetValue e 0 * (9 / 10) := by ring
        rw [this]
        exact mul_nonneg (le_of_lt hpos) (by norm_num)
      exact le_trans h2 h1
  · exact le_trans (hnn e he) (diffuse_cell_Data_ge Grid orig live c e hec)

theorem Diffuse_map_nonneg (Grid : AGAGridActor F) (M : FGAGridMap F) (hnn : M.NonNegative) :
    (OccupancyMapDiffuse_map Grid M).NonNegative :=
  foldl_invariant (fun live : FGAGridMap F => live.NonNegative)
    (OccupancyMapDiffuse_cell Grid M) _ M hnn
    (fun live d _ h => diffuse_cell_nonneg Grid M live d h)

theorem BeliefOp_apply_nonneg (op : BeliefOp F) (t : UGATargetComponent F)
    (hnn : t.OccupancyMap.NonNegative) : (op.apply t).OccupancyMap.NonNegative := by
  cases hG : t.GridActor with
  | none =>
    cases op <;>
      simpa [BeliefOp.apply, OccupancyMapSetPosition, OccupancyMapUpdate, OccupancyMapDiffuse,
        hG] using hnn
  | some Grid =>
    cases op with
    | SetPosition p =>
      simp only [BeliefOp.apply, SetPosition_OccupancyMap t Grid p hG]
      exact SetPosition_map_nonneg Grid _ p
    | Update E PS =>
      simp only [BeliefOp.apply, OccupancyMapUpdate_OccupancyMap E PS t Grid hG]
      exact Prune_nonneg _ _ hnn
    | Diffuse =>
      simp only [BeliefOp.apply, Diffuse_OccupancyMap t Grid hG]
      exact Diffuse_map_nonneg Grid _ hnn

/-- C17 (non-negativity).  If every cell of the belief map is `≥ 0`, so is every cell
after `OccupancyMapSetPosition`, after `OccupancyMapUpdate` and after
`OccupancyMapDiffuse`, hence after any sequence of these operations; the all-zero
map a target is registered with is such a start. -/
theorem belief_nonnegative (t : UGATargetComponent F) (hnn : t.OccupancyMap.NonNegative) :
    (∀ Position, (OccupancyMapSetPosition t Position).OccupancyMap.NonNegative) ∧
    (∀ World PerceptionSystem,
      (OccupancyMapUpdate World PerceptionSystem t).OccupancyMap.NonNegative) ∧
    (OccupancyMapDiffuse t).OccupancyMap.NonNegative ∧
    (∀ ops : List (BeliefOp F), (BeliefOp.run ops t).OccupancyMap.NonNegative) := by
  refine ⟨fun p => BeliefOp_apply_nonneg (BeliefOp.SetPosition p) t hnn,
    fun E PS => BeliefOp_apply_nonneg (BeliefOp.Update E PS) t hnn,
    BeliefOp_apply_nonneg BeliefOp.Diffuse t hnn, fun ops => ?_⟩
  unfold BeliefOp.run
  exact foldl_invariant (fun x : UGATargetComponent F => x.OccupancyMap.NonNegative)
    (fun t op => op.apply t) ops t hnn (fun x op _ hx => BeliefOp_apply_nonneg op x hx)

/-- From the all-zero map on the 3 by 3 grid, the map after collapse, diffusion, update
and diffusion again has no negative cell. -/
theorem belief_nonnegative_witness :
    (exampleTarget 3 3 ETargetState.GATS_Unknown (fun _ => 0)).OccupancyMap.NonNegative ∧
    (BeliefOp.run
      [BeliefOp.SetPosition ⟨3 / 2, 3 / 2, 0⟩, BeliefOp.Diffuse,
        BeliefOp.Update stubEngine (some [exampleWatcher 0]), BeliefOp.Diffuse]
      (exampleTarget 3 3 ETargetState.GATS_Unknown (fun _ => 0))).OccupancyMap.NonNegative := by
  have hnn : (exampleTarget 3 3 ETargetState.GATS_Unknown
      (fun _ => 0)).OccupancyMap.NonNegative := by
    intro c _
    simp [exampleTarget]
  exact ⟨hnn, (belief_nonnegative _ hnn).2.2.2 _⟩

end Invariants

/-! ## Diffusion never creates mass -/

section MassBound

variable {F : Type} [LinearOrderedField F]

/-- Changing a function at one point of a duplicate-free list changes the sum of its
values over the list by the difference at that point. -/
theorem sum_map_point_update (l : List FCellRef) (hl : l.Nodup) (c : FCellRef) (hc : c ∈ l)
    (f g : FCellRef → F) (hfg : ∀ d ∈ l, d ≠ c → g d = f d) :
    (l.map g).sum = (l.map f).sum + (g c - f c) := by
  induction l with
  | nil => exact absurd hc (List.not_mem_nil c)
  | cons e l ih =>
    rw [List.nodup_cons] at hl
    simp only [List.map_cons, List.sum_cons]
    by_cases hec : e = c
    · subst hec
      have hrest : l.map g = l.map f :=
        List.map_congr_left (fun d hd =>
          hfg d (List.mem_cons_of_mem _ hd) (fun h => hl.1 (h ▸ hd)))
      rw [hrest]
      ring
    · have hcl : c ∈ l := by
        rcases List.mem_cons.mp hc with h | h
        · exact absurd h.symm hec
        · exact h
      rw [ih hl.2 hcl (fun d hd hne => hfg d (List.mem_cons_of_mem _ hd) hne),
        hfg e (List.mem_cons_self _ _) hec]
      ring

/-- Writing `v` to an in-bounds cell changes the total mass by `v` minus the old value. -/
theorem totalMass_SetValue (m : FGAGridMap F) (c : FCellRef) (v : F)
    (hv : m.IsValidCell c = true) :
    totalMass (m.SetValue c v) = totalMass m + (v - m.Data c) := by
  unfold totalMass
  rw [SetValue_XCount, SetValue_YCount,
    sum_map_point_update _ (nodup_cellsXY _ _) c ((mem_cellsXY_iff_valid m c).mpr hv)
      (fun d => m.GetValue d 0) (fun d => (m.SetValue c v).GetValue d 0)
      (fun d _ hne => GetValue_SetValue_ne m c d v hne)]
  simp [FGAGridMap.GetValue, SetValue_IsValidCell, SetValue_Data, hv]

theorem SetValue_of_not_valid {G : Type} (m : FGAGridMap G) (c : FCellRef) (v : G)
    (hv : ¬ m.IsValidCell c = true) : m.SetValue c v = m := by
  simp [FGAGridMap.SetValue, hv]

/-- The inner loop of `OccupancyMapDiffuse` adds at most `per` per neighbour. -/
theorem neighbours_fold_total (ns : List FCellRef) (per : F) (hper : 0 ≤ per)
    (m : FGAGridMap F) :
    totalMass (ns.foldl (fun m n => m.SetValue n (m.GetValue n 0 + per)) m)
      ≤ totalMass m + (ns.length : F) * per := by
  induction ns generalizing m with
  | nil => simp
  | cons n ns ih =>
    simp only [List.foldl_cons, List.length_cons, Nat.cast_add, Nat.cast_one]
    refine le_trans (ih _) ?_
    by_cases hv : m.IsValidCell n = true
    · rw [totalMass_SetValue m n _ hv]
      simp only [FGAGridMap.GetValue, hv, if_true]
      apply le_of_eq
      ring
    · rw [SetValue_of_not_valid m n _ hv]
      nlinarith

/-- The body of the diffusion loop does not raise the total mass when the live value of
the visited cell is at least its snapshot value. -/
theorem diffuse_cell_total (Grid : AGAGridActor F) (orig live : FGAGridMap F) (c : FCellRef)
    (hvalid : ∀ e, live.IsValidCell e = orig.IsValidCell e)
    (hge : orig.GetValue c 0 ≤ live.GetValue c 0) :
    totalMass (OccupancyMapDiffuse_cell Grid orig live c) ≤ totalMass live := by
  rcases diffuse_cell_cases Grid orig live c with h | ⟨ht, hpos⟩
  · rw [h]
  · have hov : orig.IsValidCell c = true := by
      by_contra hn
      simp [FGAGridMap.GetValue, hn] at hpos
    have hlv : live.IsValidCell c = true := by rw [hvalid]; exact hov
    have hge2 : orig.GetValue c 0 ≤ live.Data c := by
      simpa [FGAGridMap.GetValue, hlv] using hge
    rw [diffuse_cell_active Grid orig live c ht hpos]
    have h1 := totalMass_SetValue live c
      (orig.GetValue c 0 - orig.GetValue c 0 * (1 / 10)) hlv
    split
    · rename_i hlen
      have hk : (0 : F) < ((Grid.GetNeighbors c).length : F) := by exact_mod_cast hlen
      have hper : 0 ≤ orig.GetValue c 0 * (1 / 10) / ((Grid.GetNeighbors c).length : F) :=
        div_nonneg (mul_nonneg (le_of_lt hpos) (by norm_num)) (le_of_lt hk)
      refine le_trans (neighbours_fold_total _ _ hper _) ?_
      rw [h1, mul_div_cancel₀ _ (ne_of_gt hk)]
      linarith
    · rw [totalMass_SetValue _ c _ (by rw [SetValue_IsValidCell]; exact hlv), h1,
        SetValue_Data]
      simp only [hlv, and_self, if_true]
      linarith

/-- Diffusion over a duplicate-free visiting order does not raise the total mass when
every cell still to visit holds at least its snapshot value. -/
theorem diffuse_over_total (Grid : AGAGridActor F) (orig : FGAGridMap F) (l : List FCellRef)
    (hl : l.Nodup) (live : FGAGridMap F)
    (hvalid : ∀ e, live.IsValidCell e = orig.IsValidCell e)
    (hge : ∀ d ∈ l, orig.GetValue d 0 ≤ live.GetValue d 0) :
    totalMass (OccupancyMapDiffuse_over Grid orig l live) ≤ totalMass live := by
  induction l generalizing live with
  | nil => exact le_refl _
  | cons c l ih =>
    rw [List.nodup_cons] at hl
    have hvalid2 : ∀ e, (OccupancyMapDiffuse_cell Grid orig live c).IsValidCell e
        = orig.IsValidCell e := fun e => by rw [diffuse_cell_IsValidCell, hvalid]
    refine le_trans (ih hl.2 (OccupancyMapDiffuse_cell Grid orig live c) hvalid2 ?_)
      (diffuse_cell_total Grid orig live c hvalid (hge c (List.mem_cons_self _ _)))
    intro d hd
    have hdc : d ≠ c := fun h => hl.1 (h ▸ hd)
    refine le_trans (hge d (List.mem_cons_of_mem _ hd)) ?_
    have hData := diffuse_cell_Data_ge Grid orig live c d hdc
    simp only [FGAGridMap.GetValue, diffuse_cell_IsValidCell]
    split
    · exact hData
    · exact le_refl _

/-- C18 as amended (diffusion never creates mass, exact arithmetic).  With the
arithmetic of `OccupancyMapDiffuse` carried out exactly, the sum of all cell masses
after it is at most the sum before, for every belief map and every topology; in
particular for non-negative masses and duplicate-free neighbour lists. -/
theorem OccupancyMapDiffuse_mass_le (t : UGATargetComponent F) :
    totalMass (OccupancyMapDiffuse t).OccupancyMap ≤ totalMass t.OccupancyMap := by
  cases hG : t.GridActor with
  | none => simp [OccupancyMapDiffuse, hG]
  | some Grid =>
    rw [Diffuse_OccupancyMap t Grid hG]
    exact diffuse_over_total Grid t.OccupancyMap _ (nodup_cellsYX _ _) t.OccupancyMap
      (fun _ => rfl) (fun _ _ => le_refl _)

end MassBound

/-! ## Pruning twice -/

section PruneTwice

variable {F : Type} [LinearOrderedField F]

/-- The mass on the non-visible cells after pruning: `1` when it was positive, unchanged
otherwise. -/
theorem Prune_nonVisibleMass (vis m : FGAGridMap F) :
    nonVisibleMass vis (OccupancyMapUpdate_Prune vis m) =
      if nonVisibleMass vis m > 0 then 1 else nonVisibleMass vis m := by
  have hterm : ∀ c ∈ (cellsXY m.XCount m.YCount).filter
      (fun c => decide (vis.GetValue c 0 ≤ 0)),
      (OccupancyMapUpdate_Prune vis m).GetValue c 0 =
        if nonVisibleMass vis m > 0 then m.GetValue c 0 * (nonVisibleMass vis m)⁻¹
        else m.GetValue c 0 := by
    intro c hc
    obtain ⟨hmem, hvis⟩ := List.mem_filter.mp hc
    have hv : m.IsValidCell c = true := (mem_cellsXY_iff_valid m c).mp hmem
    have hvis2 : ¬ vis.GetValue c 0 > 0 := not_lt.mpr (of_decide_eq_true hvis)
    have h1 : (OccupancyMapUpdate_Prune vis m).GetValue c 0
        = (OccupancyMapUpdate_Prune vis m).Data c := by
      simp [FGAGridMap.GetValue, Prune_IsValidCell, hv]
    have h2 : m.GetValue c 0 = m.Data c := by simp [FGAGridMap.GetValue, hv]
    rw [h1, h2, Prune_Data]
    simp only [hv, if_true, hvis2, if_false, div_eq_mul_inv]
  conv_lhs => unfold nonVisibleMass
  rw [Prune_XCount, Prune_YCount, List.map_congr_left hterm]
  by_cases hT : nonVisibleMass vis m > 0
  · simp only [hT, if_true]
    rw [List.sum_map_mul_right]
    exact mul_inv_cancel₀ (ne_of_gt hT)
  · simp only [hT, if_false]
    rfl

/-- Pruning against the same visibility map a second time changes nothing. -/
theorem Prune_idempotent (vis m : FGAGridMap F) :
    OccupancyMapUpdate_Prune vis (OccupancyMapUpdate_Prune vis m)
      = OccupancyMapUpdate_Prune vis m := by
  apply FGAGridMap.ext_of
  · rw [Prune_XCount]
  · rw [Prune_YCount]
  · intro d
    rw [Prune_Data vis (OccupancyMapUpdate_Prune vis m) d, Prune_IsValidCell,
      Prune_nonVisibleMass]
    by_cases hv : m.IsValidCell d = true
    · simp only [hv, if_true]
      by_cases hvis : vis.GetValue d 0 > 0
      · simp only [hvis, if_true]
        rw [Prune_Data]
        simp [hv, hvis]
      · simp only [hvis, if_false]
        by_cases hT : nonVisibleMass vis m > 0
        · simp [hT]
        · simp [hT]
    · simp [hv]

/-- The best guess computed twice from the same map is the best guess computed once. -/
theorem BestGuess_idempotent (Grid : AGAGridActor F) (M : FGAGridMap F) (s : FTargetCache F) :
    OccupancyMapUpdate_BestGuess Grid M (OccupancyMapUpdate_BestGuess Grid M s)
      = OccupancyMapUpdate_BestGuess Grid M s := by
  simp only [OccupancyMapUpdate_BestGuess]
  split <;> rfl

/-- C19 as amended (pruning is idempotent under a fixed visibility map, exact
arithmetic).  With the arithmetic of `OccupancyMapUpdate` carried out exactly and
the world and the observers fixed, the method run twice in a row leaves the same
target state (the same map and the same last-known position) as run once, for every
belief map; in particular for non-negative masses. -/
theorem OccupancyMapUpdate_idempotent (E : Engine F)
    (PS : Option (List (UGAPerceptionComponent F))) (t : UGATargetComponent F) :
    OccupancyMapUpdate E PS (OccupancyMapUpdate E PS t) = OccupancyMapUpdate E PS t := by
  cases hG : t.GridActor with
  | none => simp [OccupancyMapUpdate, hG]
  | some Grid =>
    have h1 : OccupancyMapUpdate E PS t =
        { t with
          OccupancyMap := OccupancyMapUpdate_Prune
            (OccupancyMapUpdate_VisibilityMap E Grid PS) t.OccupancyMap
          LastKnownState := OccupancyMapUpdate_BestGuess Grid
            (OccupancyMapUpdate_Prune (OccupancyMapUpdate_VisibilityMap E Grid PS)
              t.OccupancyMap) t.LastKnownState } := by
      simp [OccupancyMapUpdate, hG]
    rw [h1]
    simp only [OccupancyMapUpdate, hG, Prune_idempotent, BestGuess_idempotent]

end PruneTwice

/-! ## Binary32 arithmetic -/

section Binary32

theorem f32Exponent_eq (q : ℚ) (k : Int) (hq : 0 < q) (hlo : (2 : ℚ) ^ k ≤ q)
    (hhi : q < (2 : ℚ) ^ (k + 1)) (hk : -149 ≤ k - 23) : f32Exponent q = k - 23 := by
  have hlog : Int.log 2 |q| = k := by
    rw [abs_of_pos hq]
    have h1 : k ≤ Int.log 2 q :=
      (Int.zpow_le_iff_le_log (by norm_num) hq).mp (by exact_mod_cast hlo)
    have h2 : Int.log 2 q < k + 1 :=
      (Int.lt_zpow_iff_log_lt (by norm_num) hq).mp (by exact_mod_cast hhi)
    omega
  unfold f32Exponent
  rw [hlog, max_eq_left hk]

/-- The value of `roundF32` at a positive `q` with binary exponent `k`: the significand is
`q / 2^(k-23)` rounded to the nearest integer, ties to even. -/
theorem roundF32_eq (q v : ℚ) (k m : Int) (hq : 0 < q) (hlo : (2 : ℚ) ^ k ≤ q)
    (hhi : q < (2 : ℚ) ^ (k + 1)) (hk : -149 ≤ k - 23)
    (hm : roundHalfEven (q / (2 : ℚ) ^ (k - 23)) = m)
    (hv : (m : ℚ) * (2 : ℚ) ^ (k - 23) = v) : roundF32 q = v := by
  unfold roundF32
  rw [if_neg (ne_of_gt hq), if_neg (not_lt.mpr (le_of_lt hq)), abs_of_pos hq,
    f32Exponent_eq q k hq hlo hhi hk, hm, hv]

theorem f32_tenth : roundF32 (1 / 10) = 13421773 / 134217728 :=
  roundF32_eq _ _ (-4) 13421773 (by norm_num) (by norm_num) (by norm_num) (by norm_num)
    (by norm_num [roundHalfEven]) (by norm_num)

theorem f32_tenth_fixed : roundF32 (13421773 / 134217728) = 13421773 / 134217728 :=
  roundF32_eq _ _ (-4) 13421773 (by norm_num) (by norm_num) (by norm_num) (by norm_num)
    (by norm_num [roundHalfEven]) (by norm_num)

theorem f32_095_fixed : roundF32 (15938355 / 16777216) = 15938355 / 16777216 :=
  roundF32_eq _ _ (-1) 15938355 (by norm_num) (by norm_num) (by norm_num) (by norm_num)
    (by norm_num [roundHalfEven]) (by norm_num)

theorem f32_spread :
    roundF32 (15938355 / 16777216 * (13421773 / 134217728)) = 3187671 / 33554432 :=
  roundF32_eq _ _ (-4) 12750684 (by norm_num) (by norm_num) (by norm_num) (by norm_num)
    (by norm_num [roundHalfEven]) (by norm_num)

theorem f32_spread_fixed : roundF32 (3187671 / 33554432) = 3187671 / 33554432 :=
  roundF32_eq _ _ (-4) 12750684 (by norm_num) (by norm_num) (by norm_num) (by norm_num)
    (by norm_num [roundHalfEven]) (by norm_num)

theorem f32_kept :
    roundF32 (15938355 / 16777216 - 3187671 / 33554432) = 1793065 / 2097152 :=
  roundF32_eq _ _ (-1) 14344520 (by norm_num) (by norm_num) (by norm_num) (by norm_num)
    (by norm_num [roundHalfEven]) (by norm_num)

theorem f32_two_tenths :
    roundF32 (13421773 / 134217728 + 13421773 / 134217728) = 13421773 / 67108864 :=
  roundF32_eq _ _ (-3) 13421773 (by norm_num) (by norm_num) (by norm_num) (by norm_num)
    (by norm_num [roundHalfEven]) (by norm_num)

theorem f32_three_tenths :
    roundF32 (13421773 / 67108864 + 13421773 / 134217728) = 5033165 / 16777216 :=
  roundF32_eq _ _ (-2) 10066330 (by norm_num) (by norm_num) (by norm_num) (by norm_num)
    (by norm_num [roundHalfEven]) (by norm_num)

theorem f32_third :
    roundF32 (13421773 / 134217728 / (5033165 / 16777216)) = 5592405 / 16777216 :=
  roundF32_eq _ _ (-2) 11184810 (by norm_num) (by norm_num) (by norm_num) (by norm_num)
    (by norm_num [roundHalfEven]) (by norm_num)

theorem f32_third_fixed : roundF32 (5592405 / 16777216) = 5592405 / 16777216 :=
  roundF32_eq _ _ (-2) 11184810 (by norm_num) (by norm_num) (by norm_num) (by norm_num)
    (by norm_num [roundHalfEven]) (by norm_num)

theorem f32_two_thirds :
    roundF32 (5592405 / 16777216 + 5592405 / 16777216) = 5592405 / 8388608 :=
  roundF32_eq _ _ (-1) 11184810 (by norm_num) (by norm_num) (by norm_num) (by norm_num)
    (by norm_num [roundHalfEven]) (by norm_num)

theorem f32_three_thirds :
    roundF32 (5592405 / 8388608 + 5592405 / 16777216) = 16777215 / 16777216 :=
  roundF32_eq _ _ (-1) 16777215 (by norm_num) (by norm_num) (by norm_num) (by norm_num)
    (by norm_num [roundHalfEven]) (by norm_num)

theorem f32_third_again :
    roundF32 (5592405 / 16777216 / (16777215 / 16777216)) = 11184811 / 33554432 :=
  roundF32_eq _ _ (-2) 11184811 (by norm_num) (by norm_num) (by norm_num) (by norm_num)
    (by norm_num [roundHalfEven]) (by norm_num)

end Binary32

/-! ## The float computation of diffusion and pruning -/

section Rounded

variable {F : Type} [LinearOrderedField F]

/-- With no rounding the rounded diffusion is `OccupancyMapDiffuse`. -/
theorem OccupancyMapDiffuse_rounded_id (t : UGATargetComponent F) :
    OccupancyMapDiffuse_rounded id t = OccupancyMapDiffuse t := rfl

/-- With no rounding the rounded update is `OccupancyMapUpdate`. -/
theorem OccupancyMapUpdate_rounded_id (E : Engine F)
    (PS : Option (List (UGAPerceptionComponent F))) (t : UGATargetComponent F) :
    OccupancyMapUpdate_rounded id E PS t = OccupancyMapUpdate E PS t := rfl

theorem cellsXY_three_one : cellsXY 3 1 = [⟨0, 0⟩, ⟨1, 0⟩, ⟨2, 0⟩] := by decide

/-- Rounded diffusion of the 2 by 1 belief holding `a > 0` in cell `(0, 0)` only: the kept
amount and the share received by `(1, 0)`, as the rounded operations produce them. -/
theorem diffuse_rounded_pair (rnd : ℚ → ℚ) (a : ℚ) (ha : 0 < a) :
    (OccupancyMapDiffuse_rounded rnd (exampleTarget 2 1 ETargetState.GATS_Hidden
        (fun c => if c = ⟨0, 0⟩ then a else 0))).OccupancyMap.XCount = 2 ∧
    (OccupancyMapDiffuse_rounded rnd (exampleTarget 2 1 ETargetState.GATS_Hidden
        (fun c => if c = ⟨0, 0⟩ then a else 0))).OccupancyMap.YCount = 1 ∧
    (OccupancyMapDiffuse_rounded rnd (exampleTarget 2 1 ETargetState.GATS_Hidden
        (fun c => if c = ⟨0, 0⟩ then a else 0))).OccupancyMap.Data ⟨0, 0⟩
      = rnd (a - rnd (a * rnd (1 / 10))) ∧
    (OccupancyMapDiffuse_rounded rnd (exampleTarget 2 1 ETargetState.GATS_Hidden
        (fun c => if c = ⟨0, 0⟩ then a else 0))).OccupancyMap.Data ⟨1, 0⟩
      = rnd (rnd (rnd (a * rnd (1 / 10)))) := by
  have hna : ¬ a ≤ 0 := not_le.mpr ha
  refine ⟨?_, ?_, ?_, ?_⟩ <;>
    simp [OccupancyMapDiffuse_rounded, OccupancyMapDiffuse_cell_rounded, exampleTarget,
      exampleGrid, cellsYX_two_one, FGAGridMap.GetValue, FGAGridMap.SetValue,
      FGAGridMap.IsValidCell, hna]

end Rounded

section RoundedPrune

/-- Rounded pruning of a 3 by 1 belief holding `a` in each cell when nothing is visible:
the total is accumulated with a rounding after each addition and each cell ends
with the rounded quotient. -/
theorem prune_rounded_uniform (rnd : ℚ → ℚ) (vis m : FGAGridMap ℚ) (a : ℚ)
    (hx : m.XCount = 3) (hy : m.YCount = 1)
    (h0 : m.Data ⟨0, 0⟩ = a) (h1 : m.Data ⟨1, 0⟩ = a) (h2 : m.Data ⟨2, 0⟩ = a)
    (hvis : ∀ c, vis.GetValue c 0 = 0) (hT : 0 < rnd (rnd (rnd a + a) + a)) :
    (OccupancyMapUpdate_Prune_rounded rnd vis m).XCount = 3 ∧
    (OccupancyMapUpdate_Prune_rounded rnd vis m).YCount = 1 ∧
    (OccupancyMapUpdate_Prune_rounded rnd vis m).Data ⟨0, 0⟩
      = rnd (a / rnd (rnd (rnd a + a) + a)) ∧
    (OccupancyMapUpdate_Prune_rounded rnd vis m).Data ⟨1, 0⟩
      = rnd (a / rnd (rnd (rnd a + a) + a)) ∧
    (OccupancyMapUpdate_Prune_rounded rnd vis m).Data ⟨2, 0⟩
      = rnd (a / rnd (rnd (rnd a + a) + a)) := by
  refine ⟨?_, ?_, ?_, ?_, ?_⟩ <;>
  · simp only [OccupancyMapUpdate_Prune_rounded, hx, hy, cellsXY_three_one, List.foldl_cons,
      List.foldl_nil, hvis, gt_iff_lt, lt_self_iff_false, if_false, le_refl, if_true]
    simp [FGAGridMap.GetValue, FGAGridMap.SetValue, FGAGridMap.IsValidCell, hx, hy, h0, h1, h2,
      hT]

theorem OccupancyMapUpdate_rounded_OccupancyMap (rnd : ℚ → ℚ) (E : Engine ℚ)
    (PS : Option (List (UGAPerceptionComponent ℚ))) (t : UGATargetComponent ℚ)
    (Grid : AGAGridActor ℚ) (hGrid : t.GridActor = some Grid) :
    (OccupancyMapUpdate_rounded rnd E PS t).GridActor = some Grid ∧
    (OccupancyMapUpdate_rounded rnd E PS t).OccupancyMap =
      OccupancyMapUpdate_Prune_rounded rnd (OccupancyMapUpdate_VisibilityMap E Grid PS)
        t.OccupancyMap := by
  simp [OccupancyMapUpdate_rounded, hGrid]

theorem VisibilityMap_none (E : Engine ℚ) (Grid : AGAGridActor ℚ) (c : FCellRef) :
    (OccupancyMapUpdate_VisibilityMap E Grid none).GetValue c 0 = 0 := by
  simp [OccupancyMapUpdate_VisibilityMap, FGAGridMap.ofGrid, FGAGridMap.GetValue]

/-- The binary32 update of the 3 by 1 belief holding `0.1f` everywhere, once and twice. -/
theorem exampleF32Uniform_updated :
    (OccupancyMapUpdate_rounded roundF32 stubEngine none exampleF32Uniform).OccupancyMap.Data
        ⟨0, 0⟩ = 5592405 / 16777216 ∧
    (OccupancyMapUpdate_rounded roundF32 stubEngine none
      (OccupancyMapUpdate_rounded roundF32 stubEngine none exampleF32Uniform)).OccupancyMap.Data
        ⟨0, 0⟩ = 11184811 / 33554432 := by
  obtain ⟨hG1, hM1⟩ := OccupancyMapUpdate_rounded_OccupancyMap roundF32 stubEngine none
    exampleF32Uniform (exampleGrid 3 1) rfl
  have hT1 : roundF32 (roundF32 (roundF32 (13421773 / 134217728) + 13421773 / 134217728)
      + 13421773 / 134217728) = 5033165 / 16777216 := by
    rw [f32_tenth_fixed, f32_two_tenths, f32_three_tenths]
  obtain ⟨hx1, hy1, h10, h11, h12⟩ := prune_rounded_uniform roundF32
    (OccupancyMapUpdate_VisibilityMap stubEngine (exampleGrid 3 1) none)
    exampleF32Uniform.OccupancyMap (13421773 / 134217728) rfl rfl rfl rfl rfl
    (VisibilityMap_none _ _) (by rw [hT1]; norm_num)
  rw [hT1, f32_third, ← hM1] at h10 h11 h12
  rw [← hM1] at hx1 hy1
  obtain ⟨_, hM2⟩ := OccupancyMapUpdate_rounded_OccupancyMap roundF32 stubEngine none
    (OccupancyMapUpdate_rounded roundF32 stubEngine none exampleF32Uniform) (exampleGrid 3 1) hG1
  have hT2 : roundF32 (roundF32 (roundF32 (5592405 / 16777216) + 5592405 / 16777216)
      + 5592405 / 16777216) = 16777215 / 16777216 := by
    rw [f32_third_fixed, f32_two_thirds, f32_three_thirds]
  obtain ⟨_, _, h20, _, _⟩ := prune_rounded_uniform roundF32
    (OccupancyMapUpdate_VisibilityMap stubEngine (exampleGrid 3 1) none)
    (OccupancyMapUpdate_rounded roundF32 stubEngine none exampleF32Uniform).OccupancyMap
    (5592405 / 16777216) hx1 hy1 h10 h11 h12
    (VisibilityMap_none _ _) (by rw [hT2]; norm_num)
  rw [hT2, f32_third_again, ← hM2] at h20
  exact ⟨h10, h20⟩

/-- The binary32 diffusion of the 2 by 1 belief holding `0.95f` in cell `(0, 0)`. -/
theorem exampleF32Diffuse_diffused :
    (OccupancyMapDiffuse_rounded roundF32 exampleF32Diffuse).OccupancyMap.XCount = 2 ∧
    (OccupancyMapDiffuse_rounded roundF32 exampleF32Diffuse).OccupancyMap.YCount = 1 ∧
    (OccupancyMapDiffuse_rounded roundF32 exampleF32Diffuse).OccupancyMap.Data ⟨0, 0⟩
      = 1793065 / 2097152 ∧
    (OccupancyMapDiffuse_rounded roundF32 exampleF32Diffuse).OccupancyMap.Data ⟨1, 0⟩
      = 3187671 / 33554432 := by
  obtain ⟨hx, hy, h0, h1⟩ := diffuse_rounded_pair roundF32 (15938355 / 16777216) (by norm_num)
  rw [f32_tenth, f32_spread, f32_kept] at h0
  rw [f32_tenth, f32_spread, f32_spread_fixed, f32_spread_fixed] at h1
  exact ⟨hx, hy, h0, h1⟩

end RoundedPrune

/-! ## The claims on exact relations, in binary32 -/

section Binary32Claims

theorem exampleGrid_neighbours_nodup (X Y : Nat) (c : FCellRef) :
    ((exampleGrid X Y).GetNeighbors c).Nodup := by
  obtain ⟨x, y⟩ := c
  apply List.Nodup.filter
  simp only [List.nodup_cons, List.mem_cons, List.mem_singleton, FCellRef.mk.injEq,
    List.not_mem_nil, not_false_eq_true, List.nodup_nil, and_true, not_or]
  omega

/-- C18 as stated, refuted on the binary32 computation: on the 2 by 1 grid (both cells
traversable, duplicate-free neighbour lists) holding the binary32 value `0.95f` in
cell `(0, 0)` and `0` in cell `(1, 0)`, `OccupancyMapDiffuse` with each operation
rounded to binary32 leaves `0.855000019` and `0.0949999988`, whose sum
`31876711 / 2^25` exceeds the sum before, `31876710 / 2^25`. -/
theorem OccupancyMapDiffuse_f32_mass_gained :
    (exampleF32Diffuse.OccupancyMap.NonNegative ∧
      (∀ c, ((exampleGrid 2 1).GetNeighbors c).Nodup) ∧
      roundF32 (15938355 / 16777216) = 15938355 / 16777216) ∧
    totalMass exampleF32Diffuse.OccupancyMap = 31876710 / 33554432 ∧
    totalMass (OccupancyMapDiffuse_rounded roundF32 exampleF32Diffuse).OccupancyMap
      = 31876711 / 33554432 ∧
    ¬ totalMass (OccupancyMapDiffuse_rounded roundF32 exampleF32Diffuse).OccupancyMap
      ≤ totalMass exampleF32Diffuse.OccupancyMap := by
  obtain ⟨hx, hy, h0, h1⟩ := exampleF32Diffuse_diffused
  have hnn : exampleF32Diffuse.OccupancyMap.NonNegative := by
    intro c _
    simp only [exampleF32Diffuse, exampleTarget]
    split <;> norm_num
  have hbefore : totalMass exampleF32Diffuse.OccupancyMap = 31876710 / 33554432 := by
    simp [totalMass, exampleF32Diffuse, exampleTarget, cellsXY_two_one, FGAGridMap.GetValue,
      FGAGridMap.IsValidCell]
    norm_num
  have hafter : totalMass (OccupancyMapDiffuse_rounded roundF32 exampleF32Diffuse).OccupancyMap
      = 31876711 / 33554432 := by
    unfold totalMass
    rw [hx, hy, cellsXY_two_one]
    simp only [List.map_cons, List.map_nil, List.sum_cons, List.sum_nil, FGAGridMap.GetValue,
      FGAGridMap.IsValidCell, hx, hy, h0, h1]
    norm_num
  refine ⟨⟨hnn, exampleGrid_neighbours_nodup 2 1, f32_095_fixed⟩, hbefore, hafter, ?_⟩
  rw [hbefore, hafter]
  norm_num

/-- C19 as stated, refuted on the binary32 computation: on the 3 by 1 grid holding the
binary32 value `0.1f` in every cell, with no observer registered (nothing visible),
`OccupancyMapUpdate` with each operation rounded to binary32 leaves `0.333333313` in
cell `(0, 0)` when run once and `0.333333343` when run twice, the second run
dividing by the rounded total `0.99999994`. -/
theorem OccupancyMapUpdate_f32_not_idempotent :
    (exampleF32Uniform.OccupancyMap.NonNegative ∧
      roundF32 (13421773 / 134217728) = 13421773 / 134217728) ∧
    (OccupancyMapUpdate_rounded roundF32 stubEngine none exampleF32Uniform).OccupancyMap.Data
        ⟨0, 0⟩ = 5592405 / 16777216 ∧
    (OccupancyMapUpdate_rounded roundF32 stubEngine none
      (OccupancyMapUpdate_rounded roundF32 stubEngine none exampleF32Uniform)).OccupancyMap.Data
        ⟨0, 0⟩ = 11184811 / 33554432 ∧
    OccupancyMapUpdate_rounded roundF32 stubEngine none
        (OccupancyMapUpdate_rounded roundF32 stubEngine none exampleF32Uniform)
      ≠ OccupancyMapUpdate_rounded roundF32 stubEngine none exampleF32Uniform := by
  obtain ⟨h1, h2⟩ := exampleF32Uniform_updated
  have hnn : exampleF32Uniform.OccupancyMap.NonNegative := by
    intro c _
    simp only [exampleF32Uniform, exampleTarget]
    norm_num
  refine ⟨⟨hnn, f32_tenth_fixed⟩, h1, h2, ?_⟩
  intro h
  rw [h, h1] at h2
  norm_num at h2

end Binary32Claims

/-! ## Pruning, on the method -/

section UpdateMethod

variable {F : Type} [LinearOrderedField F]

/-- C2 (normalisation after pruning, exact arithmetic).  With a grid bound and a belief
map with non-negative masses, let `V` be the visibility map `OccupancyMapUpdate`
builds from the registered observers.  After `OccupancyMapUpdate`, the mass on the
cells `V` does not mark visible is exactly `1` when it was `> 0` beforehand;
otherwise every cell of the map holds `0`. -/
theorem OccupancyMapUpdate_normalized (E : Engine F)
    (PS : Option (List (UGAPerceptionComponent F))) (t : UGATargetComponent F)
    (Grid : AGAGridActor F) (hGrid : t.GridActor = some Grid)
    (hnn : t.OccupancyMap.NonNegative) :
    (nonVisibleMass (OccupancyMapUpdate_VisibilityMap E Grid PS) t.OccupancyMap > 0 →
      nonVisibleMass (OccupancyMapUpdate_VisibilityMap E Grid PS)
        (OccupancyMapUpdate E PS t).OccupancyMap = 1) ∧
    (¬ nonVisibleMass (OccupancyMapUpdate_VisibilityMap E Grid PS) t.OccupancyMap > 0 →
      ∀ c, (OccupancyMapUpdate E PS t).OccupancyMap.IsValidCell c = true →
        (OccupancyMapUpdate E PS t).OccupancyMap.Data c = 0) := by
  rw [OccupancyMapUpdate_OccupancyMap E PS t Grid hGrid]
  constructor
  · intro hT
    rw [Prune_nonVisibleMass, if_pos hT]
  · intro hT c hc
    rw [Prune_IsValidCell] at hc
    rw [Prune_Data]
    simp only [hc, if_true, hT, if_false]
    split
    · rfl
    · rename_i hvis
      have hall := List.all_zero_of_sum_nonpos
        ((cellsXY t.OccupancyMap.XCount t.OccupancyMap.YCount).filter
          (fun c => decide ((OccupancyMapUpdate_VisibilityMap E Grid PS).GetValue c 0 ≤ 0)))
        (fun c => t.OccupancyMap.GetValue c 0)
        (by
          intro x hx
          have hvx : t.OccupancyMap.IsValidCell x = true :=
            (mem_cellsXY_iff_valid _ x).mp (List.mem_filter.mp hx).1
          simpa [FGAGridMap.GetValue, hvx] using hnn x hvx)
        (not_lt.mp hT)
      have hcmem : c ∈ (cellsXY t.OccupancyMap.XCount t.OccupancyMap.YCount).filter
          (fun c => decide ((OccupancyMapUpdate_VisibilityMap E Grid PS).GetValue c 0 ≤ 0)) :=
        List.mem_filter.mpr ⟨(mem_cellsXY_iff_valid _ c).mpr hc,
          decide_eq_true (not_lt.mp hvis)⟩
      simpa [FGAGridMap.GetValue, hc] using hall c hcmem

/-- C14 (per-cell result of pruning).  With a grid bound, let `V` be the visibility map
`OccupancyMapUpdate` builds and `T` the mass of the belief map on the cells `V` does
not mark visible.  After `OccupancyMapUpdate` every cell of the map that `V` marks
visible holds `0`, and every other cell holds `old / T` when `T > 0` and its old
value when `T` is not `> 0`. -/
theorem OccupancyMapUpdate_cells (E : Engine F)
    (PS : Option (List (UGAPerceptionComponent F))) (t : UGATargetComponent F)
    (Grid : AGAGridActor F) (hGrid : t.GridActor = some Grid) (c : FCellRef)
    (hc : t.OccupancyMap.IsValidCell c = true) :
    ((OccupancyMapUpdate_VisibilityMap E Grid PS).GetValue c 0 > 0 →
      (OccupancyMapUpdate E PS t).OccupancyMap.Data c = 0) ∧
    (¬ (OccupancyMapUpdate_VisibilityMap E Grid PS).GetValue c 0 > 0 →
      nonVisibleMass (OccupancyMapUpdate_VisibilityMap E Grid PS) t.OccupancyMap > 0 →
      (OccupancyMapUpdate E PS t).OccupancyMap.Data c = t.OccupancyMap.Data c /
        nonVisibleMass (OccupancyMapUpdate_VisibilityMap E Grid PS) t.OccupancyMap) ∧
    (¬ (OccupancyMapUpdate_VisibilityMap E Grid PS).GetValue c 0 > 0 →
      ¬ nonVisibleMass (OccupancyMapUpdate_VisibilityMap E Grid PS) t.OccupancyMap > 0 →
      (OccupancyMapUpdate E PS t).OccupancyMap.Data c = t.OccupancyMap.Data c) := by
  rw [OccupancyMapUpdate_OccupancyMap E PS t Grid hGrid]
  refine ⟨fun hv => ?_, fun hv hT => ?_, fun hv hT => ?_⟩
  · rw [Prune_Data]; simp only [hc, hv, if_true]
  · rw [Prune_Data]; simp only [hc, hv, hT, if_true, if_false]
  · rw [Prune_Data]; simp only [hc, hv, hT, if_true, if_false]

theorem cellsXY_two_two : cellsXY 2 2 = [⟨0, 0⟩, ⟨0, 1⟩, ⟨1, 0⟩, ⟨1, 1⟩] := by decide

/-- The visibility map built on the 2 by 1 grid for one observer at the origin behind
the wall at `x = 1`: cell `(0, 0)` is visible, cell `(1, 0)` is not. -/
theorem exampleWalled_visibility :
    (OccupancyMapUpdate_VisibilityMap walledEngine (exampleGrid 2 1)
      (some [exampleWatcher 0])).GetValue ⟨0, 0⟩ 0 = 1 ∧
    (OccupancyMapUpdate_VisibilityMap walledEngine (exampleGrid 2 1)
      (some [exampleWatcher 0])).GetValue ⟨1, 0⟩ 0 = 0 := by
  constructor <;>
  · simp [OccupancyMapUpdate_VisibilityMap, FGAGridMap.ofGrid, exampleGrid, cellsXY_two_two,
      TestVisibility, exampleWatcher, walledEngine, FGAGridMap.GetValue, FGAGridMap.SetValue,
      FGAGridMap.IsValidCell]
    try norm_num

/-- The mass of the skewed 2 by 1 belief on the cells that observer does not see. -/
theorem exampleWalled_nonVisibleMass :
    nonVisibleMass (OccupancyMapUpdate_VisibilityMap walledEngine (exampleGrid 2 1)
      (some [exampleWatcher 0])) exampleSkewed.OccupancyMap = 3 / 4 := by
  obtain ⟨hv0, hv1⟩ := exampleWalled_visibility
  unfold nonVisibleMass
  rw [show exampleSkewed.OccupancyMap.XCount = 2 from rfl,
    show exampleSkewed.OccupancyMap.YCount = 1 from rfl, cellsXY_two_one]
  simp only [List.filter_cons, List.filter_nil, hv0, hv1]
  norm_num [exampleSkewed, exampleTarget, FGAGridMap.GetValue, FGAGridMap.IsValidCell]

/-- On the 2 by 1 grid with `1/4` in the visible cell `(0, 0)` and `3/4` in the hidden
cell `(1, 0)`, the mass `3/4` on the non-visible cells is renormalised to `1` by
`OccupancyMapUpdate`. -/
theorem OccupancyMapUpdate_normalized_witness :
    (exampleSkewed.GridActor = some (exampleGrid 2 1) ∧
      exampleSkewed.OccupancyMap.NonNegative ∧
      nonVisibleMass (OccupancyMapUpdate_VisibilityMap walledEngine (exampleGrid 2 1)
        (some [exampleWatcher 0])) exampleSkewed.OccupancyMap = 3 / 4) ∧
    nonVisibleMass (OccupancyMapUpdate_VisibilityMap walledEngine (exampleGrid 2 1)
        (some [exampleWatcher 0]))
      (OccupancyMapUpdate walledEngine (some [exampleWatcher 0]) exampleSkewed).OccupancyMap
      = 1 := by
  have hnn : exampleSkewed.OccupancyMap.NonNegative := by
    intro c _
    simp only [exampleSkewed, exampleTarget]
    split <;> norm_num
  exact ⟨⟨rfl, hnn, exampleWalled_nonVisibleMass⟩,
    (OccupancyMapUpdate_normalized walledEngine (some [exampleWatcher 0]) exampleSkewed
      (exampleGrid 2 1) rfl hnn).1 (by rw [exampleWalled_nonVisibleMass]; norm_num)⟩

/-- On the same belief and world, after `OccupancyMapUpdate` the visible cell `(0, 0)`
holds `0` and the hidden cell `(1, 0)` holds `(3/4) / (3/4) = 1`. -/
theorem OccupancyMapUpdate_cells_witness :
    (exampleSkewed.GridActor = some (exampleGrid 2 1) ∧
      exampleSkewed.OccupancyMap.IsValidCell ⟨0, 0⟩ = true ∧
      exampleSkewed.OccupancyMap.IsValidCell ⟨1, 0⟩ = true) ∧
    (OccupancyMapUpdate walledEngine (some [exampleWatcher 0])
      exampleSkewed).OccupancyMap.Data ⟨0, 0⟩ = 0 ∧
    (OccupancyMapUpdate walledEngine (some [exampleWatcher 0])
      exampleSkewed).OccupancyMap.Data ⟨1, 0⟩ = 1 := by
  obtain ⟨hv0, hv1⟩ := exampleWalled_visibility
  refine ⟨⟨rfl, by decide, by decide⟩, ?_, ?_⟩
  · exact (OccupancyMapUpdate_cells walledEngine (some [exampleWatcher 0]) exampleSkewed
      (exampleGrid 2 1) rfl ⟨0, 0⟩ (by decide)).1 (by rw [hv0]; norm_num)
  · rw [(OccupancyMapUpdate_cells walledEngine (some [exampleWatcher 0]) exampleSkewed
      (exampleGrid 2 1) rfl ⟨1, 0⟩ (by decide)).2.1 (by rw [hv1]; norm_num)
      (by rw [exampleWalled_nonVisibleMass]; norm_num), exampleWalled_nonVisibleMass]
    simp [exampleSkewed, exampleTarget]

end UpdateMethod

end GameAI
